import Mathlib

/-!
# Aura (weather and transit display): verification of `src/main.cpp`

A shallow embedding of the data-refresh core of `main.cpp`:

* C strings are lists of `Char`, one `Char` per byte (`strlen` is `List.length`);
* `int` values are `Int`; the arithmetic of `day_of_week` wraps around at 32 bits
  (`int32`);
* a `float` or `double` value is the exact rational it holds; each floating-point
  operation of the weather refresh rounds its exact result to the format
  (`round_to_format`, `to_float`, `to_double`);
* global variables are fields of explicit state records, arrays are maps from the index;
* the HTTP client and the JSON library are external: what a request returns is an input
  of the embedded function.
-/

set_option maxRecDepth 4000

namespace Aura

/-! ## Strings -/

/-- A C string: the bytes before the terminator, one `Char` per byte. -/
abbrev CStr := List Char

/-- The bytes of an ASCII literal. -/
def lit (s : String) : CStr := s.toList

/-- The three UTF-8 bytes of the arrow in the transit row format strings. -/
def arrow : CStr := ['\xE2', '\x86', '\x92']

/-- The two UTF-8 bytes of the degree sign in the temperature format strings. -/
def degree : CStr := ['\xC2', '\xB0']

/-- `strncpy(dst, src, n)` read back as a string: the first `n` bytes of `src` (the byte of
`dst` after them is taken to be the terminator, as it is in a zero-initialised array). -/
def strncpy (src : CStr) (n : Nat) : CStr := src.take n

/-- `strncpy(dst, src, n)` into a field of `n + 1` bytes of an uninitialised local array,
read back as a string. A source shorter than `n` is copied and padded with zero bytes: the
field holds the source. A source of `n` bytes or more fills the `n` bytes and no terminator
is written: the string read from the field is these `n` bytes followed by `rest`, the bytes
that happen to follow them in memory up to the next zero byte. -/
def strncpy_uninit (rest : CStr) (src : CStr) (n : Nat) : CStr :=
  if src.length < n then src else src.take n ++ rest

/-- `snprintf(buf, size, ...)`: the formatted text cut to `size - 1` bytes. -/
def snprintf (size : Nat) (text : CStr) : CStr := text.take (size - 1)

/-- The conversion `%d`. -/
def fmt_d (n : Int) : CStr := (toString n).toList

/-! ## Translations (`translations.h` is not part of the sources: taken as a parameter) -/

/-- The fields of `LocalizedStrings` that `main.cpp` reads in the embedded functions. -/
structure LocalizedStrings where
  invalid_hour : CStr
  am : CStr
  pm : CStr
  noon : CStr
  today : CStr
  now : CStr
  weekdays : Nat → CStr
  feels_like_temp : CStr
  sunrise : CStr
  sunset : CStr
  due : CStr
  mins : CStr
  no_arrivals : CStr
  seven_day_forecast : CStr
  hourly_forecast : CStr
  transit_title : CStr

/-- The enumeration `Language`, by its integer value. -/
abbrev Language := Nat

/-- What `translations.h` provides: the value of `LANG_FR` and the table `get_strings`. -/
structure Translations where
  LANG_FR : Language
  get_strings : Language → LocalizedStrings

/-! ## Transit: data -/

/-- The record `struct ArrivalInfo`. -/
structure ArrivalInfo where
  line : CStr
  destination : CStr
  timeToStation : Int
deriving DecidableEq, Repr

/-- One element of the JSON array of a TfL response, as read through the JSON library:
a member is `none` when `arrival["..."]` is null (absent or of another type). -/
structure JsonArrival where
  lineName : Option CStr
  destinationName : Option CStr
  towards : Option CStr
  timeToStation : Option Int
deriving DecidableEq, Repr

/-- `arrival["timeToStation"].as<int>()`: 0 for a null member. -/
def JsonArrival.timeToStation_as_int (a : JsonArrival) : Int := a.timeToStation.getD 0

/-- The outcome of one `http.GET()` followed by `deserializeJson`. -/
inductive HttpResult where
  /-- `http.GET() != HTTP_CODE_OK` -/
  | failed
  /-- `deserializeJson(doc, payload) != DeserializationError::Ok` -/
  | badJson
  /-- parsed; `arrivals` are the elements of `doc.as<JsonArray>()` -/
  | ok (arrivals : List JsonArrival)
deriving DecidableEq, Repr

/-- The network as seen by one call of `fetch_tfl_arrivals`. -/
structure TransitEnv where
  /-- `WiFi.status() == WL_CONNECTED` -/
  wifi_connected : Bool
  /-- the outcome of the request for bus stop number `stop` -/
  bus_response : Nat → HttpResult
  /-- the outcome of the request for the tube station -/
  tube_response : HttpResult
  /-- the uninitialised memory of the local array `all_arrivals`: for slot `k`, the bytes
  that follow the first 15 bytes of `line` and the first 31 bytes of `destination`, up to
  the next zero byte -/
  all_arrivals_rest : Nat → CStr × CStr

/-- `MAX_BUS_STOPS` -/
def MAX_BUS_STOPS : Nat := 3

/-- The transit globals of `main.cpp` and the text of the eight arrival labels. -/
structure TransitState where
  bus_stop_ids : Nat → CStr
  tube_station_id : CStr
  bus_arrivals : Nat → ArrivalInfo
  tube_arrivals : Nat → ArrivalInfo
  bus_arrival_count : Nat
  tube_arrival_count : Nat
  lbl_bus_arrivals : Nat → CStr
  lbl_tube_arrivals : Nat → CStr

/-! ## Transit: `fetch_bus_arrivals` -/

/-- `any_bus_stop_configured()` -/
def any_bus_stop_configured (s : TransitState) : Bool :=
  (List.range MAX_BUS_STOPS).any (fun i => 0 < (s.bus_stop_ids i).length)

/-- The null JSON object, which `arrivals[i]` is for an index outside the array. -/
def JsonArrival.null : JsonArrival := ⟨none, none, none, none⟩

/-- The three assignments that fill one slot of the local array `all_arrivals` from a JSON
element; `rest` is what the uninitialised slot holds after the bytes that `strncpy`
writes. -/
def bus_info (rest : CStr × CStr) (arrival : JsonArrival) : ArrivalInfo where
  line := strncpy_uninit rest.1 (arrival.lineName.getD (lit "?")) 15
  destination := strncpy_uninit rest.2 (arrival.destinationName.getD (lit "?")) 31
  timeToStation := arrival.timeToStation_as_int

/-- The body of the loop over one stop's response: entry `i` of the response is written to
slot `total_count` of the pool while the pool holds fewer than 30 entries. -/
def pool_entry (env : TransitEnv) (arrivals : List JsonArrival)
    (all_arrivals : List ArrivalInfo) (i : Nat) : List ArrivalInfo :=
  if all_arrivals.length < 30 then
    all_arrivals ++
      [bus_info (env.all_arrivals_rest all_arrivals.length)
        (arrivals[i]?.getD JsonArrival.null)]
  else all_arrivals

/-- One iteration of the loop over the bus stops: `all_arrivals` (its length is
`total_count`) after stop number `stop` has been queried. -/
def pool_stop (env : TransitEnv) (s : TransitState) (all_arrivals : List ArrivalInfo)
    (stop : Nat) : List ArrivalInfo :=
  if (s.bus_stop_ids stop).length = 0 then all_arrivals
  else
    match env.bus_response stop with
    | .ok arrivals =>
        let count := min arrivals.length 10
        (List.range count).foldl (pool_entry env arrivals) all_arrivals
    | .badJson => all_arrivals
    | .failed => all_arrivals

/-- The pooled list built by the first loop of `fetch_bus_arrivals`. -/
def bus_pool (env : TransitEnv) (s : TransitState) : List ArrivalInfo :=
  (List.range MAX_BUS_STOPS).foldl (pool_stop env s) []

/-- The body of the inner sorting loop: neighbours `j`, `j + 1` are exchanged when the
first has the larger `timeToStation`. -/
def bus_swap (all_arrivals : List ArrivalInfo) (j : Nat) : List ArrivalInfo :=
  match all_arrivals[j]?, all_arrivals[j + 1]? with
  | some x, some y =>
      if x.timeToStation > y.timeToStation then (all_arrivals.set j y).set (j + 1) x
      else all_arrivals
  | _, _ => all_arrivals

/-- The bubble sort of `fetch_bus_arrivals`:
`for i < total_count - 1` / `for j < total_count - i - 1`. -/
def bus_sort (all_arrivals : List ArrivalInfo) : List ArrivalInfo :=
  let total_count := all_arrivals.length
  (List.range (total_count - 1)).foldl
    (fun a i => (List.range (total_count - i - 1)).foldl bus_swap a) all_arrivals

/-- The end of `fetch_bus_arrivals`: the count is set and the first entries are copied. -/
def store_bus (s : TransitState) (all_arrivals : List ArrivalInfo) : TransitState :=
  let bus_arrival_count := min all_arrivals.length 4
  (List.range bus_arrival_count).foldl
    (fun s i =>
      { s with bus_arrivals :=
          Function.update s.bus_arrivals i (all_arrivals.getD i (s.bus_arrivals i)) })
    { s with bus_arrival_count := bus_arrival_count }

/-- `fetch_bus_arrivals()` -/
def fetch_bus_arrivals (env : TransitEnv) (s : TransitState) : TransitState :=
  if !env.wifi_connected then s
  else store_bus s (bus_sort (bus_pool env s))

/-- The entries of `bus_arrivals` below `bus_arrival_count`. -/
def retained_bus (s : TransitState) : List ArrivalInfo :=
  (List.range s.bus_arrival_count).map s.bus_arrivals

/-! ## Transit: `fetch_tube_arrivals` -/

/-- The body of the inner sorting loop on the parallel arrays `times` and `indices`. -/
def tube_swap (ti : List Int × List Nat) (j : Nat) : List Int × List Nat :=
  match ti.1[j]?, ti.1[j + 1]?, ti.2[j]?, ti.2[j + 1]? with
  | some t0, some t1, some i0, some i1 =>
      if t0 > t1 then ((ti.1.set j t1).set (j + 1) t0, (ti.2.set j i1).set (j + 1) i0)
      else ti
  | _, _, _, _ => ti

/-- The bubble sort of `fetch_tube_arrivals` on the first `count` slots of `times` and
`indices`. -/
def tube_sort (count : Nat) (ti : List Int × List Nat) : List Int × List Nat :=
  (List.range (count - 1)).foldl
    (fun a i => (List.range (count - i - 1)).foldl tube_swap a) ti

/-- The three assignments that fill one slot of `tube_arrivals` from a JSON element. -/
def tube_info (arrival : JsonArrival) : ArrivalInfo where
  line := strncpy (arrival.lineName.getD (lit "?")) 15
  destination := strncpy (arrival.towards.getD (arrival.destinationName.getD (lit "?"))) 31
  timeToStation := arrival.timeToStation_as_int

/-- The parsed branch of `fetch_tube_arrivals`. -/
def store_tube (s : TransitState) (arrivals : List JsonArrival) : TransitState :=
  let count := min arrivals.length 10
  let indices := (List.range count).map (fun i => i)
  let times := (List.range count).map
    (fun i => (arrivals[i]?.getD JsonArrival.null).timeToStation_as_int)
  let sorted := tube_sort count (times, indices)
  let tube_arrival_count := min count 4
  (List.range tube_arrival_count).foldl
    (fun s i =>
      let arrival := arrivals[sorted.2.getD i 0]?.getD JsonArrival.null
      { s with tube_arrivals := Function.update s.tube_arrivals i (tube_info arrival) })
    { s with tube_arrival_count := tube_arrival_count }

/-- `fetch_tube_arrivals()` -/
def fetch_tube_arrivals (env : TransitEnv) (s : TransitState) : TransitState :=
  if !env.wifi_connected then s
  else
    match env.tube_response with
    | .ok arrivals => store_tube s arrivals
    | .badJson => { s with tube_arrival_count := 0 }
    | .failed => { s with tube_arrival_count := 0 }

/-- The entries of `tube_arrivals` below `tube_arrival_count`. -/
def retained_tube (s : TransitState) : List ArrivalInfo :=
  (List.range s.tube_arrival_count).map s.tube_arrivals

/-! ## Transit: `update_transit_display` and `fetch_tfl_arrivals` -/

/-- The text built in `buf` for one arrival, after the truncation to 35 bytes. -/
def arrival_row (strings : LocalizedStrings) (a : ArrivalInfo) : CStr :=
  let mins := a.timeToStation.tdiv 60
  let buf :=
    if mins ≤ 0 then
      snprintf 64 (a.line ++ lit " " ++ arrow ++ lit " " ++ a.destination ++ lit ": "
        ++ strings.due)
    else
      snprintf 64 (a.line ++ lit " " ++ arrow ++ lit " " ++ a.destination ++ lit ": "
        ++ fmt_d mins ++ lit " " ++ strings.mins)
  if buf.length > 35 then buf.take 32 ++ lit "..." else buf

/-- The text given to `lbl_bus_arrivals[i]`. -/
def bus_row (strings : LocalizedStrings) (s : TransitState) (i : Nat) : CStr :=
  if i < s.bus_arrival_count then arrival_row strings (s.bus_arrivals i)
  else if i = 0 ∧ s.bus_arrival_count = 0 ∧ any_bus_stop_configured s then strings.no_arrivals
  else lit ""

/-- The text given to `lbl_tube_arrivals[i]`. -/
def tube_row (strings : LocalizedStrings) (s : TransitState) (i : Nat) : CStr :=
  if i < s.tube_arrival_count then arrival_row strings (s.tube_arrivals i)
  else if i = 0 ∧ s.tube_arrival_count = 0 ∧ 0 < s.tube_station_id.length then
    strings.no_arrivals
  else lit ""

/-- `update_transit_display()` -/
def update_transit_display (strings : LocalizedStrings) (s : TransitState) : TransitState :=
  let s := (List.range 4).foldl
    (fun s i =>
      { s with lbl_bus_arrivals := Function.update s.lbl_bus_arrivals i (bus_row strings s i) })
    s
  (List.range 4).foldl
    (fun s i =>
      { s with lbl_tube_arrivals :=
          Function.update s.lbl_tube_arrivals i (tube_row strings s i) })
    s

/-- `fetch_tfl_arrivals()` -/
def fetch_tfl_arrivals (strings : LocalizedStrings) (env : TransitEnv) (s : TransitState) :
    TransitState :=
  let s := if any_bus_stop_configured s then fetch_bus_arrivals env s else s
  let s := if 0 < s.tube_station_id.length then fetch_tube_arrivals env s else s
  update_transit_display strings s

/-! ## Formatter: `day_of_week`, `hour_of_day`, number formats -/

/-- The user preferences read by the formatter and the weather refresh. -/
structure Prefs where
  use_fahrenheit : Bool
  use_24_hour : Bool
  current_language : Language

/-- The value that a 32-bit `int` holds after an arithmetic operation with the exact result
`x`: a result outside the range of `int` wraps around (two's complement). -/
def int32 (x : Int) : Int := (x + 2147483648) % 4294967296 - 2147483648

/-- `day_of_week(y, m, d)` on 32-bit `int` arguments; `none` when `t[m - 1]` is read outside
the 12-entry table. -/
def day_of_week (y m d : Int) : Option Int :=
  let t : List Int := [0, 3, 2, 5, 0, 3, 5, 1, 4, 6, 2, 4]
  let y := if m < 3 then int32 (y - 1) else y
  if 0 ≤ int32 (m - 1) then
    match t[(int32 (m - 1)).toNat]? with
    | some tm =>
        some ((int32 (int32 (int32 (int32 (int32 (y + y.tdiv 4) - y.tdiv 100) + y.tdiv 400)
          + tm) + d)).tmod 7)
    | none => none
  else none

/-- `hour_of_day(hour)` -/
def hour_of_day (T : Translations) (p : Prefs) (hour : Int) : CStr :=
  let strings := T.get_strings p.current_language
  if hour < 0 ∨ hour > 23 then strings.invalid_hour
  else if p.use_24_hour then
    if hour < 10 then lit "0" ++ fmt_d hour else fmt_d hour
  else if hour = 0 then lit "12" ++ strings.am
  else if hour = 12 then strings.noon
  else
    let isMorning := decide (hour < 12)
    let suffix := if isMorning then strings.am else strings.pm
    let displayHour := hour.tmod 12
    fmt_d displayHour ++ suffix

/-- The digits read by `atoi`, after the sign. -/
def atoi_digits : CStr → Nat → Nat
  | c :: r, acc => if c.isDigit then atoi_digits r (acc * 10 + (c.toNat - 48)) else acc
  | [], acc => acc

/-- `isspace` in the C locale. -/
def isspace (c : Char) : Bool :=
  c = ' ' || c = '\t' || c = '\n' || c = '\x0b' || c = '\x0c' || c = '\r'

/-- `atoi(s)`: white space, an optional sign, then the leading decimal digits. -/
def atoi (s : CStr) : Int :=
  match s.dropWhile isspace with
  | '-' :: r => -(atoi_digits r 0 : Int)
  | '+' :: r => (atoi_digits r 0 : Int)
  | r => (atoi_digits r 0 : Int)

/-- `atoi(s + n)` for a `const char *s`: `none` when `s` is null or `s + n` points past the
terminator of the string. -/
def atoi_at (s : Option CStr) (n : Nat) : Option Int :=
  match s with
  | some s => if n ≤ s.length then some (atoi (s.drop n)) else none
  | none => none

/-- Rounding of a non-negative value to an integer, ties to the even neighbour. -/
def round_half_even (q : ℚ) : Int :=
  let f := ⌊q⌋
  let r := q - f
  if r < 1 / 2 then f else if 1 / 2 < r then f + 1 else if f % 2 = 0 then f else f + 1

/-- The conversion `%.0f`. -/
def fmt_f0 (q : ℚ) : CStr :=
  (if q < 0 then lit "-" else []) ++ fmt_d (round_half_even |q|)

/-- The conversion `%.1f`. -/
def fmt_f1 (q : ℚ) : CStr :=
  let n := round_half_even (|q| * 10)
  (if q < 0 then lit "-" else []) ++ fmt_d (n / 10) ++ lit "." ++ fmt_d (n % 10)

/-- The conversion `%02d`. -/
def fmt_02d (n : Int) : CStr :=
  if 0 ≤ n ∧ n < 10 then lit "0" ++ fmt_d n else fmt_d n

/-! ## Floating-point arithmetic -/

/-- The number of binary digits of `n` after the first, `⌊log₂ n⌋`, by repeated halving;
`fuel` bounds the number of halvings and `n` itself is enough. -/
def log2_floor : Nat → Nat → Nat
  | 0, _ => 0
  | fuel + 1, n => if n < 2 then 0 else log2_floor fuel (n / 2) + 1

/-- The binary exponent of a value `q` other than 0: the `e` with
`2 ^ e ≤ |q| < 2 ^ (e + 1)`. -/
def binary_exponent (q : ℚ) : Int :=
  let a : Int :=
    (log2_floor q.num.natAbs q.num.natAbs : Int) - (log2_floor q.den q.den : Int)
  if (2 : ℚ) ^ a ≤ |q| then a else a - 1

/-- Rounding to the nearest number of a binary floating-point format with `p` significand
bits whose normal numbers start at `2 ^ emin`, ties to the even significand. The result
is exact in a format without largest number; `to_float` and `to_double` add the ranges. -/
def round_to_format (p : Nat) (emin : Int) (q : ℚ) : ℚ :=
  if q = 0 then 0
  else
    let e := max (binary_exponent |q|) emin
    let ulp : ℚ := 2 ^ (e - ((p : Int) - 1))
    (if q < 0 then -1 else 1) * ((round_half_even (|q| / ulp) : Int) : ℚ) * ulp

/-- The `float` (IEEE binary32) that an exact value is rounded to; `none` for a value that
rounds beyond the largest `float`, for which the result is an infinity. -/
def to_float (q : ℚ) : Option ℚ :=
  let r := round_to_format 24 (-126) q
  if |r| < 2 ^ 128 then some r else none

/-- The `double` (IEEE binary64) that an exact value is rounded to; `none` for a value that
rounds beyond the largest `double`. -/
def to_double (q : ℚ) : Option ℚ :=
  let r := round_to_format 53 (-1022) q
  if |r| < 2 ^ 1024 then some r else none

/-- The statement `t = t * 9.0 / 5.0 + 32.0` on a `float t`: the three operations are done
in `double` and the result is stored into the `float`. -/
def to_fahrenheit (t : ℚ) : Option ℚ := do
  let a ← to_double (t * 9)
  let b ← to_double (a / 5)
  let c ← to_double (b + 32)
  to_float c

/-- The constant `0.1f`: the `float` nearest to one tenth. -/
def float_0_1 : ℚ := 13421773 / 134217728

/-- The constant `25.4f`: the `float` nearest to 25.4. -/
def float_25_4 : ℚ := 13316915 / 524288

/-! ## Weather: the classifier tables -/

/-- The names of the image assets declared with `LV_IMG_DECLARE`. -/
inductive Asset where
  | blizzard | blowing_snow | clear_night | cloudy | drizzle | flurries
  | haze_fog_dust_smoke | heavy_rain | heavy_snow
  | isolated_scattered_tstorms_day | isolated_scattered_tstorms_night
  | mostly_clear_night | mostly_cloudy_day | mostly_cloudy_night | mostly_sunny
  | partly_cloudy | partly_cloudy_night | scattered_showers_day | scattered_showers_night
  | showers_rain | sleet_hail | snow_showers_snow | strong_tstorms | sunny | tornado
  | wintry_mix_rain_snow
deriving DecidableEq, Repr

/-- An image descriptor: `&image_<name>` or `&icon_<name>`. -/
inductive ImgDsc where
  | image (a : Asset)
  | icon (a : Asset)
deriving DecidableEq, Repr

/-- `choose_image(code, is_day)` -/
def choose_image (code is_day : Int) : ImgDsc :=
  match code with
  | 0 => if is_day ≠ 0 then .image .sunny else .image .clear_night
  | 1 => if is_day ≠ 0 then .image .mostly_sunny else .image .mostly_clear_night
  | 2 => if is_day ≠ 0 then .image .partly_cloudy else .image .partly_cloudy_night
  | 3 => .image .cloudy
  | 45 | 48 => .image .haze_fog_dust_smoke
  | 51 | 53 | 55 => .image .drizzle
  | 56 | 57 => .image .sleet_hail
  | 61 => if is_day ≠ 0 then .image .scattered_showers_day else .image .scattered_showers_night
  | 63 => .image .showers_rain
  | 65 => .image .heavy_rain
  | 66 | 67 => .image .wintry_mix_rain_snow
  | 71 | 73 | 75 | 85 => .image .snow_showers_snow
  | 77 => .image .flurries
  | 80 | 81 =>
      if is_day ≠ 0 then .image .scattered_showers_day else .image .scattered_showers_night
  | 82 => .image .heavy_rain
  | 86 => .image .heavy_snow
  | 95 =>
      if is_day ≠ 0 then .image .isolated_scattered_tstorms_day
      else .image .isolated_scattered_tstorms_night
  | 96 | 99 => .image .strong_tstorms
  | _ => if is_day ≠ 0 then .image .mostly_cloudy_day else .image .mostly_cloudy_night

/-- `choose_icon(code, is_day)` -/
def choose_icon (code is_day : Int) : ImgDsc :=
  match code with
  | 0 => if is_day ≠ 0 then .icon .sunny else .icon .clear_night
  | 1 => if is_day ≠ 0 then .icon .mostly_sunny else .icon .mostly_clear_night
  | 2 => if is_day ≠ 0 then .icon .partly_cloudy else .icon .partly_cloudy_night
  | 3 => .icon .cloudy
  | 45 | 48 => .icon .haze_fog_dust_smoke
  | 51 | 53 | 55 => .icon .drizzle
  | 56 | 57 => .icon .sleet_hail
  | 61 => if is_day ≠ 0 then .icon .scattered_showers_day else .icon .scattered_showers_night
  | 63 => .icon .showers_rain
  | 65 => .icon .heavy_rain
  | 66 | 67 => .icon .wintry_mix_rain_snow
  | 71 | 73 | 75 | 85 => .icon .snow_showers_snow
  | 77 => .icon .flurries
  | 80 | 81 =>
      if is_day ≠ 0 then .icon .scattered_showers_day else .icon .scattered_showers_night
  | 82 => .icon .heavy_rain
  | 86 => .icon .heavy_snow
  | 95 =>
      if is_day ≠ 0 then .icon .isolated_scattered_tstorms_day
      else .icon .isolated_scattered_tstorms_night
  | 96 | 99 => .icon .strong_tstorms
  | _ => if is_day ≠ 0 then .icon .mostly_cloudy_day else .icon .mostly_cloudy_night

/-! ## Weather: `fetch_and_update_weather` -/

/-- The forecast document as read through the JSON library: each field holds what the
accessor used in `main.cpp` returns (`as<float>()`, `as<int>()`, or the conversion to
`const char*`, which is `none` for a null pointer). A `float` field holds the exact value
of the `float` that was read. -/
structure WeatherDoc where
  current_temperature_2m : ℚ
  current_apparent_temperature : ℚ
  current_weather_code : Int
  current_is_day : Int
  utc_offset_seconds : Int
  daily_time : List (Option CStr)
  daily_temperature_2m_min : List ℚ
  daily_temperature_2m_max : List ℚ
  daily_weather_code : List Int
  daily_sunrise : List (Option CStr)
  daily_sunset : List (Option CStr)
  hourly_time : List (Option CStr)
  hourly_temperature_2m : List ℚ
  hourly_precipitation_probability : List ℚ
  hourly_precipitation : List ℚ
  hourly_weather_code : List Int
  hourly_is_day : List Int

/-- The outcome of the forecast request. -/
inductive WeatherResponse where
  /-- `http.GET() != HTTP_CODE_OK` -/
  | failed
  /-- `deserializeJson(doc, payload) != DeserializationError::Ok` -/
  | badJson
  /-- parsed -/
  | ok (doc : WeatherDoc)

/-- The network as seen by one call of `fetch_and_update_weather`. -/
structure WeatherEnv where
  /-- `WiFi.status() == WL_CONNECTED` on entry -/
  wifi_connected : Bool
  /-- `WiFi.status() == WL_CONNECTED` after the reconnection attempt -/
  wifi_reconnected : Bool
  response : WeatherResponse

/-- What the weather refresh writes: the text of the weather labels, the source of the
weather images, and the UTC offset given to `configTime`. -/
structure WeatherState where
  lbl_today_temp : CStr
  lbl_today_feels_like : CStr
  img_today_icon : ImgDsc
  lbl_sunrise : CStr
  lbl_sunset : CStr
  lbl_daily_day : Nat → CStr
  lbl_daily_high : Nat → CStr
  lbl_daily_low : Nat → CStr
  img_daily : Nat → ImgDsc
  lbl_hourly : Nat → CStr
  lbl_precipitation_probability : Nat → CStr
  lbl_hourly_temp : Nat → CStr
  img_hourly : Nat → ImgDsc
  config_utc_offset : Int

/-- The conversion `if (use_fahrenheit) t = t * 9.0 / 5.0 + 32.0;` of a `float t`; `none`
when the result is no finite `float`. -/
def display_temperature (p : Prefs) (t : ℚ) : Option ℚ :=
  if p.use_fahrenheit then to_fahrenheit t else some t

/-- The block that displays today's sunrise and sunset times. -/
def sun_labels (p : Prefs) (strings : LocalizedStrings) (doc : WeatherDoc)
    (st : WeatherState) : Option WeatherState :=
  if 0 < doc.daily_sunrise.length ∧ 0 < doc.daily_sunset.length then do
    let sunrise_str := doc.daily_sunrise.getD 0 none
    let sunset_str := doc.daily_sunset.getD 0 none
    let sunrise_hour ← atoi_at sunrise_str 11
    let sunrise_min ← atoi_at sunrise_str 14
    let sunset_hour ← atoi_at sunset_str 11
    let sunset_min ← atoi_at sunset_str 14
    if p.use_24_hour then
      let sunrise_buf := snprintf 32
        (strings.sunrise ++ lit " " ++ fmt_02d sunrise_hour ++ lit ":" ++ fmt_02d sunrise_min)
      let sunset_buf := snprintf 32
        (strings.sunset ++ lit " " ++ fmt_02d sunset_hour ++ lit ":" ++ fmt_02d sunset_min)
      some { st with lbl_sunrise := sunrise_buf, lbl_sunset := sunset_buf }
    else
      let sr_h := sunrise_hour.tmod 12
      let sr_h := if sr_h = 0 then 12 else sr_h
      let sr_ampm := if sunrise_hour < 12 then strings.am else strings.pm
      let ss_h := sunset_hour.tmod 12
      let ss_h := if ss_h = 0 then 12 else ss_h
      let ss_ampm := if sunset_hour < 12 then strings.am else strings.pm
      let sunrise_buf := snprintf 32
        (strings.sunrise ++ lit " " ++ fmt_d sr_h ++ lit ":" ++ fmt_02d sunrise_min ++ sr_ampm)
      let sunset_buf := snprintf 32
        (strings.sunset ++ lit " " ++ fmt_d ss_h ++ lit ":" ++ fmt_02d sunset_min ++ ss_ampm)
      some { st with lbl_sunrise := sunrise_buf, lbl_sunset := sunset_buf }
  else some st

/-- `strings->weekdays[dow]`; `none` when `dow` is outside the 7-entry table. -/
def weekday_name (strings : LocalizedStrings) (dow : Int) : Option CStr :=
  if 0 ≤ dow ∧ dow < 7 then some (strings.weekdays dow.toNat) else none

/-- The text `dayStr` of daily slot `i`:
`(i == 0 && current_language != LANG_FR) ? strings->today : strings->weekdays[dow]`. -/
def day_label (T : Translations) (p : Prefs) (i : Nat) (dow : Int) : Option CStr :=
  if i = 0 ∧ p.current_language ≠ T.LANG_FR then some (T.get_strings p.current_language).today
  else weekday_name (T.get_strings p.current_language) dow

/-- The body of the loop over the 7 daily slots. -/
def daily_slot (T : Translations) (p : Prefs) (doc : WeatherDoc) (is_day : Int)
    (st : WeatherState) (i : Nat) : Option WeatherState := do
  let unit := if p.use_fahrenheit then 'F' else 'C'
  let date := doc.daily_time.getD i none
  let year ← atoi_at date 0
  let mon ← atoi_at date 5
  let dayd ← atoi_at date 8
  let dow ← day_of_week year mon dayd
  let dayStr ← day_label T p i dow
  let mn ← display_temperature p (doc.daily_temperature_2m_min.getD i 0)
  let mx ← display_temperature p (doc.daily_temperature_2m_max.getD i 0)
  some { st with
    lbl_daily_day := Function.update st.lbl_daily_day i dayStr
    lbl_daily_high := Function.update st.lbl_daily_high i (fmt_f0 mx ++ degree ++ [unit])
    lbl_daily_low := Function.update st.lbl_daily_low i (fmt_f0 mn ++ degree ++ [unit])
    img_daily := Function.update st.img_daily i
      (choose_icon (doc.daily_weather_code.getD i 0) (if i = 0 then is_day else 1)) }

/-- The text given to `lbl_precipitation_probability[i]` for the `float` values
`precipitation_mm` and `precipitation_probability`; the comparison with `0.1f` and the
division by `25.4f` are done in `float`. The result is `none` when the quotient is no
finite `float`. -/
def precipitation_label (p : Prefs) (precipitation_mm precipitation_probability : ℚ) :
    Option CStr :=
  if precipitation_mm ≥ float_0_1 then
    if p.use_fahrenheit then
      (to_float (precipitation_mm / float_25_4)).map
        (fun precipitation_in => fmt_f1 precipitation_in ++ lit "in")
    else some (fmt_f1 precipitation_mm ++ lit "mm")
  else if precipitation_probability > 0 then
    some (fmt_f0 precipitation_probability ++ lit "%")
  else some (lit "")

/-- The body of the loop over the 7 hourly slots. -/
def hourly_slot (T : Translations) (p : Prefs) (doc : WeatherDoc)
    (st : WeatherState) (i : Nat) : Option WeatherState := do
  let strings := T.get_strings p.current_language
  let unit := if p.use_fahrenheit then 'F' else 'C'
  let date := doc.hourly_time.getD i none
  let hour ← atoi_at date 11
  let _minute ← atoi_at date 14
  let hour_name := hour_of_day T p hour
  let precipitation_probability := doc.hourly_precipitation_probability.getD i 0
  let precipitation_mm := doc.hourly_precipitation.getD i 0
  let temp ← display_temperature p (doc.hourly_temperature_2m.getD i 0)
  let precipitation ← precipitation_label p precipitation_mm precipitation_probability
  some { st with
    lbl_hourly := Function.update st.lbl_hourly i
      (if i = 0 ∧ p.current_language ≠ T.LANG_FR then strings.now else hour_name)
    lbl_precipitation_probability :=
      Function.update st.lbl_precipitation_probability i precipitation
    lbl_hourly_temp := Function.update st.lbl_hourly_temp i (fmt_f0 temp ++ degree ++ [unit])
    img_hourly := Function.update st.img_hourly i
      (choose_icon (doc.hourly_weather_code.getD i 0) (doc.hourly_is_day.getD i 0)) }

/-- The branch of `fetch_and_update_weather` taken for a parsed document; `none` when the
run reads through a null or out-of-string pointer or outside a table, or computes a value
that is no finite `float`. -/
def apply_forecast (T : Translations) (p : Prefs) (doc : WeatherDoc) (st : WeatherState) :
    Option WeatherState := do
  let code_now := doc.current_weather_code
  let is_day := doc.current_is_day
  let t_now ← display_temperature p doc.current_temperature_2m
  let t_ap ← display_temperature p doc.current_apparent_temperature
  let strings := T.get_strings p.current_language
  let unit := if p.use_fahrenheit then 'F' else 'C'
  let st := { st with
    config_utc_offset := doc.utc_offset_seconds
    lbl_today_temp := fmt_f0 t_now ++ degree ++ [unit]
    lbl_today_feels_like :=
      strings.feels_like_temp ++ lit " " ++ fmt_f0 t_ap ++ degree ++ [unit]
    img_today_icon := choose_image code_now is_day }
  let st ← sun_labels p strings doc st
  let st ← (List.range 7).foldlM (daily_slot T p doc is_day) st
  (List.range 7).foldlM (hourly_slot T p doc) st

/-- `fetch_and_update_weather()` -/
def fetch_and_update_weather (T : Translations) (p : Prefs) (env : WeatherEnv)
    (st : WeatherState) : Option WeatherState :=
  if !env.wifi_connected && !env.wifi_reconnected then some st
  else
    match env.response with
    | .ok doc => apply_forecast T p doc st
    | .badJson => some st
    | .failed => some st

/-! ## Night mode and temporary wake -/

/-- `NIGHT_MODE_START_HOUR` -/
def NIGHT_MODE_START_HOUR : Int := 22

/-- `NIGHT_MODE_END_HOUR` -/
def NIGHT_MODE_END_HOUR : Int := 6

/-- A timer of the UI library: its period in milliseconds, its repeat count, and the
milliseconds elapsed since `lv_timer_create`. The timer fires when `elapsed` reaches
`period`. -/
structure Timer where
  period : Nat
  repeat_count : Int
  elapsed : Nat
deriving DecidableEq, Repr

/-- The globals of the screen dimming code, the level last written to the backlight pin,
the persisted `brightness` preference and the globals `x`, `y`, `z` of the touch code. -/
structure NightState where
  use_night_mode : Bool
  night_mode_active : Bool
  temp_screen_wakeup_active : Bool
  temp_screen_wakeup_timer : Option Timer
  backlight : Nat
  prefs_brightness : Option Nat
  x : Int
  y : Int
  z : Int
deriving DecidableEq, Repr

/-- `night_mode_should_be_active()`; `local_hour` is `none` when `getLocalTime` fails and
`timeinfo.tm_hour` otherwise. -/
def night_mode_should_be_active (local_hour : Option Int) (s : NightState) : Bool :=
  match local_hour with
  | none => false
  | some hour =>
      if !s.use_night_mode then false
      else decide (hour ≥ NIGHT_MODE_START_HOUR ∨ hour < NIGHT_MODE_END_HOUR)

/-- `activate_night_mode()` -/
def activate_night_mode (s : NightState) : NightState :=
  { s with backlight := 0, night_mode_active := true }

/-- `deactivate_night_mode()` -/
def deactivate_night_mode (s : NightState) : NightState :=
  { s with backlight := s.prefs_brightness.getD 128, night_mode_active := false }

/-- `check_for_night_mode()` -/
def check_for_night_mode (local_hour : Option Int) (s : NightState) : NightState :=
  let night_mode_time := night_mode_should_be_active local_hour s
  if night_mode_time && !s.night_mode_active && !s.temp_screen_wakeup_active then
    activate_night_mode s
  else if !night_mode_time && s.night_mode_active then deactivate_night_mode s
  else s

/-- `handle_temp_screen_wakeup_timeout(timer)` -/
def handle_temp_screen_wakeup_timeout (local_hour : Option Int) (s : NightState) :
    NightState :=
  let s :=
    if s.temp_screen_wakeup_active then
      let s := { s with temp_screen_wakeup_active := false }
      if night_mode_should_be_active local_hour s then activate_night_mode s else s
    else s
  if s.temp_screen_wakeup_timer.isSome then { s with temp_screen_wakeup_timer := none }
  else s

/-- A reading of the touch controller. -/
structure TS_Point where
  x : Int
  y : Int
  z : Int
deriving DecidableEq, Repr

/-- The state reported to the UI library. -/
inductive IndevState where
  | RELEASED
  | PRESSED
deriving DecidableEq, Repr

/-- The record `lv_indev_data_t`: the fields that `touchscreen_read` writes. -/
structure IndevData where
  state : IndevState
  point : Int × Int
deriving DecidableEq, Repr

/-- `SCREEN_WIDTH` -/
def SCREEN_WIDTH : Int := 240

/-- `SCREEN_HEIGHT` -/
def SCREEN_HEIGHT : Int := 320

/-- The Arduino function `map(x, in_min, in_max, out_min, out_max)`. -/
def map (x in_min in_max out_min out_max : Int) : Int :=
  ((x - in_min) * (out_max - out_min)).tdiv (in_max - in_min) + out_min

/-- `touchscreen_read(indev, data)`; `touch` is `none` when
`touchscreen.tirqTouched() && touchscreen.touched()` is false and the point read
otherwise. -/
def touchscreen_read (touch : Option TS_Point) (s : NightState) (data : IndevData) :
    NightState × IndevData :=
  match touch with
  | some p =>
      let s := { s with
        x := map p.x 200 3700 1 SCREEN_WIDTH
        y := map p.y 240 3800 1 SCREEN_HEIGHT
        z := p.z }
      if s.night_mode_active then
        let s := { s with backlight := s.prefs_brightness.getD 128 }
        let s := { s with temp_screen_wakeup_timer := some ⟨15000, 1, 0⟩ }
        if !s.temp_screen_wakeup_active then
          ({ s with temp_screen_wakeup_active := true }, { data with state := .RELEASED })
        else
          ({ s with temp_screen_wakeup_active := true },
            { state := .PRESSED, point := (s.x, s.y) })
      else (s, { state := .PRESSED, point := (s.x, s.y) })
  | none => (s, { data with state := .RELEASED })

/-- The brightness part of `setup()`: the level written to the backlight at boot, with
`config_brightness` the value of `CONFIG_BRIGHTNESS` in `config.h` (`none` when it is not
defined there, in which case `main.cpp` defines it as 128). -/
def setup_brightness (config_brightness : Option Nat) (stored : Option Nat) : Nat :=
  let CONFIG_BRIGHTNESS := config_brightness.getD 128
  stored.getD CONFIG_BRIGHTNESS

/-- The dimming state after `setup()`. -/
def boot_night_state (config_brightness : Option Nat) (stored : Option Nat)
    (use_night_mode : Bool) : NightState where
  use_night_mode := use_night_mode
  night_mode_active := false
  temp_screen_wakeup_active := false
  temp_screen_wakeup_timer := none
  backlight := setup_brightness config_brightness stored
  prefs_brightness := stored
  x := 0
  y := 0
  z := 0

/-- The brightness slider callback of the settings window, for the slider value `v`. -/
def brightness_slider (v : Nat) (s : NightState) : NightState :=
  { s with backlight := v, prefs_brightness := some v }

/-- The events that reach the dimming code after boot. -/
inductive NightEvent where
  /-- `update_clock` runs `check_for_night_mode` -/
  | tick (local_hour : Option Int)
  /-- the input device is read -/
  | read (touch : Option TS_Point)
  /-- the wake timer fires -/
  | timeout (local_hour : Option Int)
  /-- the brightness slider is moved to `v` -/
  | slider (v : Nat)
  /-- the night mode switch is set -/
  | night_switch (enabled : Bool)
  /-- `ms` milliseconds pass -/
  | elapse (ms : Nat)

/-- The effect of an event on the dimming state. -/
def night_step (s : NightState) : NightEvent → NightState
  | .tick local_hour => check_for_night_mode local_hour s
  | .read touch => (touchscreen_read touch s ⟨.RELEASED, (0, 0)⟩).1
  | .timeout local_hour => handle_temp_screen_wakeup_timeout local_hour s
  | .slider v => brightness_slider v s
  | .night_switch enabled => { s with use_night_mode := enabled }
  | .elapse ms =>
      { s with temp_screen_wakeup_timer :=
          s.temp_screen_wakeup_timer.map (fun t => { t with elapsed := t.elapsed + ms }) }

/-- An event that can occur in a state: the wake timer fires only while it exists and its
period has elapsed, and the slider delivers a value of its range 1..255. -/
def night_enabled (s : NightState) : NightEvent → Prop
  | .timeout _ =>
      match s.temp_screen_wakeup_timer with
      | some t => t.period ≤ t.elapsed
      | none => False
  | .slider v => 1 ≤ v ∧ v ≤ 255
  | _ => True

/-- The dimming states reachable after a boot whose stored brightness, if any, is a value
of the slider. -/
inductive NightReachable : NightState → Prop where
  | boot (config_brightness stored : Option Nat) (use_night_mode : Bool)
      (h : ∀ v, stored = some v → 1 ≤ v ∧ v ≤ 255) :
      NightReachable (boot_night_state config_brightness stored use_night_mode)
  | step (s : NightState) (e : NightEvent) (hs : NightReachable s) (he : night_enabled s e) :
      NightReachable (night_step s e)

/-- The state Dimmed: night mode is active and no temporary wake is. -/
def Dimmed (s : NightState) : Prop :=
  s.night_mode_active = true ∧ s.temp_screen_wakeup_active = false

/-- The state TemporarilyAwake with night mode still active: the display was woken by a
touch from Dimmed, and no dimming check has cleared `night_mode_active` since. -/
def TemporarilyAwake (s : NightState) : Prop :=
  s.night_mode_active = true ∧ s.temp_screen_wakeup_active = true

/-! ## Panels: taps and rotation -/

/-- The panel globals: the hidden flag of the three boxes, the text of `lbl_forecast`,
`current_panel`, `transit_enabled`, and the transit state that `fetch_tfl_arrivals`
updates. -/
structure PanelState where
  box_daily_hidden : Bool
  box_hourly_hidden : Bool
  box_transit_hidden : Bool
  lbl_forecast : CStr
  current_panel : Int
  transit_enabled : Bool
  transit : TransitState

/-- `daily_cb(e)` -/
def daily_cb (strings : LocalizedStrings) (s : PanelState) : PanelState :=
  { s with
    box_daily_hidden := true
    lbl_forecast := strings.hourly_forecast
    box_hourly_hidden := false }

/-- `hourly_cb(e)` -/
def hourly_cb (strings : LocalizedStrings) (env : TransitEnv) (s : PanelState) :
    PanelState :=
  let s := { s with box_hourly_hidden := true }
  if s.transit_enabled then
    { s with
      lbl_forecast := strings.transit_title
      box_transit_hidden := false
      transit := fetch_tfl_arrivals strings env s.transit }
  else
    { s with
      lbl_forecast := strings.seven_day_forecast
      box_daily_hidden := false }

/-- `transit_cb(e)` -/
def transit_cb (strings : LocalizedStrings) (s : PanelState) : PanelState :=
  { s with
    box_transit_hidden := true
    lbl_forecast := strings.seven_day_forecast
    box_daily_hidden := false }

/-- `rotate_to_next_panel()` -/
def rotate_to_next_panel (strings : LocalizedStrings) (env : TransitEnv) (s : PanelState) :
    PanelState :=
  let max_panels : Int := if s.transit_enabled then 3 else 2
  let s := { s with current_panel := (s.current_panel + 1).tmod max_panels }
  let s := { s with
    box_daily_hidden := true
    box_hourly_hidden := true
    box_transit_hidden := true }
  match s.current_panel with
  | 0 => { s with lbl_forecast := strings.seven_day_forecast, box_daily_hidden := false }
  | 1 => { s with lbl_forecast := strings.hourly_forecast, box_hourly_hidden := false }
  | 2 =>
      { s with
        lbl_forecast := strings.transit_title
        box_transit_hidden := false
        transit := fetch_tfl_arrivals strings env s.transit }
  | _ => s

/-- A click on the panel area: it reaches the topmost box that is not hidden (the boxes lie
on top of each other, in creation order daily, hourly, transit) and runs its callback. -/
def tap (strings : LocalizedStrings) (env : TransitEnv) (s : PanelState) : PanelState :=
  if !s.box_transit_hidden then transit_cb strings s
  else if !s.box_hourly_hidden then hourly_cb strings env s
  else if !s.box_daily_hidden then daily_cb strings s
  else s

/-- The panel part of `create_ui()`: the daily box is shown, the other two are hidden and
`current_panel` is reset. -/
def create_ui_panels (strings : LocalizedStrings) (s : PanelState) : PanelState :=
  { s with
    box_daily_hidden := false
    lbl_forecast := strings.seven_day_forecast
    box_hourly_hidden := true
    box_transit_hidden := true
    current_panel := 0 }

/-- `String::toCharArray(buf, size)` read back as a string. -/
def toCharArray (str : CStr) (size : Nat) : CStr := str.take (size - 1)

/-- The transit part of `setup()`: the IDs are loaded from the preference store, with the
compile-time configuration as default, and `transit_enabled` is derived. -/
def setup_transit (config_bus : Nat → CStr) (config_tube : CStr)
    (stored_bus : Nat → Option CStr) (stored_tube : Option CStr) (s : PanelState) :
    PanelState :=
  let s := (List.range MAX_BUS_STOPS).foldl
    (fun s i =>
      let busStop := (stored_bus i).getD (config_bus i)
      let t := { s.transit with
        bus_stop_ids := Function.update s.transit.bus_stop_ids i (toCharArray busStop 32) }
      { s with transit := t })
    s
  let tubeStation := stored_tube.getD config_tube
  let t := { s.transit with tube_station_id := toCharArray tubeStation 32 }
  let s := { s with transit := t }
  { s with
    transit_enabled :=
      any_bus_stop_configured s.transit || decide (0 < s.transit.tube_station_id.length) }

/-- `transit_save_event_cb(e)` for the texts of the four text areas (the writes to the
preference store are not part of this state). -/
def transit_save_event_cb (strings : LocalizedStrings) (env : TransitEnv)
    (bus_text : Nat → CStr) (tube_id : CStr) (s : PanelState) : PanelState :=
  let s := (List.range MAX_BUS_STOPS).foldl
    (fun s i =>
      let t := { s.transit with
        bus_stop_ids := Function.update s.transit.bus_stop_ids i (strncpy (bus_text i) 31) }
      { s with transit := t })
    s
  let t := { s.transit with tube_station_id := strncpy tube_id 31 }
  let s := { s with transit := t }
  let s := { s with
    transit_enabled :=
      any_bus_stop_configured s.transit || decide (0 < s.transit.tube_station_id.length) }
  if s.transit_enabled then { s with transit := fetch_tfl_arrivals strings env s.transit }
  else s

/-- The events that reach the panel and transit-settings code after boot. -/
inductive PanelEvent where
  /-- a click on the panel area -/
  | tap (env : TransitEnv)
  /-- the rotation timer fires -/
  | rotate (env : TransitEnv)
  /-- the transit settings are saved -/
  | save (env : TransitEnv) (bus_text : Nat → CStr) (tube_id : CStr)

/-- The effect of an event on the panel state. -/
def panel_step (strings : LocalizedStrings) (s : PanelState) : PanelEvent → PanelState
  | .tap env => tap strings env s
  | .rotate env => rotate_to_next_panel strings env s
  | .save env bus_text tube_id => transit_save_event_cb strings env bus_text tube_id s

/-- The panel state after `setup()`. -/
def boot_panel_state (strings : LocalizedStrings) (config_bus : Nat → CStr)
    (config_tube : CStr) (stored_bus : Nat → Option CStr) (stored_tube : Option CStr)
    (s : PanelState) : PanelState :=
  create_ui_panels strings (setup_transit config_bus config_tube stored_bus stored_tube s)

/-- The panel states reachable from boot by taps, rotation ticks and transit-settings
saves. -/
inductive PanelReachable (strings : LocalizedStrings) : PanelState → Prop where
  | boot (config_bus : Nat → CStr) (config_tube : CStr) (stored_bus : Nat → Option CStr)
      (stored_tube : Option CStr) (s : PanelState) :
      PanelReachable strings
        (boot_panel_state strings config_bus config_tube stored_bus stored_tube s)
  | step (s : PanelState) (e : PanelEvent) (hs : PanelReachable strings s) :
      PanelReachable strings (panel_step strings s e)

/-- The three panels. -/
inductive Panel where
  | Daily
  | Hourly
  | Transit
deriving DecidableEq, Repr

/-- The box of a panel is not hidden. -/
def PanelState.shows (s : PanelState) : Panel → Bool
  | .Daily => !s.box_daily_hidden
  | .Hourly => !s.box_hourly_hidden
  | .Transit => !s.box_transit_hidden

/-- Exactly one panel is visible, and it is `p`. -/
def PanelState.only_shows (s : PanelState) (p : Panel) : Prop :=
  ∀ q : Panel, s.shows q = true ↔ q = p

/-- The panel that follows `p` in the cycle of the specification. -/
def next_panel (transit_enabled : Bool) : Panel → Panel
  | .Daily => .Hourly
  | .Hourly => if transit_enabled then .Transit else .Daily
  | .Transit => .Daily

/-! ## `urlencode` -/

/-- The test for an unreserved character in `urlencode`. -/
def is_unreserved (c : Char) : Bool :=
  ('A' ≤ c && c ≤ 'Z') || ('a' ≤ c && c ≤ 'z') || ('0' ≤ c && c ≤ '9') ||
    c = '-' || c = '_' || c = '.' || c = '~'

/-- The uppercase hexadecimal digit of a value below 16. -/
def hex_digit (n : Nat) : Char := (lit "0123456789ABCDEF").getD n '0'

/-- The hexadecimal digits of a value, most significant first. -/
def hex_digits : Nat → Nat → CStr
  | 0, _ => []
  | fuel + 1, n => if n < 16 then [hex_digit n] else hex_digits fuel (n / 16) ++ [hex_digit (n % 16)]

/-- The conversion `%02X` of an `unsigned char` value. -/
def fmt_02X (n : Nat) : CStr :=
  if n < 16 then '0' :: hex_digits 8 n else hex_digits 8 n

/-- The `unsigned char` value of a byte. -/
def unsigned_char (c : Char) : Nat := c.toNat % 256

/-- `urlencode(str)` -/
def urlencode (str : CStr) : CStr :=
  str.foldl
    (fun encoded c =>
      if is_unreserved c then encoded ++ [c]
      else encoded ++ ('%' :: fmt_02X (unsigned_char c)))
    []

/-! ## Specification-side definitions -/

/-- The specification's `celsius_to_display(value, use_fahrenheit)`: the value `v*9/5+32`
with unit character `F` when Fahrenheit is selected, the value itself with `C` otherwise. -/
def celsius_to_display (value : ℚ) (use_fahrenheit : Bool) : ℚ × Char :=
  if use_fahrenheit then (value * 9 / 5 + 32, 'F') else (value, 'C')

/-- The text of a temperature label for a displayed value and unit: the value with no
decimals, the degree sign, the unit character. -/
def temperature_text (d : ℚ × Char) : CStr := fmt_f0 d.1 ++ degree ++ [d.2]

/-- The specification's `mm_to_display_precip(precip_mm, probability_pct, use_fahrenheit)`:
the amount with one decimal place (inches, `/25.4`, when imperial) if `precip_mm >= 0.1`,
else the integer percentage if `probability_pct > 0`, else the empty string. -/
def mm_to_display_precip (precip_mm probability_pct : ℚ) (use_fahrenheit : Bool) : CStr :=
  if precip_mm ≥ 1 / 10 then
    if use_fahrenheit then fmt_f1 (precip_mm / (254 / 10)) ++ lit "in"
    else fmt_f1 precip_mm ++ lit "mm"
  else if probability_pct > 0 then fmt_f0 probability_pct ++ lit "%"
  else []

/-- Leap years of the Gregorian calendar. -/
def is_leap_year (y : Nat) : Bool := (y % 4 = 0 ∧ y % 100 ≠ 0) ∨ y % 400 = 0

/-- The number of days of month `m` (1 to 12) of year `y`. -/
def days_in_month (y m : Nat) : Nat :=
  if m = 2 then (if is_leap_year y then 29 else 28)
  else if m = 4 ∨ m = 6 ∨ m = 9 ∨ m = 11 then 30
  else 31

/-- The number of days of year `y`. -/
def days_in_year (y : Nat) : Nat := if is_leap_year y then 366 else 365

/-- A valid Gregorian calendar date with year at least 1. -/
def valid_date (y m d : Nat) : Prop :=
  1 ≤ y ∧ 1 ≤ m ∧ m ≤ 12 ∧ 1 ≤ d ∧ d ≤ days_in_month y m

instance (y m d : Nat) : Decidable (valid_date y m d) := by
  unfold valid_date; infer_instance

/-- The reference calendar computation: the number of the day `y`-`m`-`d` counted from
0001-01-01 (day number 1), by adding up the whole years and the whole months before it. -/
def day_number (y m d : Nat) : Nat :=
  ((List.range (y - 1)).map (fun k => days_in_year (k + 1))).sum
    + ((List.range (m - 1)).map (fun j => days_in_month y (j + 1))).sum + d

/-- The reference weekday, 0 = Sunday .. 6 = Saturday: day number 1 (0001-01-01) is a
Monday, and the weekdays follow each other day by day. -/
def reference_weekday (y m d : Nat) : Nat := day_number y m d % 7

/-- The 28 documented condition codes. -/
def documented_codes : List Int :=
  [0, 1, 2, 3, 45, 48, 51, 53, 55, 56, 57, 61, 63, 65, 66, 67, 71, 73, 75, 77, 80, 81, 82, 85,
    86, 95, 96, 99]

/-- The documented codes whose category has a day and a night variant. -/
def lighting_variant_codes : List Int := [0, 1, 2, 61, 80, 81, 95]

/-- The documented codes whose category is the same by day and by night. -/
def lighting_invariant_codes : List Int :=
  [3, 45, 48, 51, 53, 55, 56, 57, 63, 65, 66, 67, 71, 73, 75, 77, 82, 85, 86, 96, 99]

/-- The weather category of an image descriptor: the asset name without its `image_` or
`icon_` prefix. -/
def ImgDsc.category : ImgDsc → Asset
  | .image a => a
  | .icon a => a

/-- The specification's piece for one input byte: the byte itself if it is unreserved,
otherwise `%` and the two uppercase hexadecimal digits of its value. -/
def percent_piece (c : Char) : CStr :=
  if is_unreserved c then [c]
  else ['%', hex_digit (unsigned_char c / 16), hex_digit (unsigned_char c % 16)]

/-- The value of a hexadecimal digit. -/
def hex_value (c : Char) : Nat :=
  if '0' ≤ c ∧ c ≤ '9' then c.toNat - 48
  else if 'A' ≤ c ∧ c ≤ 'F' then c.toNat - 55
  else if 'a' ≤ c ∧ c ≤ 'f' then c.toNat - 87
  else 0

/-- Percent-decoding: each `%XX` triplet is replaced by the byte with hexadecimal value XX,
every other character is kept. -/
def percent_decode : CStr → CStr
  | '%' :: a :: b :: r => Char.ofNat (hex_value a * 16 + hex_value b) :: percent_decode r
  | c :: r => c :: percent_decode r
  | [] => []

/-- A string of bytes: every element has a value below 256. -/
def is_byte_string (s : CStr) : Prop := ∀ c ∈ s, c.toNat < 256

/-! ## Sorting: the structural form of one bubble pass, used in the proofs -/

/-- One compare-and-exchange of the neighbours `j`, `j + 1` under an integer key. -/
def cswap {α : Type} (key : α → Int) (a : List α) (j : Nat) : List α :=
  match a[j]?, a[j + 1]? with
  | some x, some y => if key x > key y then (a.set j y).set (j + 1) x else a
  | _, _ => a

/-- The nested loops of the bubble sort under an integer key, for `n` slots. -/
def bsort {α : Type} (key : α → Int) (n : Nat) (a : List α) : List α :=
  (List.range (n - 1)).foldl (fun a i => (List.range (n - i - 1)).foldl (cswap key) a) a

/-- The state of the outer loop after `i` passes over `n` slots: the last `i` slots are
in order and hold entries no smaller than those before them. -/
def SortedTail {α : Type} (key : α → Int) (n i : Nat) (a : List α) : Prop :=
  a.length = n ∧ ∃ p s, a = p ++ s ∧ s.length = i ∧
    s.Pairwise (fun x y => key x ≤ key y) ∧ ∀ x ∈ p, ∀ y ∈ s, key x ≤ key y

/-- The order on entries by an integer key. -/
def KeyLE {α : Type} (key : α → Int) (x y : α) : Prop := key x ≤ key y

instance {α : Type} (key : α → Int) : DecidableRel (KeyLE key) :=
  fun x y => inferInstanceAs (Decidable (key x ≤ key y))

/-- The specification's sort of an arrival list: the stable sort ascending by seconds to
arrival (insertion sort: an entry is put before the later entries of the same time). -/
def stable_sort_by_time (l : List ArrivalInfo) : List ArrivalInfo :=
  l.insertionSort (KeyLE ArrivalInfo.timeToStation)

/-- The specification's arrival list of a mode: the pooled arrivals stable-sorted
ascending by seconds to arrival and truncated to 4 entries. -/
def sort_and_truncate (l : List ArrivalInfo) : List ArrivalInfo :=
  (stable_sort_by_time l).take 4

/-- The first `k` compare-and-exchange steps of a pass, by recursion on the list. -/
def bubble {α : Type} (key : α → Int) : Nat → List α → List α
  | k + 1, x :: y :: r =>
      if key x > key y then y :: bubble key k (x :: r) else x :: bubble key k (y :: r)
  | _, l => l

/-! ## Lemmas on the bubble sort -/

section Sorting

variable {α : Type} (key : α → Int)

theorem cswap_cons_succ (h : α) (t : List α) (j : Nat) :
    cswap key (h :: t) (j + 1) = h :: cswap key t j := by
  unfold cswap
  simp only [List.getElem?_cons_succ]
  cases hx : t[j]? with
  | none => rfl
  | some x =>
    cases hy : t[j + 1]? with
    | none => rfl
    | some y =>
      simp only []
      split <;> simp [List.set_cons_succ]

theorem cswap_zero (x y : α) (r : List α) :
    cswap key (x :: y :: r) 0 = if key x > key y then y :: x :: r else x :: y :: r := by
  unfold cswap
  simp

theorem cswap_short (a : List α) (j : Nat) (h : a.length ≤ 1) : cswap key a j = a := by
  unfold cswap
  have : a[j + 1]? = none := by
    rw [List.getElem?_eq_none_iff]; omega
  rw [this]
  cases a[j]? <;> rfl

theorem foldl_cswap_shift (h : α) (t : List α) (js : List Nat) :
    js.foldl (fun a j => cswap key a (j + 1)) (h :: t) = h :: js.foldl (cswap key) t := by
  induction js generalizing t with
  | nil => rfl
  | cons j js ih => simp only [List.foldl_cons, cswap_cons_succ, ih]

theorem foldl_cswap_short (a : List α) (js : List Nat) (h : a.length ≤ 1) :
    js.foldl (cswap key) a = a := by
  induction js with
  | nil => rfl
  | cons j js ih => simp only [List.foldl_cons, cswap_short key a j h, ih]

/-- A pass written as a loop over `j` is the structural pass. -/
theorem pass_eq_bubble (k : Nat) (a : List α) :
    (List.range k).foldl (cswap key) a = bubble key k a := by
  induction k generalizing a with
  | zero => cases a <;> simp [bubble]
  | succ k ih =>
    match a with
    | [] => simp [foldl_cswap_short, bubble]
    | [x] => simp [foldl_cswap_short, bubble]
    | x :: y :: r =>
      rw [List.range_succ_eq_map, List.foldl_cons, List.foldl_map, cswap_zero]
      simp only [bubble]
      split
      · rw [foldl_cswap_shift, ih]
      · rw [foldl_cswap_shift, ih]

theorem bubble_length (k : Nat) (l : List α) : (bubble key k l).length = l.length := by
  induction k generalizing l with
  | zero => cases l <;> simp [bubble]
  | succ k ih =>
    match l with
    | [] => simp [bubble]
    | [x] => simp [bubble]
    | x :: y :: r =>
      simp only [bubble]
      split <;> simp [ih]

theorem bubble_perm (k : Nat) (l : List α) : (bubble key k l).Perm l := by
  induction k generalizing l with
  | zero => cases l <;> simp [bubble]
  | succ k ih =>
    match l with
    | [] => simp [bubble]
    | [x] => simp [bubble]
    | x :: y :: r =>
      simp only [bubble]
      split
      · exact ((ih (x :: r)).cons y).trans (List.Perm.swap x y r)
      · exact (ih (y :: r)).cons x

/-- A pass keeps, for every key value, the entries with that key in their order. -/
theorem bubble_filter (c : Int) (k : Nat) (l : List α) :
    (bubble key k l).filter (fun x => decide (key x = c))
      = l.filter (fun x => decide (key x = c)) := by
  induction k generalizing l with
  | zero => cases l <;> simp [bubble]
  | succ k ih =>
    match l with
    | [] => simp [bubble]
    | [x] => simp [bubble]
    | x :: y :: r =>
      simp only [bubble]
      split
      · rename_i hxy
        simp only [List.filter_cons, ih]
        by_cases hx : key x = c <;> by_cases hy : key y = c <;> simp [hx, hy]
        omega
      · simp only [List.filter_cons, ih]

theorem bubble_append (k : Nat) (p s : List α) (h : k + 1 ≤ p.length) :
    bubble key k (p ++ s) = bubble key k p ++ s := by
  induction k generalizing p with
  | zero => cases p <;> cases s <;> simp [bubble]
  | succ k ih =>
    match p, h with
    | x :: y :: r, h =>
      simp only [List.cons_append, bubble]
      have hx := ih (x :: r) (by simpa using h)
      have hy := ih (y :: r) (by simpa using h)
      simp only [List.cons_append] at hx hy
      split <;> simp [hx, hy]

/-- A full pass moves a largest entry to the last slot. -/
theorem bubble_max (k : Nat) (l : List α) (h : l.length = k + 1) :
    ∃ init m, bubble key k l = init ++ [m] ∧ ∀ x ∈ l, key x ≤ key m := by
  induction k generalizing l with
  | zero =>
    match l, h with
    | [x], _ => exact ⟨[], x, by simp [bubble], by simp⟩
  | succ k ih =>
    match l, h with
    | x :: y :: r, h =>
      simp only [bubble]
      split
      · rename_i hxy
        obtain ⟨init, m, he, hm⟩ := ih (x :: r) (by simpa using h)
        refine ⟨y :: init, m, by simp [he], ?_⟩
        intro z hz
        have hxm := hm x (by simp)
        simp only [List.mem_cons] at hz
        rcases hz with rfl | rfl | hz
        · exact hxm
        · omega
        · exact hm z (by simp [hz])
      · rename_i hxy
        obtain ⟨init, m, he, hm⟩ := ih (y :: r) (by simpa using h)
        refine ⟨x :: init, m, by simp [he], ?_⟩
        intro z hz
        have hym := hm y (by simp)
        simp only [List.mem_cons] at hz
        rcases hz with rfl | rfl | hz
        · omega
        · exact hym
        · exact hm z (by simp [hz])

theorem sortedTail_step (n i : Nat) (a : List α) (hi : i + 1 < n)
    (h : SortedTail key n i a) :
    SortedTail key n (i + 1) ((List.range (n - i - 1)).foldl (cswap key) a) := by
  obtain ⟨hn, p, s, rfl, hs, hsorted, hps⟩ := h
  have hp : p.length = (n - i - 1) + 1 := by
    simp only [List.length_append] at hn; omega
  rw [pass_eq_bubble, bubble_append key _ p s (by omega)]
  obtain ⟨init, m, he, hm⟩ := bubble_max key (n - i - 1) p hp
  have hperm := bubble_perm key (n - i - 1) p
  rw [he] at hperm ⊢
  have hmem : ∀ z, z ∈ init ++ [m] → z ∈ p := fun z hz => hperm.subset hz
  refine ⟨?_, init, m :: s, by simp, by simp [hs], ?_, ?_⟩
  · have := hperm.length_eq
    simp only [List.length_append] at this hn ⊢
    omega
  · rw [List.pairwise_cons]
    exact ⟨fun y hy => hps m (hmem m (by simp)) y hy, hsorted⟩
  · intro x hx y hy
    have hxp := hmem x (by simp [hx])
    rcases List.mem_cons.mp hy with rfl | hy
    · exact hm x hxp
    · exact hps x hxp y hy

theorem sortedTail_loop (n : Nat) (a : List α) (hn : a.length = n) (m : Nat)
    (hm : m + 1 ≤ n) :
    SortedTail key n m
      ((List.range m).foldl (fun a i => (List.range (n - i - 1)).foldl (cswap key) a) a) := by
  induction m with
  | zero => exact ⟨hn, a, [], by simp, rfl, List.Pairwise.nil, by simp⟩
  | succ m ih =>
    rw [List.range_succ, List.foldl_append]
    exact sortedTail_step key n m _ (by omega) (ih (by omega))

/-- The bubble sort leaves the slots in non-decreasing key order. -/
theorem bsort_sorted (a : List α) :
    (bsort key a.length a).Pairwise (fun x y => key x ≤ key y) := by
  unfold bsort
  rcases Nat.eq_zero_or_pos a.length with h0 | hpos
  · rw [h0]; simp [List.length_eq_zero.mp h0]
  · obtain ⟨hn, p, s, he, hs, hsorted, hps⟩ :=
      sortedTail_loop key a.length a rfl (a.length - 1) (by omega)
    rw [he] at hn ⊢
    have hp : p.length = 1 := by
      simp only [List.length_append] at hn; omega
    match p, hp with
    | [x], _ =>
      simp only [List.singleton_append, List.pairwise_cons]
      exact ⟨fun y hy => hps x (by simp) y hy, hsorted⟩

theorem bsort_perm (n : Nat) (a : List α) : (bsort key n a).Perm a := by
  unfold bsort
  generalize List.range (n - 1) = is
  induction is generalizing a with
  | nil => exact List.Perm.refl _
  | cons i is ih =>
    rw [List.foldl_cons]
    refine (ih _).trans ?_
    rw [pass_eq_bubble]
    exact bubble_perm key _ a

/-- The bubble sort is stable: for every key value, the entries with that key come out
in the order they went in. -/
theorem bsort_filter (c : Int) (n : Nat) (a : List α) :
    (bsort key n a).filter (fun x => decide (key x = c))
      = a.filter (fun x => decide (key x = c)) := by
  unfold bsort
  generalize List.range (n - 1) = is
  induction is generalizing a with
  | nil => rfl
  | cons i is ih =>
    rw [List.foldl_cons, ih, pass_eq_bubble, bubble_filter]

theorem bsort_length (n : Nat) (a : List α) : (bsort key n a).length = a.length :=
  (bsort_perm key n a).length_eq

end Sorting

theorem bus_swap_eq_cswap : bus_swap = cswap ArrivalInfo.timeToStation := by
  funext a j
  unfold bus_swap cswap
  cases a[j]? <;> cases a[j + 1]? <;> rfl

theorem bus_sort_eq_bsort (a : List ArrivalInfo) :
    bus_sort a = bsort ArrivalInfo.timeToStation a.length a := by
  unfold bus_sort bsort
  rw [bus_swap_eq_cswap]

/-! ## The bubble sort is the stable sort -/

section Stable

variable {α : Type} (key : α → Int)

theorem orderedInsert_filter (c : Int) (a : α) (l : List α) :
    (l.orderedInsert (KeyLE key) a).filter (fun x => decide (key x = c))
      = (a :: l).filter (fun x => decide (key x = c)) := by
  induction l with
  | nil => rfl
  | cons b l ih =>
    rw [List.orderedInsert]
    split
    · rfl
    · rename_i hab
      have hlt : key b < key a := by
        unfold KeyLE at hab; omega
      simp only [List.filter_cons, ih]
      by_cases ha : key a = c <;> by_cases hb : key b = c <;> simp [ha, hb]
      omega

theorem insertionSort_filter (c : Int) (l : List α) :
    (l.insertionSort (KeyLE key)).filter (fun x => decide (key x = c))
      = l.filter (fun x => decide (key x = c)) := by
  induction l with
  | nil => rfl
  | cons a l ih =>
    rw [List.insertionSort, orderedInsert_filter]
    simp only [List.filter_cons, ih]

theorem insertionSort_sorted (l : List α) :
    (l.insertionSort (KeyLE key)).Pairwise (fun x y => key x ≤ key y) := by
  haveI : IsTotal α (KeyLE key) := ⟨fun a b => Int.le_total (key a) (key b)⟩
  haveI : IsTrans α (KeyLE key) := ⟨fun a b c hab hbc => Int.le_trans hab hbc⟩
  exact List.sorted_insertionSort (KeyLE key) l

theorem head_mem_of_filter_eq (c : Int) (x : α) (t l : List α)
    (h : (x :: t).filter (fun z => decide (key z = c)) = l.filter (fun z => decide (key z = c)))
    (hx : key x = c) : x ∈ l := by
  have : x ∈ l.filter (fun z => decide (key z = c)) := by
    rw [← h]; simp [hx]
  exact (List.mem_filter.mp this).1

/-- Two lists in key order with the same entries, in the same order, under every key value
are the same list. -/
theorem sorted_stable_unique (l₁ l₂ : List α)
    (h₁ : l₁.Pairwise (fun x y => key x ≤ key y))
    (h₂ : l₂.Pairwise (fun x y => key x ≤ key y))
    (h : ∀ c : Int, l₁.filter (fun z => decide (key z = c))
      = l₂.filter (fun z => decide (key z = c))) : l₁ = l₂ := by
  induction l₁ generalizing l₂ with
  | nil =>
    match l₂ with
    | [] => rfl
    | y :: t₂ =>
      have := head_mem_of_filter_eq key (key y) y t₂ [] (h (key y)).symm rfl
      simp at this
  | cons x t₁ ih =>
    match l₂, h₂, h with
    | [], _, h =>
      have := head_mem_of_filter_eq key (key x) x t₁ [] (h (key x)) rfl
      simp at this
    | y :: t₂, h₂, h =>
      rw [List.pairwise_cons] at h₁ h₂
      have hxy : key x = key y := by
        have hx := head_mem_of_filter_eq key (key x) x t₁ (y :: t₂) (h (key x)) rfl
        have hy := head_mem_of_filter_eq key (key y) y t₂ (x :: t₁) (h (key y)).symm rfl
        have h1 : key y ≤ key x := by
          rcases List.mem_cons.mp hx with e | hm
          · rw [e]
          · exact h₂.1 x hm
        have h2 : key x ≤ key y := by
          rcases List.mem_cons.mp hy with e | hm
          · rw [e]
          · exact h₁.1 y hm
        omega
      have hhead := h (key x)
      simp only [List.filter_cons, hxy, decide_True, if_true] at hhead
      have hx : x = y := (List.cons.inj hhead).1
      subst hx
      congr 1
      refine ih t₂ h₁.2 h₂.2 (fun c => ?_)
      have hc := h c
      simp only [List.filter_cons] at hc
      by_cases hk : key x = c
      · simp only [hk, decide_True, if_true] at hc
        exact (List.cons.inj hc).2
      · simpa [hk] using hc

/-- The bubble sort computes the stable sort. -/
theorem bsort_eq_insertionSort (a : List α) :
    bsort key a.length a = a.insertionSort (KeyLE key) :=
  sorted_stable_unique key _ _ (bsort_sorted key a) (insertionSort_sorted key a)
    (fun c => by rw [bsort_filter, insertionSort_filter])

theorem cswap_map {β : Type} (key' : β → Int) (f : β → α) (hf : ∀ x, key (f x) = key' x)
    (l : List β) (j : Nat) : cswap key (l.map f) j = (cswap key' l j).map f := by
  unfold cswap
  simp only [List.getElem?_map]
  cases l[j]? with
  | none => rfl
  | some x =>
    cases l[j + 1]? with
    | none => rfl
    | some y =>
      simp only [Option.map_some', hf]
      split <;> simp [List.map_set]

theorem foldl_cswap_map {β : Type} (key' : β → Int) (f : β → α)
    (hf : ∀ x, key (f x) = key' x) (js : List Nat) (l : List β) :
    js.foldl (cswap key) (l.map f) = (js.foldl (cswap key') l).map f := by
  induction js generalizing l with
  | nil => rfl
  | cons j js ih => rw [List.foldl_cons, List.foldl_cons, cswap_map key key' f hf, ih]

/-- Sorting commutes with a map that carries the key along. -/
theorem bsort_map {β : Type} (key' : β → Int) (f : β → α) (hf : ∀ x, key (f x) = key' x)
    (n : Nat) (l : List β) : bsort key n (l.map f) = (bsort key' n l).map f := by
  unfold bsort
  generalize List.range (n - 1) = is
  induction is generalizing l with
  | nil => rfl
  | cons i is ih =>
    rw [List.foldl_cons, List.foldl_cons, foldl_cswap_map key key' f hf, ih]

end Stable

theorem bus_sort_eq_stable (pool : List ArrivalInfo) :
    bus_sort pool = stable_sort_by_time pool := by
  rw [bus_sort_eq_bsort]
  exact bsort_eq_insertionSort ArrivalInfo.timeToStation pool

/-! ## Lemmas on the copy loops -/

/-- A loop `for i in is: dst[i] = src[i]` over indices inside `src`. -/
theorem copy_loop {β : Type} (src : List β) (is : List Nat) (f : Nat → β)
    (h : ∀ i ∈ is, i < src.length) (k : Nat) :
    (is.foldl (fun f i => Function.update f i (src.getD i (f i))) f) k
      = if k ∈ is then src.getD k (f k) else f k := by
  induction is generalizing f with
  | nil => simp
  | cons i is ih =>
    rw [List.foldl_cons, ih _ (fun j hj => h j (List.mem_cons_of_mem _ hj))]
    by_cases hk : k = i
    · subst hk
      have hlt : k < src.length := h k (List.mem_cons_self _ _)
      simp [Function.update_same, List.getD_eq_getElem?_getD, List.getElem?_eq_getElem hlt]
    · simp [Function.update_noteq hk, hk]

theorem store_bus_eq (s : TransitState) (all : List ArrivalInfo) :
    store_bus s all =
      { s with
        bus_arrival_count := min all.length 4
        bus_arrivals := (List.range (min all.length 4)).foldl
          (fun f i => Function.update f i (all.getD i (f i))) s.bus_arrivals } := by
  unfold store_bus
  simp only []
  generalize List.range (min all.length 4) = js
  generalize min all.length 4 = c
  suffices h : ∀ t : TransitState, List.foldl (fun s i =>
      { s with bus_arrivals :=
          Function.update s.bus_arrivals i (all.getD i (s.bus_arrivals i)) }) t js
      = { t with bus_arrivals :=
            (List.foldl (fun f i => Function.update f i (all.getD i (f i))) t.bus_arrivals js) }
      from h _
  induction js with
  | nil => intro t; rfl
  | cons i js ih => intro t; rw [List.foldl_cons, ih]; rfl

theorem retained_store_bus (s : TransitState) (all : List ArrivalInfo) :
    retained_bus (store_bus s all) = all.take 4 := by
  rw [store_bus_eq]
  unfold retained_bus
  simp only []
  apply List.ext_getElem
  · simp [Nat.min_comm]
  · intro k h1 h2
    have h3 : k < min all.length 4 := by simpa using h1
    have hk : k < all.length := lt_of_lt_of_le h3 (Nat.min_le_left _ _)
    have hin : ∀ i ∈ List.range (min all.length 4), i < all.length := fun i hi =>
      lt_of_lt_of_le (List.mem_range.mp hi) (Nat.min_le_left _ _)
    rw [List.getElem_map, List.getElem_range, copy_loop all _ _ hin]
    simp [h3, List.getElem?_eq_getElem hk, List.getElem_take]

theorem pool_entry_length (env : TransitEnv) (arrivals : List JsonArrival)
    (all : List ArrivalInfo) (i : Nat) (h : all.length ≤ 30) :
    (pool_entry env arrivals all i).length ≤ 30 := by
  unfold pool_entry
  split
  · simp only [List.length_append, List.length_singleton]; omega
  · exact h

theorem foldl_invariant {σ ι : Type} (P : σ → Prop) (f : σ → ι → σ)
    (hf : ∀ a i, P a → P (f a i)) (is : List ι) (a : σ) (ha : P a) : P (is.foldl f a) := by
  induction is generalizing a with
  | nil => exact ha
  | cons i is ih => exact ih _ (hf a i ha)

theorem pool_stop_length (env : TransitEnv) (s : TransitState) (all : List ArrivalInfo)
    (stop : Nat) (h : all.length ≤ 30) : (pool_stop env s all stop).length ≤ 30 := by
  unfold pool_stop
  split
  · exact h
  · split
    · exact foldl_invariant (fun a => a.length ≤ 30) _
        (fun a i ha => pool_entry_length env _ a i ha) _ _ h
    · exact h
    · exact h

theorem bus_pool_length (env : TransitEnv) (s : TransitState) :
    (bus_pool env s).length ≤ 30 :=
  foldl_invariant (fun a => a.length ≤ 30) _ (fun a i ha => pool_stop_length env s a i ha)
    _ _ (by simp)

theorem fetch_bus_connected (env : TransitEnv) (s : TransitState)
    (hw : env.wifi_connected = true) :
    fetch_bus_arrivals env s = store_bus s (bus_sort (bus_pool env s)) := by
  simp [fetch_bus_arrivals, hw]

/-- Sample data: an arrival of line 73 with the given time. -/
def sample_arrival (t : Int) : JsonArrival :=
  ⟨some (lit "73"), some (lit "Oxford Circus"), none, some t⟩

/-- Sample data: no stop configured, nothing stored, all labels empty. -/
def empty_state : TransitState where
  bus_stop_ids := fun _ => []
  tube_station_id := []
  bus_arrivals := fun _ => ⟨[], [], 0⟩
  tube_arrivals := fun _ => ⟨[], [], 0⟩
  bus_arrival_count := 0
  tube_arrival_count := 0
  lbl_bus_arrivals := fun _ => []
  lbl_tube_arrivals := fun _ => []

/-- Sample data: the state with one configured bus stop. -/
def one_stop_state : TransitState :=
  { empty_state with bus_stop_ids := fun i => if i = 0 then lit "490008660N" else [] }

/-- Sample data: a connected network whose first bus stop answers with the given times. -/
def bus_env (times : List Int) : TransitEnv where
  wifi_connected := true
  bus_response := fun _ => .ok (times.map sample_arrival)
  tube_response := .failed
  all_arrivals_rest := fun _ => ([], [])

/-- C1: with the network up, the pool built by `fetch_bus_arrivals` has at most 30 entries
and the retained bus list has exactly `min n 4` entries, is in non-decreasing order of
`timeToStation`, and consists of the smallest entries of the pool: together with the
dropped entries it is a rearrangement of the pool, and every retained time is at most
every dropped time. -/
theorem bus_retained_sorted_smallest (env : TransitEnv) (s : TransitState)
    (hw : env.wifi_connected = true) :
    (bus_pool env s).length ≤ 30 ∧
    (fetch_bus_arrivals env s).bus_arrival_count = min (bus_pool env s).length 4 ∧
    (retained_bus (fetch_bus_arrivals env s)).length = min (bus_pool env s).length 4 ∧
    (retained_bus (fetch_bus_arrivals env s)).Pairwise
      (fun x y => x.timeToStation ≤ y.timeToStation) ∧
    ∃ dropped : List ArrivalInfo,
      (retained_bus (fetch_bus_arrivals env s) ++ dropped).Perm (bus_pool env s) ∧
      ∀ x ∈ retained_bus (fetch_bus_arrivals env s), ∀ y ∈ dropped,
        x.timeToStation ≤ y.timeToStation := by
  have hsorted := bsort_sorted ArrivalInfo.timeToStation (bus_pool env s)
  have hperm := bsort_perm ArrivalInfo.timeToStation (bus_pool env s).length (bus_pool env s)
  rw [← bus_sort_eq_bsort] at hsorted hperm
  rw [fetch_bus_connected env s hw, retained_store_bus]
  refine ⟨bus_pool_length env s, ?_, ?_, ?_, (bus_sort (bus_pool env s)).drop 4, ?_, ?_⟩
  · rw [store_bus_eq]; simp [hperm.length_eq]
  · simp [hperm.length_eq, Nat.min_comm]
  · exact hsorted.sublist (List.take_sublist _ _)
  · rw [List.take_append_drop]; exact hperm
  · rw [← List.take_append_drop 4 (bus_sort (bus_pool env s)), List.pairwise_append] at hsorted
    exact hsorted.2.2

/-- C1, on the sample data: the times 300, 0, 600, 90 are retained as 0, 90, 300, 600, and
a pool of 6 entries leaves 4. -/
theorem bus_retained_sorted_smallest_witness :
    (bus_env [300, 0, 600, 90]).wifi_connected = true ∧
    (retained_bus (fetch_bus_arrivals (bus_env [300, 0, 600, 90]) one_stop_state)).map
      ArrivalInfo.timeToStation = [0, 90, 300, 600] ∧
    (bus_pool (bus_env [5, 4, 3, 2, 1, 0]) one_stop_state).length = 6 ∧
    (retained_bus (fetch_bus_arrivals (bus_env [5, 4, 3, 2, 1, 0]) one_stop_state)).length
      = 4 ∧
    (retained_bus (fetch_bus_arrivals (bus_env [300, 0, 600, 90]) one_stop_state)).Pairwise
      (fun x y => x.timeToStation ≤ y.timeToStation) :=
  ⟨rfl, by decide, by decide, by decide,
    (bus_retained_sorted_smallest (bus_env [300, 0, 600, 90]) one_stop_state rfl).2.2.2.1⟩

/-! ## Lemmas on `fetch_tube_arrivals` -/

theorem update_loop {β : Type} (g : Nat → β) (js : List Nat) (f : Nat → β) (k : Nat) :
    (js.foldl (fun f i => Function.update f i (g i)) f) k = if k ∈ js then g k else f k := by
  induction js generalizing f with
  | nil => simp
  | cons i js ih =>
    rw [List.foldl_cons, ih]
    by_cases hk : k = i
    · subst hk; simp
    · simp [Function.update_noteq hk, hk]

theorem map_range_take {β γ : Type} (l : List β) (d : β) (F : β → γ) (n : Nat) :
    (List.range (min l.length n)).map (fun i => F (l[i]?.getD d)) = (l.take n).map F := by
  apply List.ext_getElem
  · simp [Nat.min_comm]
  · intro k h1 h2
    have h3 : k < min l.length n := by simpa using h1
    have hk : k < l.length := lt_of_lt_of_le h3 (Nat.min_le_left _ _)
    simp [List.getElem?_eq_getElem hk, List.getElem_take]

theorem tube_swap_map (tm : Nat → Int) (js : List Nat) (j : Nat) :
    tube_swap (js.map tm, js) j = ((cswap tm js j).map tm, cswap tm js j) := by
  unfold tube_swap cswap
  simp only [List.getElem?_map]
  cases js[j]? with
  | none => rfl
  | some x =>
    cases js[j + 1]? with
    | none => rfl
    | some y =>
      simp only [Option.map_some']
      split <;> simp [List.map_set]

theorem tube_sort_map (tm : Nat → Int) (count : Nat) (js : List Nat) :
    tube_sort count (js.map tm, js) = ((bsort tm count js).map tm, bsort tm count js) := by
  unfold tube_sort bsort
  generalize List.range (count - 1) = is
  induction is generalizing js with
  | nil => rfl
  | cons i is ih =>
    rw [List.foldl_cons, List.foldl_cons]
    have hpass : ∀ (ks : List Nat) (l : List Nat),
        ks.foldl tube_swap (l.map tm, l)
          = ((ks.foldl (cswap tm) l).map tm, ks.foldl (cswap tm) l) := by
      intro ks
      induction ks with
      | nil => intro l; rfl
      | cons k ks ihk => intro l; rw [List.foldl_cons, List.foldl_cons, tube_swap_map, ihk]
    rw [hpass, ih]

theorem foldl_tube_arrivals (g : Nat → ArrivalInfo) (js : List Nat) (t : TransitState) :
    List.foldl (fun s i => { s with tube_arrivals := Function.update s.tube_arrivals i (g i) })
      t js
    = { t with
        tube_arrivals := (List.foldl (fun f i => Function.update f i (g i)) t.tube_arrivals js) }
    := by
  induction js generalizing t with
  | nil => rfl
  | cons i js ih => rw [List.foldl_cons, ih]; rfl

theorem store_tube_eq (s : TransitState) (arrivals : List JsonArrival) :
    store_tube s arrivals =
      { s with
        tube_arrival_count := min (min arrivals.length 10) 4
        tube_arrivals := (List.range (min (min arrivals.length 10) 4)).foldl
          (fun f i => Function.update f i
            (tube_info (arrivals[(bsort
              (fun i => (arrivals[i]?.getD JsonArrival.null).timeToStation_as_int)
              (min arrivals.length 10)
              (List.range (min arrivals.length 10))).getD i 0]?.getD JsonArrival.null)))
          s.tube_arrivals } := by
  unfold store_tube
  simp only [List.map_id']
  rw [tube_sort_map]
  simp only []
  generalize List.range (min (min arrivals.length 10) 4) = js
  generalize min (min arrivals.length 10) 4 = c
  generalize (bsort (fun i => (arrivals[i]?.getD JsonArrival.null).timeToStation_as_int)
    (min arrivals.length 10) (List.range (min arrivals.length 10))) = idx
  exact foldl_tube_arrivals _ js _

/-- The tube entries retained from a parsed response: its first 10 arrivals, sorted by
the bubble sort and cut to 4. -/
theorem retained_store_tube (s : TransitState) (arrivals : List JsonArrival) :
    retained_tube (store_tube s arrivals)
      = (bus_sort ((arrivals.take 10).map tube_info)).take 4 := by
  rw [store_tube_eq]
  unfold retained_tube
  simp only []
  have hlen : ((arrivals.take 10).map tube_info).length = min arrivals.length 10 := by
    simp [Nat.min_comm]
  rw [bus_sort_eq_bsort, hlen, ← map_range_take arrivals JsonArrival.null tube_info 10,
    bsort_map ArrivalInfo.timeToStation
      (fun i => (arrivals[i]?.getD JsonArrival.null).timeToStation_as_int)
      (fun i => tube_info (arrivals[i]?.getD JsonArrival.null)) (fun _ => rfl)]
  generalize hidx : (bsort (fun i => (arrivals[i]?.getD JsonArrival.null).timeToStation_as_int)
    (min arrivals.length 10) (List.range (min arrivals.length 10))) = idx
  have hil : idx.length = min arrivals.length 10 := by
    rw [← hidx, bsort_length]; simp
  rw [← List.map_take, ← hil, ← map_range_take idx 0
    (fun i => tube_info (arrivals[i]?.getD JsonArrival.null)) 4]
  apply List.map_congr_left
  intro k hk
  rw [update_loop]
  simp [hk, List.getD_eq_getElem?_getD]

theorem fetch_tube_parsed (env : TransitEnv) (s : TransitState)
    (arrivals : List JsonArrival) (hw : env.wifi_connected = true)
    (hr : env.tube_response = .ok arrivals) :
    fetch_tube_arrivals env s = store_tube s arrivals := by
  simp [fetch_tube_arrivals, hw, hr]

/-- C2: the bubble sort of `fetch_bus_arrivals` is stable. For every pool the sorted list
is the stable sort of the pool; for every time `c` the arrivals with `timeToStation = c`
stand in the sorted list in the order they have in the pool, and those among the retained
first 4 are the first of them, in that order. -/
theorem bus_sort_stable (pool : List ArrivalInfo) (s : TransitState) (c : Int) :
    bus_sort pool = stable_sort_by_time pool ∧
    (bus_sort pool).filter (fun x => decide (x.timeToStation = c))
      = pool.filter (fun x => decide (x.timeToStation = c)) ∧
    ((retained_bus (store_bus s (bus_sort pool))).filter
        (fun x => decide (x.timeToStation = c)))
      <+: pool.filter (fun x => decide (x.timeToStation = c)) := by
  have hf : (bus_sort pool).filter (fun x => decide (x.timeToStation = c))
      = pool.filter (fun x => decide (x.timeToStation = c)) := by
    rw [bus_sort_eq_bsort]
    exact bsort_filter ArrivalInfo.timeToStation c _ pool
  refine ⟨bus_sort_eq_stable pool, hf, ?_⟩
  rw [retained_store_bus, ← hf]
  exact (List.take_prefix 4 (bus_sort pool)).filter _

/-- Sample data: a station state with a tube station configured. -/
def tube_state : TransitState :=
  { empty_state with tube_station_id := lit "940GZZLUKSX" }

/-- Sample data: a connected network whose tube station answers with the given times. -/
def tube_env (times : List Int) : TransitEnv where
  wifi_connected := true
  bus_response := fun _ => .failed
  tube_response := .ok (times.map sample_arrival)
  all_arrivals_rest := fun _ => ([], [])

/-- C3, as stated, fails: of a response of 11 arrivals whose last is the soonest (5 s),
the retained tube entries are those of 10, 20, 30 and 40 s, while the 4 soonest of the
whole response are those of 5, 10, 20 and 30 s. -/
theorem tube_whole_response_counterexample :
    (retained_tube (fetch_tube_arrivals
        (tube_env [10, 20, 30, 40, 50, 60, 70, 80, 90, 100, 5]) tube_state)).map
      ArrivalInfo.timeToStation = [10, 20, 30, 40] ∧
    (sort_and_truncate
        (([10, 20, 30, 40, 50, 60, 70, 80, 90, 100, 5].map sample_arrival).map tube_info)).map
      ArrivalInfo.timeToStation = [5, 10, 20, 30] ∧
    retained_tube (fetch_tube_arrivals
        (tube_env [10, 20, 30, 40, 50, 60, 70, 80, 90, 100, 5]) tube_state)
      ≠ sort_and_truncate
        (([10, 20, 30, 40, 50, 60, 70, 80, 90, 100, 5].map sample_arrival).map tube_info) := by
  have h1 : (retained_tube (fetch_tube_arrivals
        (tube_env [10, 20, 30, 40, 50, 60, 70, 80, 90, 100, 5]) tube_state)).map
      ArrivalInfo.timeToStation = [10, 20, 30, 40] := by decide
  have h2 : (sort_and_truncate
        (([10, 20, 30, 40, 50, 60, 70, 80, 90, 100, 5].map sample_arrival).map tube_info)).map
      ArrivalInfo.timeToStation = [5, 10, 20, 30] := by decide
  refine ⟨h1, h2, fun h => ?_⟩
  rw [h, h2] at h1
  exact absurd h1 (by decide)

/-- C3, amended: for every parsed tube response the retained tube arrivals are the first
10 arrivals of the response, stable-sorted ascending by `timeToStation` and truncated to
the first 4, by the same sort as the bus list; when the response has at most 10 arrivals
these are the 4 soonest arrivals of the whole response. -/
theorem tube_retained_first_ten (env : TransitEnv) (s : TransitState)
    (arrivals : List JsonArrival) (hw : env.wifi_connected = true)
    (hr : env.tube_response = .ok arrivals) :
    retained_tube (fetch_tube_arrivals env s)
      = sort_and_truncate ((arrivals.take 10).map tube_info) ∧
    retained_tube (fetch_tube_arrivals env s)
      = (bus_sort ((arrivals.take 10).map tube_info)).take 4 ∧
    (fetch_tube_arrivals env s).tube_arrival_count = min arrivals.length 4 ∧
    (arrivals.length ≤ 10 →
      retained_tube (fetch_tube_arrivals env s)
        = sort_and_truncate (arrivals.map tube_info)) := by
  have h1 : retained_tube (fetch_tube_arrivals env s)
      = sort_and_truncate ((arrivals.take 10).map tube_info) := by
    rw [fetch_tube_parsed env s arrivals hw hr, retained_store_tube, bus_sort_eq_stable]
    rfl
  refine ⟨h1, ?_, ?_, ?_⟩
  · rw [fetch_tube_parsed env s arrivals hw hr, retained_store_tube]
  · rw [fetch_tube_parsed env s arrivals hw hr, store_tube_eq]
    simp only []
    omega
  · intro hle
    rw [h1, List.take_of_length_le hle]

/-- C3, amended, on the sample data: a response with the times 300, 0, 600, 90, 0 is
retained as 0, 0, 90, 300. -/
theorem tube_retained_first_ten_witness :
    (tube_env [300, 0, 600, 90, 0]).wifi_connected = true ∧
    (tube_env [300, 0, 600, 90, 0]).tube_response
      = .ok ([300, 0, 600, 90, 0].map sample_arrival) ∧
    (retained_tube (fetch_tube_arrivals (tube_env [300, 0, 600, 90, 0]) tube_state)).map
      ArrivalInfo.timeToStation = [0, 0, 90, 300] ∧
    retained_tube (fetch_tube_arrivals (tube_env [300, 0, 600, 90, 0]) tube_state)
      = sort_and_truncate ((([300, 0, 600, 90, 0].map sample_arrival).take 10).map tube_info) :=
  ⟨rfl, rfl, by decide,
    (tube_retained_first_ten (tube_env [300, 0, 600, 90, 0]) tube_state
      ([300, 0, 600, 90, 0].map sample_arrival) rfl rfl).1⟩

/-! ## Lemmas on `fetch_tfl_arrivals` -/

theorem utd_bus_label (strings : LocalizedStrings) (s : TransitState) (i : Nat) (hi : i < 4) :
    (update_transit_display strings s).lbl_bus_arrivals i = bus_row strings s i := by
  simp only [update_transit_display, show List.range 4 = [0, 1, 2, 3] from rfl,
    List.foldl_cons, List.foldl_nil]
  interval_cases i <;> rfl

theorem utd_tube_label (strings : LocalizedStrings) (s : TransitState) (i : Nat) (hi : i < 4) :
    (update_transit_display strings s).lbl_tube_arrivals i = tube_row strings s i := by
  simp only [update_transit_display, show List.range 4 = [0, 1, 2, 3] from rfl,
    List.foldl_cons, List.foldl_nil]
  interval_cases i <;> rfl

theorem utd_frame (strings : LocalizedStrings) (s : TransitState) :
    (update_transit_display strings s).bus_arrival_count = s.bus_arrival_count ∧
    (update_transit_display strings s).tube_arrival_count = s.tube_arrival_count ∧
    (update_transit_display strings s).bus_arrivals = s.bus_arrivals ∧
    (update_transit_display strings s).tube_arrivals = s.tube_arrivals ∧
    (update_transit_display strings s).bus_stop_ids = s.bus_stop_ids ∧
    (update_transit_display strings s).tube_station_id = s.tube_station_id :=
  ⟨rfl, rfl, rfl, rfl, rfl, rfl⟩

theorem pool_stop_failed (env : TransitEnv) (s : TransitState) (all : List ArrivalInfo)
    (stop : Nat)
    (h : (s.bus_stop_ids stop).length ≠ 0 →
      env.bus_response stop = .failed ∨ env.bus_response stop = .badJson) :
    pool_stop env s all stop = all := by
  unfold pool_stop
  split
  · rfl
  · rename_i hne
    rcases h hne with e | e <;> rw [e]

theorem bus_pool_failed (env : TransitEnv) (s : TransitState)
    (h : ∀ stop, stop < MAX_BUS_STOPS → (s.bus_stop_ids stop).length ≠ 0 →
      env.bus_response stop = .failed ∨ env.bus_response stop = .badJson) :
    bus_pool env s = [] := by
  simp only [bus_pool, show List.range MAX_BUS_STOPS = [0, 1, 2] from rfl, List.foldl_cons,
    List.foldl_nil]
  rw [pool_stop_failed env s _ 0 (h 0 (by decide)), pool_stop_failed env s _ 1 (h 1 (by decide)),
    pool_stop_failed env s _ 2 (h 2 (by decide))]

theorem fetch_bus_frame (env : TransitEnv) (s : TransitState) :
    (fetch_bus_arrivals env s).bus_stop_ids = s.bus_stop_ids ∧
    (fetch_bus_arrivals env s).tube_station_id = s.tube_station_id ∧
    (fetch_bus_arrivals env s).tube_arrival_count = s.tube_arrival_count ∧
    (fetch_bus_arrivals env s).tube_arrivals = s.tube_arrivals := by
  unfold fetch_bus_arrivals
  split
  · exact ⟨rfl, rfl, rfl, rfl⟩
  · rw [store_bus_eq]; exact ⟨rfl, rfl, rfl, rfl⟩

theorem fetch_tube_frame (env : TransitEnv) (s : TransitState) :
    (fetch_tube_arrivals env s).bus_stop_ids = s.bus_stop_ids ∧
    (fetch_tube_arrivals env s).tube_station_id = s.tube_station_id ∧
    (fetch_tube_arrivals env s).bus_arrival_count = s.bus_arrival_count ∧
    (fetch_tube_arrivals env s).bus_arrivals = s.bus_arrivals := by
  unfold fetch_tube_arrivals
  split
  · exact ⟨rfl, rfl, rfl, rfl⟩
  · split
    · rw [store_tube_eq]; exact ⟨rfl, rfl, rfl, rfl⟩
    · exact ⟨rfl, rfl, rfl, rfl⟩
    · exact ⟨rfl, rfl, rfl, rfl⟩

theorem any_bus_stop_configured_congr (s t : TransitState)
    (h : t.bus_stop_ids = s.bus_stop_ids) :
    any_bus_stop_configured t = any_bus_stop_configured s := by
  unfold any_bus_stop_configured; rw [h]

/-- The state that `update_transit_display` is called on inside `fetch_tfl_arrivals`. -/
def fetched (env : TransitEnv) (s : TransitState) : TransitState :=
  let s := if any_bus_stop_configured s then fetch_bus_arrivals env s else s
  if 0 < s.tube_station_id.length then fetch_tube_arrivals env s else s

theorem fetch_tfl_eq (strings : LocalizedStrings) (env : TransitEnv) (s : TransitState) :
    fetch_tfl_arrivals strings env s = update_transit_display strings (fetched env s) := rfl

theorem fetched_ids (env : TransitEnv) (s : TransitState) :
    (fetched env s).bus_stop_ids = s.bus_stop_ids ∧
    (fetched env s).tube_station_id = s.tube_station_id := by
  unfold fetched
  simp only []
  split <;> split <;>
    simp [(fetch_bus_frame env s).1, (fetch_bus_frame env s).2.1, (fetch_tube_frame env _).1,
      (fetch_tube_frame env _).2.1]

theorem fetched_bus_count (env : TransitEnv) (s : TransitState) :
    (fetched env s).bus_arrival_count
      = (if any_bus_stop_configured s then fetch_bus_arrivals env s else s).bus_arrival_count
    := by
  unfold fetched
  simp only []
  generalize (if any_bus_stop_configured s then fetch_bus_arrivals env s else s) = t
  split
  · exact (fetch_tube_frame env t).2.2.1
  · rfl

theorem fetched_tube (env : TransitEnv) (s : TransitState)
    (h : 0 < s.tube_station_id.length) :
    (fetched env s).tube_arrival_count
      = (fetch_tube_arrivals env
          (if any_bus_stop_configured s then fetch_bus_arrivals env s else s)).tube_arrival_count
    := by
  unfold fetched
  simp only []
  have : 0 < (if any_bus_stop_configured s then fetch_bus_arrivals env s
      else s).tube_station_id.length := by
    split
    · rw [(fetch_bus_frame env s).2.1]; exact h
    · exact h
  rw [if_pos this]

/-- Sample data: English texts. -/
def sample_strings : LocalizedStrings where
  invalid_hour := lit "Invalid hour"
  am := lit "am"
  pm := lit "pm"
  noon := lit "Noon"
  today := lit "Today"
  now := lit "Now"
  weekdays := fun i => [lit "Sun", lit "Mon", lit "Tue", lit "Wed", lit "Thu", lit "Fri",
    lit "Sat"].getD i []
  feels_like_temp := lit "Feels Like"
  sunrise := lit "Sunrise"
  sunset := lit "Sunset"
  due := lit "Due"
  mins := lit "mins"
  no_arrivals := lit "No arrivals"
  seven_day_forecast := lit "SEVEN DAY FORECAST"
  hourly_forecast := lit "HOURLY FORECAST"
  transit_title := lit "TRANSIT"

/-- Sample data: a bus stop and a tube station are configured, and one arrival of each
mode is held from an earlier refresh. -/
def stale_state : TransitState where
  bus_stop_ids := fun i => if i = 0 then lit "490008660N" else []
  tube_station_id := lit "940GZZLUKSX"
  bus_arrivals := fun _ => ⟨lit "73", lit "Oxford Circus", 120⟩
  tube_arrivals := fun _ => ⟨lit "Victoria", lit "Brixton", 45⟩
  bus_arrival_count := 1
  tube_arrival_count := 1
  lbl_bus_arrivals := fun _ => []
  lbl_tube_arrivals := fun _ => []

/-- Sample data: no network connectivity. -/
def offline_env : TransitEnv where
  wifi_connected := false
  bus_response := fun _ => .failed
  tube_response := .failed
  all_arrivals_rest := fun _ => ([], [])

/-- Sample data: the network is up and every request fails with a non-OK status. -/
def failing_env : TransitEnv where
  wifi_connected := true
  bus_response := fun _ => .failed
  tube_response := .failed
  all_arrivals_rest := fun _ => ([], [])

/-- C4, as stated, fails: without network connectivity both sub-fetches return at their
first line, the counts stay 1 and the first row of each mode shows the arrival held from
the earlier refresh. -/
theorem offline_keeps_stale_counterexample :
    offline_env.wifi_connected = false ∧
    (fetch_tfl_arrivals sample_strings offline_env stale_state).bus_arrival_count = 1 ∧
    (fetch_tfl_arrivals sample_strings offline_env stale_state).tube_arrival_count = 1 ∧
    (fetch_tfl_arrivals sample_strings offline_env stale_state).lbl_bus_arrivals 0
      = lit "73 " ++ arrow ++ lit " Oxford Circus: 2 mins" ∧
    (fetch_tfl_arrivals sample_strings offline_env stale_state).lbl_tube_arrivals 0
      = lit "Victoria " ++ arrow ++ lit " Brixton: Due" := by
  decide

/-- C4, amended: with the network up, for every previous state, when every configured bus
stop answers with a non-OK status or an unparseable body the bus count after
`fetch_tfl_arrivals` is 0, the first bus row is the no-arrivals text and the other three
are empty; and likewise for the tube station and the tube rows. -/
theorem failed_fetch_clears (strings : LocalizedStrings) (env : TransitEnv)
    (s : TransitState) (hw : env.wifi_connected = true) :
    (any_bus_stop_configured s = true →
      (∀ stop, stop < MAX_BUS_STOPS → (s.bus_stop_ids stop).length ≠ 0 →
        env.bus_response stop = .failed ∨ env.bus_response stop = .badJson) →
      (fetch_tfl_arrivals strings env s).bus_arrival_count = 0 ∧
      (fetch_tfl_arrivals strings env s).lbl_bus_arrivals 0 = strings.no_arrivals ∧
      ∀ i, 1 ≤ i → i < 4 → (fetch_tfl_arrivals strings env s).lbl_bus_arrivals i = []) ∧
    (0 < s.tube_station_id.length →
      (env.tube_response = .failed ∨ env.tube_response = .badJson) →
      (fetch_tfl_arrivals strings env s).tube_arrival_count = 0 ∧
      (fetch_tfl_arrivals strings env s).lbl_tube_arrivals 0 = strings.no_arrivals ∧
      ∀ i, 1 ≤ i → i < 4 → (fetch_tfl_arrivals strings env s).lbl_tube_arrivals i = []) := by
  constructor
  · intro hcfg hfail
    have hcount : (fetched env s).bus_arrival_count = 0 := by
      rw [fetched_bus_count, if_pos hcfg, fetch_bus_connected env s hw, store_bus_eq,
        bus_pool_failed env s hfail]
      rfl
    have hany : any_bus_stop_configured (fetched env s) = true := by
      rw [any_bus_stop_configured_congr s (fetched env s) (fetched_ids env s).1]; exact hcfg
    rw [fetch_tfl_eq]
    refine ⟨by rw [(utd_frame strings _).1, hcount], ?_, ?_⟩
    · rw [utd_bus_label strings _ 0 (by decide)]
      simp [bus_row, hcount, hany]
    · intro i h1 h4
      rw [utd_bus_label strings _ i h4]
      have hi : i ≠ 0 := by omega
      simp [bus_row, hcount, hi, lit]
  · intro hcfg hfail
    have hcount : (fetched env s).tube_arrival_count = 0 := by
      rw [fetched_tube env s hcfg]
      unfold fetch_tube_arrivals
      rcases hfail with e | e <;> simp [hw, e]
    have hid : 0 < (fetched env s).tube_station_id.length := by
      rw [(fetched_ids env s).2]; exact hcfg
    rw [fetch_tfl_eq]
    refine ⟨by rw [(utd_frame strings _).2.1, hcount], ?_, ?_⟩
    · rw [utd_tube_label strings _ 0 (by decide)]
      simp only [tube_row, hcount, lt_irrefl, if_false, true_and, hid, if_true]
    · intro i h1 h4
      rw [utd_tube_label strings _ i h4]
      have hi : i ≠ 0 := by omega
      simp [tube_row, hcount, hi, lit]

/-- C4, amended, on the sample data: with the network up and every request failing, the
arrivals held before are gone: both counts are 0 and the rows read "No arrivals", "", "",
"". -/
theorem failed_fetch_clears_witness :
    failing_env.wifi_connected = true ∧
    any_bus_stop_configured stale_state = true ∧
    0 < stale_state.tube_station_id.length ∧
    ((fetch_tfl_arrivals sample_strings failing_env stale_state).bus_arrival_count = 0 ∧
      (fetch_tfl_arrivals sample_strings failing_env stale_state).lbl_bus_arrivals 0
        = lit "No arrivals" ∧
      ∀ i, 1 ≤ i → i < 4 →
        (fetch_tfl_arrivals sample_strings failing_env stale_state).lbl_bus_arrivals i = []) ∧
    ((fetch_tfl_arrivals sample_strings failing_env stale_state).tube_arrival_count = 0 ∧
      (fetch_tfl_arrivals sample_strings failing_env stale_state).lbl_tube_arrivals 0
        = lit "No arrivals" ∧
      ∀ i, 1 ≤ i → i < 4 →
        (fetch_tfl_arrivals sample_strings failing_env stale_state).lbl_tube_arrivals i = []) :=
  ⟨rfl, by decide, by decide,
    (failed_fetch_clears sample_strings failing_env stale_state rfl).1 (by decide)
      (fun _ _ _ => Or.inl rfl),
    (failed_fetch_clears sample_strings failing_env stale_state rfl).2 (by decide)
      (Or.inl rfl)⟩

/-! ## The calendar -/

theorem days_in_year_eq (y : Nat) :
    days_in_year y = 365 + if (y % 4 = 0 ∧ y % 100 ≠ 0) ∨ y % 400 = 0 then 1 else 0 := by
  unfold days_in_year is_leap_year
  by_cases h : (y % 4 = 0 ∧ y % 100 ≠ 0) ∨ y % 400 = 0
  · simp [h]
  · simp [h]

/-- The days of the first `n` years: 365 each and one more for each leap year. -/
theorem years_sum (n : Nat) :
    ((List.range n).map (fun k => days_in_year (k + 1))).sum + n / 100
      = 365 * n + n / 4 + n / 400 := by
  induction n with
  | zero => rfl
  | succ n ih =>
    rw [List.sum_range_succ, days_in_year_eq]
    split <;> omega

/-- The days of the months before month `m`. -/
theorem months_sum (y m : Nat) (h1 : 1 ≤ m) (h12 : m ≤ 12) :
    ((List.range (m - 1)).map (fun j => days_in_month y (j + 1))).sum
      = [0, 31, 59, 90, 120, 151, 181, 212, 243, 273, 304, 334].getD (m - 1) 0
        + if 3 ≤ m ∧ ((y % 4 = 0 ∧ y % 100 ≠ 0) ∨ y % 400 = 0) then 1 else 0 := by
  by_cases h : (y % 4 = 0 ∧ y % 100 ≠ 0) ∨ y % 400 = 0
  · interval_cases m <;> simp [List.range_succ, days_in_month, is_leap_year, h]
  · interval_cases m <;> simp [List.range_succ, days_in_month, is_leap_year, h]

theorem int32_of_range (x : Int) (h1 : -2147483648 ≤ x) (h2 : x ≤ 2147483647) :
    int32 x = x := by
  unfold int32
  omega

/-- The sum of `day_of_week` stays inside the range of `int` for a year up to 1717986918,
the largest `y` with `y + y / 4` in the range. -/
theorem dow_sum_in_range (n tm d : Int) (hn0 : 0 ≤ n) (hn : n ≤ 1717986918)
    (ht0 : 0 ≤ tm) (ht : tm ≤ 6) (hd0 : 0 ≤ d) (hd : d ≤ 31) :
    int32 (int32 (int32 (int32 (int32 (n + n.tdiv 4) - n.tdiv 100) + n.tdiv 400) + tm) + d)
      = n + n.tdiv 4 - n.tdiv 100 + n.tdiv 400 + tm + d := by
  rw [Int.tdiv_eq_ediv hn0 (by decide), Int.tdiv_eq_ediv hn0 (by decide),
    Int.tdiv_eq_ediv hn0 (by decide)]
  rw [int32_of_range (n + n / 4) (by omega) (by omega),
    int32_of_range (n + n / 4 - n / 100) (by omega) (by omega),
    int32_of_range (n + n / 4 - n / 100 + n / 400) (by omega) (by omega),
    int32_of_range (n + n / 4 - n / 100 + n / 400 + tm) (by omega) (by omega),
    int32_of_range (n + n / 4 - n / 100 + n / 400 + tm + d) (by omega) (by omega)]

theorem day_of_week_unfold (y m d tm : Int) (k : Nat) (hk : m = (k : Int) + 1)
    (ht : ([0, 3, 2, 5, 0, 3, 5, 1, 4, 6, 2, 4] : List Int)[k]? = some tm) :
    day_of_week y m d
      = some ((int32 (int32 (int32 (int32 (int32
          ((if m < 3 then int32 (y - 1) else y)
            + (if m < 3 then int32 (y - 1) else y).tdiv 4)
          - (if m < 3 then int32 (y - 1) else y).tdiv 100)
          + (if m < 3 then int32 (y - 1) else y).tdiv 400) + tm) + d)).tmod 7) := by
  have hk12 : k < 12 := by
    by_contra hc
    rw [List.getElem?_eq_none (by simpa using hc)] at ht
    cases ht
  have hm : int32 (m - 1) = (k : Int) := by
    rw [int32_of_range _ (by omega) (by omega)]; omega
  unfold day_of_week
  simp only [hm, Int.toNat_natCast, ht, Int.natCast_nonneg, if_true]

/-- The value of `day_of_week` for a month inside the table, a year from 1 to 1717986918 and
a day from 0 to 31: no operation leaves the range of `int`. -/
theorem day_of_week_eval (y : Int) (m : Nat) (d : Int) (h1 : 1 ≤ m) (h12 : m ≤ 12)
    (hy1 : 1 ≤ y) (hy : y ≤ 1717986918) (hd0 : 0 ≤ d) (hd : d ≤ 31) :
    day_of_week y m d
      = some (((if m < 3 then y - 1 else y) + (if m < 3 then y - 1 else y).tdiv 4
          - (if m < 3 then y - 1 else y).tdiv 100 + (if m < 3 then y - 1 else y).tdiv 400
          + (([0, 3, 2, 5, 0, 3, 5, 1, 4, 6, 2, 4].getD (m - 1) 0 : Nat) : Int) + d).tmod 7)
    := by
  have hy' : int32 (y - 1) = y - 1 := int32_of_range _ (by omega) (by omega)
  obtain ⟨k, rfl⟩ : ∃ k, m = k + 1 := ⟨m - 1, by omega⟩
  have hk : k < 12 := by omega
  obtain ⟨tm, ht, ht0, ht6, hnat⟩ : ∃ tm : Int,
      ([0, 3, 2, 5, 0, 3, 5, 1, 4, 6, 2, 4] : List Int)[k]? = some tm ∧ 0 ≤ tm ∧ tm ≤ 6 ∧
      (([0, 3, 2, 5, 0, 3, 5, 1, 4, 6, 2, 4].getD k 0 : Nat) : Int) = tm := by
    interval_cases k <;> exact ⟨_, rfl, by decide, by decide, rfl⟩
  rw [day_of_week_unfold y _ d tm k (by push_cast; ring) ht, Nat.add_sub_cancel, hnat]
  by_cases hm : k + 1 < 3
  · have hmi : ((k + 1 : Nat) : Int) < 3 := by omega
    rw [if_pos hmi, if_pos hm, hy',
      dow_sum_in_range (y - 1) tm d (by omega) (by omega) ht0 ht6 hd0 hd]
  · have hmi : ¬ ((k + 1 : Nat) : Int) < 3 := by omega
    rw [if_neg hmi, if_neg hm,
      dow_sum_in_range y tm d (by omega) (by omega) ht0 ht6 hd0 hd]

theorem dow_early (n Y tm base d : Nat) (hys : Y + n / 100 = 365 * n + n / 4 + n / 400)
    (ht : tm % 7 = base % 7) :
    ((n : Int) + (n : Int).tdiv 4 - (n : Int).tdiv 100 + (n : Int).tdiv 400
        + (tm : Int) + (d : Int)).tmod 7
      = (((Y + base + d) % 7 : Nat) : Int) := by
  rw [Int.tdiv_eq_ediv (by omega) (by omega), Int.tdiv_eq_ediv (by omega) (by omega),
    Int.tdiv_eq_ediv (by omega) (by omega), Int.tmod_eq_emod (by omega) (by omega)]
  omega

theorem dow_late (n Y tm base d : Nat) (hys : Y + n / 100 = 365 * n + n / 4 + n / 400)
    (ht : (tm + 1) % 7 = base % 7) :
    (((n + 1 : Nat) : Int) + ((n + 1 : Nat) : Int).tdiv 4 - ((n + 1 : Nat) : Int).tdiv 100
        + ((n + 1 : Nat) : Int).tdiv 400 + (tm : Int) + (d : Int)).tmod 7
      = (((Y + (base + if ((n + 1) % 4 = 0 ∧ (n + 1) % 100 ≠ 0) ∨ (n + 1) % 400 = 0
          then 1 else 0) + d) % 7 : Nat) : Int) := by
  have s4 : (n + 1) / 4 = n / 4 + if 4 ∣ n + 1 then 1 else 0 := Nat.succ_div n 4
  have s100 : (n + 1) / 100 = n / 100 + if 100 ∣ n + 1 then 1 else 0 := Nat.succ_div n 100
  have s400 : (n + 1) / 400 = n / 400 + if 400 ∣ n + 1 then 1 else 0 := Nat.succ_div n 400
  have e4 : ((n + 1 : Nat) : Int).tdiv 4 = (((n + 1) / 4 : Nat) : Int) := by
    rw [Int.tdiv_eq_ediv (by omega) (by omega)]; norm_cast
  have e100 : ((n + 1 : Nat) : Int).tdiv 100 = (((n + 1) / 100 : Nat) : Int) := by
    rw [Int.tdiv_eq_ediv (by omega) (by omega)]; norm_cast
  have e400 : ((n + 1 : Nat) : Int).tdiv 400 = (((n + 1) / 400 : Nat) : Int) := by
    rw [Int.tdiv_eq_ediv (by omega) (by omega)]; norm_cast
  have hB : n / 100 ≤ n := Nat.div_le_self n 100
  have d4 : (n + 1) % 4 = 0 ↔ 4 ∣ n + 1 := Nat.dvd_iff_mod_eq_zero.symm
  have d100 : (n + 1) % 100 = 0 ↔ 100 ∣ n + 1 := Nat.dvd_iff_mod_eq_zero.symm
  have d400 : (n + 1) % 400 = 0 ↔ 400 ∣ n + 1 := Nat.dvd_iff_mod_eq_zero.symm
  rw [e4, e100, e400, s4, s100, s400]
  simp only [ne_eq, d4, d100, d400]
  generalize n / 4 = A at hys ⊢
  generalize n / 100 = B at hys hB ⊢
  generalize n / 400 = C at hys ⊢
  clear s4 s100 s400 e4 e100 e400 d4 d100 d400
  by_cases h4 : 4 ∣ n + 1 <;> by_cases h100 : 100 ∣ n + 1 <;> by_cases h400 : 400 ∣ n + 1 <;>
    simp only [h4, h100, h400, if_true, if_false, not_true_eq_false, not_false_eq_true,
      and_true, and_false, or_true, or_false, true_and, false_and, false_or] <;>
    rw [Int.tmod_eq_emod (by omega) (by omega)] <;>
    omega

/-- For a year from 1 to 1717986918, a month from 1 to 12 and a day up to 31,
`day_of_week` called with the calendar year is the reference weekday. -/
theorem day_of_week_eq_reference (y m d : Nat) (hy : 1 ≤ y) (hyb : y ≤ 1717986918)
    (hm1 : 1 ≤ m) (hm12 : m ≤ 12) (hd : d ≤ 31) :
    day_of_week y m d = some (reference_weekday y m d : Int) := by
  obtain ⟨n, rfl⟩ : ∃ n, y = n + 1 := ⟨y - 1, by omega⟩
  have hys := years_sum n
  rw [day_of_week_eval _ m _ hm1 hm12 (by omega) (by omega) (by omega) (by omega)]
  unfold reference_weekday day_number
  rw [Nat.add_sub_cancel, months_sum (n + 1) m hm1 hm12]
  generalize ((List.range n).map (fun k => days_in_year (k + 1))).sum = Y at hys ⊢
  have hcast : ((n + 1 : Nat) : Int) - 1 = (n : Int) := by push_cast; ring
  congr 1
  by_cases hm : m < 3
  · have hm3 : ¬ (3 ≤ m) := by omega
    simp only [hm, if_true, hcast, hm3, false_and, if_false, Nat.add_zero]
    refine dow_early n Y _ _ d hys ?_
    interval_cases m <;> rfl
  · have hm3 : 3 ≤ m := by omega
    simp only [hm, if_false, hm3, true_and]
    refine dow_late n Y _ _ d hys ?_
    interval_cases m <;> rfl

theorem days_in_month_le (y m : Nat) : days_in_month y m ≤ 31 := by
  unfold days_in_month
  split
  · split <;> omega
  · split <;> omega

/-- In January and February the same month and day one year later has a day number larger
by the length of the year in between. -/
theorem day_number_next_year (n m d : Nat) (hm1 : 1 ≤ m) (hm : m < 3) :
    day_number (n + 2) m d = day_number (n + 1) m d + days_in_year (n + 1) := by
  unfold day_number
  rw [months_sum (n + 2) m hm1 (by omega), months_sum (n + 1) m hm1 (by omega)]
  have hm3 : ¬ (3 ≤ m) := by omega
  simp only [hm3, false_and, if_false]
  have e : n + 2 - 1 = (n + 1 - 1) + 1 := by omega
  rw [e, List.sum_range_succ]
  simp only [Nat.add_sub_cancel]
  omega

/-- C7, the claim fails for the years from which `y + y / 4` leaves the range of `int`:
2147483647-03-01 is a valid date, and `day_of_week(2147483647, 3, 1)` is -6, which is no
weekday number and no index into the weekday-name table. -/
theorem day_of_week_overflow_counterexample :
    valid_date 2147483647 3 1 ∧
    day_of_week 2147483647 3 1 = some (-6) ∧
    day_of_week (2147483647 : Nat) (3 : Nat) (1 : Nat)
      ≠ some (reference_weekday 2147483647 3 1 : Int) ∧
    weekday_name sample_strings (-6) = none := by
  refine ⟨by decide, by decide, ?_, by decide⟩
  intro h
  have h6 : day_of_week (2147483647 : Nat) (3 : Nat) (1 : Nat) = some (-6) := by decide
  rw [h6] at h
  have := Option.some.inj h
  omega

/-- C7, amended: for every valid Gregorian date with year from 1 to 1717986918 (the years
for which no operation of `day_of_week` leaves the range of `int`), `day_of_week(y, m, d)`
is the weekday of the date under the reference calendar computation (days counted from
0001-01-01, a Monday), numbered 0 = Sunday .. 6 = Saturday; the result is in 0..6 and
selects an entry of the 7-entry weekday-name table. -/
theorem day_of_week_reference (y m d : Nat) (h : valid_date y m d) (hy : y ≤ 1717986918) :
    day_of_week y m d = some (reference_weekday y m d : Int) ∧
    reference_weekday y m d < 7 ∧
    ∀ strings : LocalizedStrings,
      weekday_name strings (reference_weekday y m d : Int)
        = some (strings.weekdays (reference_weekday y m d)) := by
  obtain ⟨hy1, hm1, hm12, -, hd⟩ := h
  have hlt : reference_weekday y m d < 7 := Nat.mod_lt _ (by decide)
  refine ⟨day_of_week_eq_reference y m d hy1 hy hm1 hm12
    (le_trans hd (days_in_month_le y m)), hlt, ?_⟩
  intro strings
  unfold weekday_name
  rw [if_pos (by omega), Int.toNat_natCast]

/-- C7, amended, on the date of the specification: 2024-01-01 is valid and
`day_of_week(2024, 1, 1)` is 1, Monday. -/
theorem day_of_week_reference_witness :
    valid_date 2024 1 1 ∧ day_of_week 2024 1 1 = some 1 ∧
    day_of_week (2024 : Nat) (1 : Nat) (1 : Nat)
      = some (reference_weekday 2024 1 1 : Int) :=
  ⟨by decide, by decide, (day_of_week_reference 2024 1 1 (by decide) (by decide)).1⟩

/-! ## The transit rows of a mode that is not configured -/

/-- Sample data: the bus stops have been cleared in the transit settings while one bus
arrival is held from an earlier refresh; the tube station is configured. -/
def deconfigured_state : TransitState where
  bus_stop_ids := fun _ => []
  tube_station_id := lit "940GZZLUKSX"
  bus_arrivals := fun _ => ⟨lit "73", lit "Oxford Circus", 120⟩
  tube_arrivals := fun _ => ⟨[], [], 0⟩
  bus_arrival_count := 1
  tube_arrival_count := 0
  lbl_bus_arrivals := fun _ => []
  lbl_tube_arrivals := fun _ => []

/-- C5, the code at the failing input: no bus stop is configured, yet after
`fetch_tfl_arrivals` (and after one more `update_transit_display`) the first bus row shows
the arrival held from the earlier refresh, not the empty string. -/
theorem deconfigured_bus_row_stale :
    any_bus_stop_configured deconfigured_state = false ∧
    (fetch_tfl_arrivals sample_strings failing_env deconfigured_state).lbl_bus_arrivals 0
      = lit "73 " ++ arrow ++ lit " Oxford Circus: 2 mins" ∧
    (update_transit_display sample_strings
        (fetch_tfl_arrivals sample_strings failing_env deconfigured_state)).lbl_bus_arrivals 0
      = lit "73 " ++ arrow ++ lit " Oxford Circus: 2 mins" ∧
    (fetch_tfl_arrivals sample_strings failing_env deconfigured_state).lbl_bus_arrivals 0
      ≠ lit "" := by
  decide

/-! ## The weather refresh on a failed request -/

/-- Sample data: a display with every weather label empty. -/
def blank_weather : WeatherState where
  lbl_today_temp := []
  lbl_today_feels_like := []
  img_today_icon := .image .sunny
  lbl_sunrise := []
  lbl_sunset := []
  lbl_daily_day := fun _ => []
  lbl_daily_high := fun _ => []
  lbl_daily_low := fun _ => []
  img_daily := fun _ => .icon .sunny
  lbl_hourly := fun _ => []
  lbl_precipitation_probability := fun _ => []
  lbl_hourly_temp := fun _ => []
  img_hourly := fun _ => .icon .sunny
  config_utc_offset := 0

/-- Sample data: the translations, with French as language number 2. -/
def sample_translations : Translations where
  LANG_FR := 2
  get_strings := fun _ => sample_strings

/-- C6: when the forecast request returns a non-OK status or a body that is not
well-formed JSON, `fetch_and_update_weather` returns with the display state it was given:
no label, image or clock setting is changed. -/
theorem failed_forecast_keeps_display (T : Translations) (p : Prefs) (env : WeatherEnv)
    (st : WeatherState) (h : env.response = .failed ∨ env.response = .badJson) :
    fetch_and_update_weather T p env st = some st := by
  unfold fetch_and_update_weather
  split
  · rfl
  · rcases h with e | e <;> rw [e]

/-- C6, on the sample data: a non-OK status with the network up. -/
theorem failed_forecast_keeps_display_witness :
    (WeatherEnv.mk true true .failed).response = .failed ∧
    fetch_and_update_weather sample_translations ⟨true, true, 0⟩
      (WeatherEnv.mk true true .failed) blank_weather = some blank_weather :=
  ⟨rfl, failed_forecast_keeps_display sample_translations ⟨true, true, 0⟩
    (WeatherEnv.mk true true .failed) blank_weather (Or.inl rfl)⟩

/-! ## `hour_of_day` -/

/-- C10: in 24-hour mode `hour_of_day` returns, for an hour from 0 to 23, its two decimal
digits (tens, then units), which `atoi` reads back as the hour; for an hour below 0 or
above 23 it returns the invalid-hour text of the active language, in either mode. -/
theorem hour_of_day_24 (T : Translations) (p : Prefs) (hour : Int) :
    (0 ≤ hour → hour ≤ 23 → p.use_24_hour = true →
      hour_of_day T p hour
        = [Char.ofNat (48 + (hour / 10).toNat), Char.ofNat (48 + (hour % 10).toNat)] ∧
      (hour_of_day T p hour).length = 2 ∧
      atoi (hour_of_day T p hour) = hour) ∧
    ((hour < 0 ∨ 23 < hour) →
      hour_of_day T p hour = (T.get_strings p.current_language).invalid_hour) := by
  constructor
  · intro h0 h23 h24
    have hr : ¬ (hour < 0 ∨ hour > 23) := by omega
    have he : hour_of_day T p hour
        = [Char.ofNat (48 + (hour / 10).toNat), Char.ofNat (48 + (hour % 10).toNat)] := by
      unfold hour_of_day
      simp only [hr, if_false, h24, if_true]
      interval_cases hour <;> decide
    rw [he]
    refine ⟨rfl, rfl, ?_⟩
    interval_cases hour <;> decide
  · intro h
    unfold hour_of_day
    have hr : hour < 0 ∨ hour > 23 := by omega
    simp only [hr, if_true]

/-- C10, on sample hours: 7 gives "07", 23 gives "23", and 24 and -1 give the invalid-hour
text also in 12-hour mode. -/
theorem hour_of_day_24_witness :
    hour_of_day sample_translations ⟨false, true, 0⟩ 7 = lit "07" ∧
    atoi (hour_of_day sample_translations ⟨false, true, 0⟩ 7) = 7 ∧
    hour_of_day sample_translations ⟨false, true, 0⟩ 23 = lit "23" ∧
    hour_of_day sample_translations ⟨false, false, 0⟩ 24 = lit "Invalid hour" ∧
    hour_of_day sample_translations ⟨false, false, 0⟩ (-1) = lit "Invalid hour" :=
  ⟨by decide,
    ((hour_of_day_24 sample_translations ⟨false, true, 0⟩ 7).1 (by decide) (by decide)
      rfl).2.2,
    by decide,
    (hour_of_day_24 sample_translations ⟨false, false, 0⟩ 24).2 (Or.inr (by decide)),
    by decide⟩

/-! ## Floating-point rounding: lemmas -/

theorem rhe_bounds (x : ℚ) :
    (⌊x⌋ : Int) ≤ round_half_even x ∧ round_half_even x ≤ ⌊x⌋ + 1 ∧
    (x = ⌊x⌋ → round_half_even x = ⌊x⌋) := by
  unfold round_half_even
  simp only []
  refine ⟨?_, ?_, ?_⟩
  · split
    · exact le_refl _
    · split
      · omega
      · split <;> omega
  · split
    · omega
    · split
      · exact le_refl _
      · split <;> omega
  · intro h
    have : x - ⌊x⌋ < 1 / 2 := by
      have h0 : x - (⌊x⌋ : ℚ) = 0 := by linarith
      rw [h0]; norm_num
    rw [if_pos this]

theorem rhe_ge (n : Int) (x : ℚ) (h : (n : ℚ) ≤ x) : n ≤ round_half_even x :=
  le_trans (Int.le_floor.mpr h) (rhe_bounds x).1

theorem rhe_le (n : Int) (x : ℚ) (h : x ≤ (n : ℚ)) : round_half_even x ≤ n := by
  rcases eq_or_lt_of_le h with e | l
  · have hx : x = ⌊x⌋ := by rw [e]; simp
    rw [(rhe_bounds x).2.2 hx, e]
    simp
  · have : ⌊x⌋ < n := Int.floor_lt.mpr l
    have := (rhe_bounds x).2.1
    omega

theorem rtf_neg (p : Nat) (emin : Int) (q : ℚ) :
    round_to_format p emin (-q) = -round_to_format p emin q := by
  unfold round_to_format
  by_cases h0 : q = 0
  · simp [h0]
  · have h0' : -q ≠ 0 := neg_ne_zero.mpr h0
    simp only [h0, h0', if_false, abs_neg]
    rcases lt_or_gt_of_ne h0 with h | h
    · have h' : ¬ (-q < 0) := by linarith
      simp only [h, h', if_true, if_false]
      ring
    · have h' : -q < 0 := by linarith
      have h'' : ¬ (q < 0) := by linarith
      simp only [h', h'', if_true, if_false]
      ring

theorem log2_floor_spec (fuel n : Nat) (h1 : 1 ≤ n) (hf : n ≤ fuel) :
    2 ^ log2_floor fuel n ≤ n ∧ n < 2 ^ (log2_floor fuel n + 1) := by
  induction fuel generalizing n with
  | zero => omega
  | succ fuel ih =>
    unfold log2_floor
    split
    · simp only [pow_zero, zero_add, pow_one]
      omega
    · obtain ⟨i1, i2⟩ := ih (n / 2) (by omega) (by omega)
      rw [pow_succ] at i2 ⊢
      rw [pow_succ]
      constructor <;> omega

theorem two_zpow_pos (e : Int) : (0 : ℚ) < 2 ^ e := zpow_pos (by norm_num) e

theorem binary_exponent_bracket (q : ℚ) (hq : 0 < q) :
    (2 : ℚ) ^ binary_exponent q ≤ q ∧ q < (2 : ℚ) ^ (binary_exponent q + 1) := by
  have hnum : 0 < q.num := Rat.num_pos.mpr hq
  have hden : 0 < q.den := q.den_pos
  obtain ⟨n1, n2⟩ := log2_floor_spec q.num.natAbs q.num.natAbs (by omega) (le_refl _)
  obtain ⟨d1, d2⟩ := log2_floor_spec q.den q.den hden (le_refl _)
  set la := log2_floor q.num.natAbs q.num.natAbs with hla
  set lb := log2_floor q.den q.den with hlb
  have hqe : q = (q.num.natAbs : ℚ) / (q.den : ℚ) := by
    have h1 : ((q.num.natAbs : Int) : ℚ) = (q.num : ℚ) := by
      rw [Int.natAbs_of_nonneg (le_of_lt hnum)]
    have h2 : ((q.num.natAbs : Nat) : ℚ) = ((q.num.natAbs : Int) : ℚ) :=
      (Int.cast_natCast _).symm
    rw [h2, h1]
    exact (Rat.num_div_den q).symm
  have hdq : (0 : ℚ) < q.den := by exact_mod_cast hden
  have N1 : (2 : ℚ) ^ (la : Int) ≤ (q.num.natAbs : ℚ) := by
    rw [zpow_natCast]; exact_mod_cast n1
  have N2 : (q.num.natAbs : ℚ) < (2 : ℚ) ^ ((la : Int) + 1) := by
    rw [show ((la : Int) + 1) = ((la + 1 : Nat) : Int) by push_cast; rfl, zpow_natCast]
    exact_mod_cast n2
  have D1 : (2 : ℚ) ^ (lb : Int) ≤ (q.den : ℚ) := by
    rw [zpow_natCast]; exact_mod_cast d1
  have D2 : (q.den : ℚ) < (2 : ℚ) ^ ((lb : Int) + 1) := by
    rw [show ((lb : Int) + 1) = ((lb + 1 : Nat) : Int) by push_cast; rfl, zpow_natCast]
    exact_mod_cast d2
  have hup : q < (2 : ℚ) ^ ((la : Int) - lb + 1) := by
    rw [hqe, div_lt_iff₀ hdq]
    calc (q.num.natAbs : ℚ) < (2 : ℚ) ^ ((la : Int) + 1) := N2
      _ = (2 : ℚ) ^ ((la : Int) - lb + 1) * 2 ^ (lb : Int) := by
          rw [← zpow_add₀ (by norm_num : (2 : ℚ) ≠ 0)]; congr 1; ring
      _ ≤ (2 : ℚ) ^ ((la : Int) - lb + 1) * q.den :=
          mul_le_mul_of_nonneg_left D1 (le_of_lt (two_zpow_pos _))
  have hlow : (2 : ℚ) ^ ((la : Int) - lb - 1) ≤ q := by
    rw [hqe, le_div_iff₀ hdq]
    calc (2 : ℚ) ^ ((la : Int) - lb - 1) * q.den
        ≤ (2 : ℚ) ^ ((la : Int) - lb - 1) * 2 ^ ((lb : Int) + 1) :=
          mul_le_mul_of_nonneg_left (le_of_lt D2) (le_of_lt (two_zpow_pos _))
      _ = (2 : ℚ) ^ (la : Int) := by
          rw [← zpow_add₀ (by norm_num : (2 : ℚ) ≠ 0)]; congr 1; ring
      _ ≤ (q.num.natAbs : ℚ) := N1
  unfold binary_exponent
  simp only [← hla, ← hlb, abs_of_pos hq]
  split
  · rename_i h
    exact ⟨h, hup⟩
  · rename_i h
    refine ⟨hlow, ?_⟩
    rw [show (la : Int) - lb - 1 + 1 = (la : Int) - lb by ring]
    exact not_le.mp h

theorem binary_exponent_eq_log (q : ℚ) (hq : 0 < q) : binary_exponent q = Int.log 2 q := by
  obtain ⟨h1, h2⟩ := binary_exponent_bracket q hq
  have a1 : binary_exponent q ≤ Int.log 2 q :=
    (Int.zpow_le_iff_le_log (b := 2) (by norm_num) hq).mp (by exact_mod_cast h1)
  have a2 : Int.log 2 q < binary_exponent q + 1 :=
    (Int.lt_zpow_iff_log_lt (b := 2) (by norm_num) hq).mp (by exact_mod_cast h2)
  omega

theorem rtf_pos_eq (p : Nat) (emin : Int) (q : ℚ) (hq : 0 < q) :
    round_to_format p emin q
      = ((round_half_even (q / 2 ^ (max (Int.log 2 q) emin - ((p : Int) - 1))) : Int) : ℚ)
        * 2 ^ (max (Int.log 2 q) emin - ((p : Int) - 1)) := by
  unfold round_to_format
  have h0 : q ≠ 0 := ne_of_gt hq
  have h1 : ¬ (q < 0) := by linarith
  simp only [h0, h1, if_false, abs_of_pos hq, one_mul, binary_exponent_eq_log q hq]

theorem rtf_nonneg (p : Nat) (emin : Int) (q : ℚ) (hq : 0 < q) :
    0 ≤ round_to_format p emin q := by
  rw [rtf_pos_eq p emin q hq]
  apply mul_nonneg _ (le_of_lt (two_zpow_pos _))
  have : (0 : Int) ≤ round_half_even (q / 2 ^ (max (Int.log 2 q) emin - ((p : Int) - 1))) :=
    rhe_ge 0 _ (by
      simp only [Int.cast_zero]
      exact div_nonneg (le_of_lt hq) (le_of_lt (two_zpow_pos _)))
  exact_mod_cast this

theorem log_bracket (q : ℚ) (hq : 0 < q) :
    (2 : ℚ) ^ (Int.log 2 q) ≤ q ∧ q < (2 : ℚ) ^ (Int.log 2 q + 1) := by
  have h1 := Int.zpow_log_le_self (b := 2) (by norm_num) hq
  have h2 := Int.lt_zpow_succ_log_self (b := 2) (by norm_num) q
  exact ⟨by exact_mod_cast h1, by exact_mod_cast h2⟩

/-- The rounding of a positive value with exponent `e` is at most `2 ^ (e + 1)`. -/
theorem rtf_le_pow (p : Nat) (emin : Int) (q : ℚ) (hq : 0 < q) :
    round_to_format p emin q ≤ 2 ^ (max (Int.log 2 q) emin + 1) := by
  rw [rtf_pos_eq p emin q hq]
  set e := max (Int.log 2 q) emin with he
  have hu := two_zpow_pos (e - ((p : Int) - 1))
  have hlt : q < (2 : ℚ) ^ (e + 1) :=
    lt_of_lt_of_le (log_bracket q hq).2
      (zpow_le_zpow_right₀ (by norm_num) (by rw [he]; have := le_max_left (Int.log 2 q) emin; omega))
  have hsplit : (2 : ℚ) ^ (e + 1) = ((2 ^ p : Int) : ℚ) * 2 ^ (e - ((p : Int) - 1)) := by
    push_cast
    rw [← zpow_natCast, ← zpow_add₀ (by norm_num : (2 : ℚ) ≠ 0)]
    congr 1
    ring
  have hr : round_half_even (q / 2 ^ (e - ((p : Int) - 1))) ≤ (2 ^ p : Int) := by
    apply rhe_le
    rw [div_le_iff₀ hu, ← hsplit]
    exact le_of_lt hlt
  rw [hsplit]
  exact mul_le_mul_of_nonneg_right (by exact_mod_cast hr) (le_of_lt hu)

/-- The rounding of a positive value in the normal range is at least the power of two below
the value. -/
theorem rtf_ge_pow (p : Nat) (emin : Int) (q : ℚ) (hq : 0 < q) (hp : 1 ≤ p)
    (hn : emin ≤ Int.log 2 q) :
    (2 : ℚ) ^ (Int.log 2 q) ≤ round_to_format p emin q := by
  rw [rtf_pos_eq p emin q hq, max_eq_left hn]
  set e := Int.log 2 q with he
  have hu := two_zpow_pos (e - ((p : Int) - 1))
  have hsplit : (2 : ℚ) ^ e = ((2 ^ (p - 1) : Int) : ℚ) * 2 ^ (e - ((p : Int) - 1)) := by
    push_cast
    rw [← zpow_natCast, ← zpow_add₀ (by norm_num : (2 : ℚ) ≠ 0)]
    congr 1
    rw [Nat.cast_sub hp]
    push_cast
    ring
  have hr : (2 ^ (p - 1) : Int) ≤ round_half_even (q / 2 ^ (e - ((p : Int) - 1))) := by
    apply rhe_ge
    rw [le_div_iff₀ hu, ← hsplit]
    exact (log_bracket q hq).1
  rw [hsplit]
  exact mul_le_mul_of_nonneg_right (by exact_mod_cast hr) (le_of_lt hu)

/-- A number of the format: `m * 2 ^ j` with a significand below `2 ^ p` and an exponent
not below that of the subnormal numbers. -/
def in_format (p : Nat) (emin : Int) (g : ℚ) : Prop :=
  ∃ (m j : Int), |m| < 2 ^ p ∧ emin - ((p : Int) - 1) ≤ j ∧ g = m * 2 ^ j

theorem in_format_neg (p : Nat) (emin : Int) (g : ℚ) (h : in_format p emin g) :
    in_format p emin (-g) := by
  obtain ⟨m, j, hm, hj, rfl⟩ := h
  exact ⟨-m, j, by rwa [abs_neg], hj, by push_cast; ring⟩

/-- A positive number of the format is a whole multiple of the unit in the last place of
its exponent. -/
theorem in_format_multiple (p : Nat) (emin : Int) (g : ℚ) (h : in_format p emin g)
    (hg : 0 < g) :
    ∃ N : Int, g = (N : ℚ) * 2 ^ (max (Int.log 2 g) emin - ((p : Int) - 1)) := by
  obtain ⟨m, j, hm, hj, rfl⟩ := h
  set e := max (Int.log 2 ((m : ℚ) * 2 ^ j)) emin with he
  have hjge : e - ((p : Int) - 1) ≤ j := by
    rcases le_total (Int.log 2 ((m : ℚ) * 2 ^ j)) emin with hc | hc
    · rw [he, max_eq_right hc]; exact hj
    · rw [he, max_eq_left hc]
      have hb := (log_bracket _ hg).1
      have hmpos : (0 : ℚ) < m := by
        by_contra hcon
        have : (m : ℚ) * 2 ^ j ≤ 0 :=
          mul_nonpos_of_nonpos_of_nonneg (not_lt.mp hcon) (le_of_lt (two_zpow_pos j))
        linarith
      have hmlt : (m : ℚ) < 2 ^ (p : Int) := by
        have : m < 2 ^ p := lt_of_le_of_lt (le_abs_self m) hm
        rw [zpow_natCast]
        exact_mod_cast this
      have hlt : (2 : ℚ) ^ (Int.log 2 ((m : ℚ) * 2 ^ j)) < 2 ^ ((p : Int) + j) := by
        rw [zpow_add₀ (by norm_num : (2 : ℚ) ≠ 0)]
        exact lt_of_le_of_lt hb (mul_lt_mul_of_pos_right hmlt (two_zpow_pos j))
      have := (zpow_lt_zpow_iff_right₀ (by norm_num : (1 : ℚ) < 2)).mp hlt
      omega
  obtain ⟨d, hd⟩ : ∃ d : Nat, j = e - ((p : Int) - 1) + d :=
    ⟨(j - (e - ((p : Int) - 1))).toNat, by omega⟩
  refine ⟨m * 2 ^ d, ?_⟩
  rw [hd, zpow_add₀ (by norm_num : (2 : ℚ) ≠ 0), zpow_natCast]
  push_cast
  ring

/-- A positive value that is at least a positive number of the format rounds to at least
that number. -/
theorem rtf_ge_pos (p : Nat) (emin : Int) (g q : ℚ) (hp : 1 ≤ p)
    (h : in_format p emin g) (hg : 0 < g) (hgq : g ≤ q) :
    g ≤ round_to_format p emin q := by
  have hq : 0 < q := lt_of_lt_of_le hg hgq
  have hlog : Int.log 2 g ≤ Int.log 2 q := Int.log_mono_right hg hgq
  rcases eq_or_lt_of_le (max_le_max_right emin hlog) with he | hlt
  · obtain ⟨N, hN⟩ := in_format_multiple p emin g h hg
    rw [rtf_pos_eq p emin q hq, ← he]
    rw [he] at hN
    have hu := two_zpow_pos (max (Int.log 2 q) emin - ((p : Int) - 1))
    have hr : N ≤ round_half_even (q / 2 ^ (max (Int.log 2 q) emin - ((p : Int) - 1))) := by
      apply rhe_ge
      rw [le_div_iff₀ hu, ← hN]
      exact hgq
    rw [he]
    calc g = (N : ℚ) * 2 ^ (max (Int.log 2 q) emin - ((p : Int) - 1)) := hN
      _ ≤ _ := mul_le_mul_of_nonneg_right (by exact_mod_cast hr) (le_of_lt hu)
  · have hn : emin ≤ Int.log 2 q := by
      by_contra hc
      rw [max_eq_right (le_of_lt (not_le.mp hc))] at hlt
      have := le_max_right (Int.log 2 g) emin
      omega
    rw [max_eq_left hn] at hlt
    have h1 : Int.log 2 g + 1 ≤ Int.log 2 q := by
      have := le_max_left (Int.log 2 g) emin
      omega
    calc g ≤ (2 : ℚ) ^ (Int.log 2 g + 1) := le_of_lt (log_bracket g hg).2
      _ ≤ (2 : ℚ) ^ (Int.log 2 q) := zpow_le_zpow_right₀ (by norm_num) h1
      _ ≤ _ := rtf_ge_pow p emin q hq hp hn

/-- A positive value that is at most a positive number of the format rounds to at most
that number. -/
theorem rtf_le_pos (p : Nat) (emin : Int) (g q : ℚ)
    (h : in_format p emin g) (hq : 0 < q) (hqg : q ≤ g) :
    round_to_format p emin q ≤ g := by
  have hg : 0 < g := lt_of_lt_of_le hq hqg
  have hlog : Int.log 2 q ≤ Int.log 2 g := Int.log_mono_right hq hqg
  rcases eq_or_lt_of_le (max_le_max_right emin hlog) with he | hlt
  · obtain ⟨N, hN⟩ := in_format_multiple p emin g h hg
    rw [rtf_pos_eq p emin q hq, he]
    have hu := two_zpow_pos (max (Int.log 2 g) emin - ((p : Int) - 1))
    have hr : round_half_even (q / 2 ^ (max (Int.log 2 g) emin - ((p : Int) - 1))) ≤ N := by
      apply rhe_le
      rw [div_le_iff₀ hu, ← hN]
      exact hqg
    calc _ ≤ (N : ℚ) * 2 ^ (max (Int.log 2 g) emin - ((p : Int) - 1)) :=
          mul_le_mul_of_nonneg_right (by exact_mod_cast hr) (le_of_lt hu)
      _ = g := hN.symm
  · have hn : emin ≤ Int.log 2 g := by
      by_contra hc
      rw [max_eq_right (le_of_lt (not_le.mp hc))] at hlt
      have := le_max_right (Int.log 2 q) emin
      omega
    rw [max_eq_left hn] at hlt
    calc round_to_format p emin q ≤ (2 : ℚ) ^ (max (Int.log 2 q) emin + 1) :=
          rtf_le_pow p emin q hq
      _ ≤ (2 : ℚ) ^ (Int.log 2 g) := zpow_le_zpow_right₀ (by norm_num) (by omega)
      _ ≤ g := (log_bracket g hg).1

/-- Rounding does not cross a number of the format from above. -/
theorem rtf_ge (p : Nat) (emin : Int) (g q : ℚ) (hp : 1 ≤ p)
    (h : in_format p emin g) (hgq : g ≤ q) :
    g ≤ round_to_format p emin q := by
  rcases lt_trichotomy q 0 with hq | hq | hq
  · have hg : g < 0 := lt_of_le_of_lt hgq hq
    have := rtf_le_pos p emin (-g) (-q) (in_format_neg p emin g h) (by linarith) (by linarith)
    rw [rtf_neg] at this
    linarith
  · rw [hq] at hgq ⊢
    simpa [round_to_format] using hgq
  · rcases le_or_lt g 0 with hg | hg
    · exact le_trans hg (rtf_nonneg p emin q hq)
    · exact rtf_ge_pos p emin g q hp h hg hgq

/-- Rounding does not cross a number of the format from below. -/
theorem rtf_le (p : Nat) (emin : Int) (g q : ℚ) (hp : 1 ≤ p)
    (h : in_format p emin g) (hqg : q ≤ g) :
    round_to_format p emin q ≤ g := by
  have := rtf_ge p emin (-g) (-q) hp (in_format_neg p emin g h) (by linarith)
  rw [rtf_neg] at this
  linarith

/-- A number of the format is rounded to itself. -/
theorem rtf_fixed (p : Nat) (emin : Int) (g : ℚ) (hp : 1 ≤ p) (h : in_format p emin g) :
    round_to_format p emin g = g :=
  le_antisymm (rtf_le p emin g g hp h (le_refl g)) (rtf_ge p emin g g hp h (le_refl g))

theorem rhe_err (x : ℚ) : |((round_half_even x : Int) : ℚ) - x| ≤ 1 / 2 := by
  have h1 : ((⌊x⌋ : Int) : ℚ) ≤ x := Int.floor_le x
  have h2 : x < ((⌊x⌋ : Int) : ℚ) + 1 := Int.lt_floor_add_one x
  unfold round_half_even
  simp only []
  rw [abs_le]
  split
  · constructor <;> linarith
  · split
    · push_cast; constructor <;> linarith
    · split
      · constructor <;> linarith
      · push_cast; constructor <;> linarith

/-- The rounding error of a positive value in the normal range is at most the value divided
by `2 ^ p`. -/
theorem rtf_rel_err (p : Nat) (emin : Int) (q : ℚ) (hq : 0 < q) (hn : emin ≤ Int.log 2 q) :
    |round_to_format p emin q - q| ≤ q / 2 ^ p := by
  rw [rtf_pos_eq p emin q hq, max_eq_left hn]
  set e := Int.log 2 q with he
  set ulp : ℚ := 2 ^ (e - ((p : Int) - 1)) with hulp
  have hu : 0 < ulp := two_zpow_pos _
  have hy : q = q / ulp * ulp := by field_simp
  have herr := rhe_err (q / ulp)
  have hfac : ((round_half_even (q / ulp) : Int) : ℚ) * ulp - q
      = (((round_half_even (q / ulp) : Int) : ℚ) - q / ulp) * ulp := by
    rw [sub_mul, ← hy]
  rw [hfac, abs_mul, abs_of_pos hu]
  have hhalf : ulp / 2 = (2 : ℚ) ^ e / 2 ^ p := by
    rw [hulp, ← zpow_natCast (2 : ℚ) p, ← zpow_sub₀ (by norm_num : (2 : ℚ) ≠ 0),
      show e - ((p : Int) - 1) = (e - (p : Int)) + 1 by ring,
      zpow_add₀ (by norm_num : (2 : ℚ) ≠ 0), zpow_one]
    ring
  calc |((round_half_even (q / ulp) : Int) : ℚ) - q / ulp| * ulp
      ≤ 1 / 2 * ulp := mul_le_mul_of_nonneg_right herr (le_of_lt hu)
    _ = ulp / 2 := by ring
    _ = (2 : ℚ) ^ e / 2 ^ p := hhalf
    _ ≤ q / 2 ^ p :=
        div_le_div_of_nonneg_right (log_bracket q hq).1 (le_of_lt (pow_pos (by norm_num) p))

theorem to_double_eq (q r : ℚ) (h : to_double q = some r) :
    r = round_to_format 53 (-1022) q := by
  unfold to_double at h
  simp only [] at h
  split at h
  · exact (Option.some.inj h).symm
  · cases h

theorem to_float_eq (q r : ℚ) (h : to_float q = some r) :
    r = round_to_format 24 (-126) q := by
  unfold to_float at h
  simp only [] at h
  split at h
  · exact (Option.some.inj h).symm
  · cases h

/-- A multiple of one half with a numerator below `2 ^ p` is a number of the format. -/
theorem half_in_format (p : Nat) (emin : Int) (k : Int) (hk : |k| < 2 ^ p)
    (he : emin - ((p : Int) - 1) ≤ -1) : in_format p emin ((k : ℚ) / 2) :=
  ⟨k, -1, hk, he, by rw [zpow_neg, zpow_one]; ring⟩

/-- The Fahrenheit value computed in floating point lies on the same side of every multiple
of one half (up to far beyond any temperature) as the exact value `v * 9 / 5 + 32`. -/
theorem to_fahrenheit_sandwich (v F : ℚ) (k : Int) (hk : |k| < 2 ^ 24)
    (h : to_fahrenheit v = some F) :
    ((k : ℚ) / 2 ≤ v * 9 / 5 + 32 → (k : ℚ) / 2 ≤ F) ∧
    (v * 9 / 5 + 32 ≤ (k : ℚ) / 2 → F ≤ (k : ℚ) / 2) := by
  unfold to_fahrenheit at h
  simp only [Option.bind_eq_bind, Option.bind_eq_some] at h
  obtain ⟨a, ha, b, hb, c, hc, hF⟩ := h
  have ha := to_double_eq _ _ ha
  have hb := to_double_eq _ _ hb
  have hc := to_double_eq _ _ hc
  have hF := to_float_eq _ _ hF
  have hk' := abs_lt.mp hk
  have f1 : in_format 53 (-1022) (((5 * k - 320 : Int) : ℚ) / 2) :=
    half_in_format 53 (-1022) _ (by rw [abs_lt]; constructor <;> omega) (by decide)
  have f2 : in_format 53 (-1022) (((k - 64 : Int) : ℚ) / 2) :=
    half_in_format 53 (-1022) _ (by rw [abs_lt]; constructor <;> omega) (by decide)
  have f3 : in_format 53 (-1022) ((k : ℚ) / 2) :=
    half_in_format 53 (-1022) _ (by rw [abs_lt]; constructor <;> omega) (by decide)
  have f4 : in_format 24 (-126) ((k : ℚ) / 2) :=
    half_in_format 24 (-126) _ hk (by decide)
  constructor
  · intro hz
    have h1 : ((5 * k - 320 : Int) : ℚ) / 2 ≤ a := by
      rw [ha]; apply rtf_ge 53 (-1022) _ _ (by decide) f1
      push_cast; linarith
    have h2 : ((k - 64 : Int) : ℚ) / 2 ≤ b := by
      rw [hb]; apply rtf_ge 53 (-1022) _ _ (by decide) f2
      push_cast at h1 ⊢; linarith
    have h3 : (k : ℚ) / 2 ≤ c := by
      rw [hc]; apply rtf_ge 53 (-1022) _ _ (by decide) f3
      push_cast at h2; linarith
    rw [hF]; exact rtf_ge 24 (-126) _ _ (by decide) f4 h3
  · intro hz
    have h1 : a ≤ ((5 * k - 320 : Int) : ℚ) / 2 := by
      rw [ha]; apply rtf_le 53 (-1022) _ _ (by decide) f1
      push_cast; linarith
    have h2 : b ≤ ((k - 64 : Int) : ℚ) / 2 := by
      rw [hb]; apply rtf_le 53 (-1022) _ _ (by decide) f2
      push_cast at h1 ⊢; linarith
    have h3 : c ≤ (k : ℚ) / 2 := by
      rw [hc]; apply rtf_le 53 (-1022) _ _ (by decide) f3
      push_cast at h2; linarith
    rw [hF]; exact rtf_le 24 (-126) _ _ (by decide) f4 h3

theorem float_constants :
    to_float (1 / 10) = some float_0_1 ∧ to_float (254 / 10) = some float_25_4 := by
  decide!

/-- For a `float` amount the test against `0.1f` is the test against one tenth. -/
theorem float_ge_tenth (a : ℚ) (h : in_format 24 (-126) a) :
    float_0_1 ≤ a ↔ (1 : ℚ) / 10 ≤ a := by
  constructor
  · intro h1
    unfold float_0_1 at h1
    linarith
  · intro h1
    have := rtf_le 24 (-126) a (1 / 10) (by decide) h h1
    rw [← to_float_eq _ _ float_constants.1] at this
    exact this

/-- The inch amount computed in `float` is the exact `a / 25.4` up to a relative error of
`2 ^ -23`. -/
theorem inches_error (a x : ℚ) (ha : float_0_1 ≤ a) (h : to_float (a / float_25_4) = some x) :
    |x - a / (254 / 10)| ≤ a / (254 / 10) / 2 ^ 23 := by
  have hx := to_float_eq _ _ h
  unfold float_0_1 at ha
  have hapos : 0 < a := by linarith
  have hq : 0 < a / float_25_4 := div_pos hapos (by unfold float_25_4; norm_num)
  have hlow : (2 : ℚ) ^ (-9 : Int) ≤ a / float_25_4 := by
    unfold float_25_4
    rw [le_div_iff₀ (by norm_num)]
    norm_num
    linarith
  have h9 : (-9 : Int) ≤ Int.log 2 (a / float_25_4) :=
    (Int.zpow_le_iff_le_log (b := 2) (by norm_num) hq).mp (by exact_mod_cast hlow)
  have hn : (-126 : Int) ≤ Int.log 2 (a / float_25_4) := le_trans (by decide) h9
  have herr := rtf_rel_err 24 (-126) _ hq hn
  rw [← hx] at herr
  have h1 := abs_le.mp herr
  unfold float_25_4 at h1
  rw [abs_le]
  constructor
  · have := h1.1
    norm_num at this ⊢
    linarith
  · have := h1.2
    norm_num at this ⊢
    linarith

/-! ## The labels written by a successful weather refresh -/

theorem foldlM_preserve {σ β : Type} (f : σ → Nat → Option σ) (proj : σ → β)
    (hstep : ∀ s i s', f s i = some s' → proj s' = proj s) (js : List Nat) (s s' : σ)
    (h : js.foldlM f s = some s') : proj s' = proj s := by
  induction js generalizing s with
  | nil =>
    simp only [List.foldlM_nil, pure, Option.some.injEq] at h
    rw [h]
  | cons i js ih =>
    rw [List.foldlM_cons] at h
    obtain ⟨s1, h1, h2⟩ := Option.bind_eq_some.mp h
    rw [ih s1 h2, hstep s i s1 h1]

theorem foldlM_pointwise {σ β : Type} (f : σ → Nat → Option σ) (get : σ → Nat → β)
    (g : Nat → β)
    (hstep : ∀ s i s', f s i = some s' → get s' = Function.update (get s) i (g i))
    (js : List Nat) (s s' : σ) (h : js.foldlM f s = some s') (k : Nat) :
    get s' k = if k ∈ js then g k else get s k := by
  induction js generalizing s with
  | nil =>
    simp only [List.foldlM_nil, pure, Option.some.injEq] at h
    simp [h]
  | cons i js ih =>
    rw [List.foldlM_cons] at h
    obtain ⟨s1, h1, h2⟩ := Option.bind_eq_some.mp h
    rw [ih s1 h2, hstep s i s1 h1]
    by_cases hk : k = i
    · subst hk; simp
    · simp [Function.update_noteq hk, hk]

theorem foldlM_steps {σ : Type} (f : σ → Nat → Option σ) (js : List Nat) (s s' : σ)
    (h : js.foldlM f s = some s') : ∀ i ∈ js, ∃ t t', f t i = some t' := by
  induction js generalizing s with
  | nil => intro i hi; cases hi
  | cons j js ih =>
    rw [List.foldlM_cons] at h
    obtain ⟨s1, h1, h2⟩ := Option.bind_eq_some.mp h
    intro i hi
    rcases List.mem_cons.mp hi with rfl | hi
    · exact ⟨s, s1, h1⟩
    · exact ih s1 h2 i hi

/-- The specification's displayed value, with the floating-point arithmetic of the code
taken into account: `d` shows the raw value `v` when, in Celsius mode, `d` is `v`, and in
Fahrenheit mode, `d` lies on the same side as the exact `v * 9 / 5 + 32` of every
multiple `k / 2` of one half with `|k| < 2 ^ 24`. -/
def shows_temperature (use_fahrenheit : Bool) (v d : ℚ) : Prop :=
  if use_fahrenheit then
    ∀ k : Int, |k| < 2 ^ 24 →
      ((k : ℚ) / 2 ≤ v * 9 / 5 + 32 → (k : ℚ) / 2 ≤ d) ∧
      (v * 9 / 5 + 32 ≤ (k : ℚ) / 2 → d ≤ (k : ℚ) / 2)
  else d = v

/-- A temperature label `text` shows the raw value `v`: it is the text, with no decimals,
the degree sign and the unit character, of the value `d` that the code computes from `v`,
and `d` shows `v`. -/
def temperature_shown (p : Prefs) (v : ℚ) (text : CStr) : Prop :=
  ∃ d, display_temperature p v = some d ∧ shows_temperature p.use_fahrenheit v d ∧
    text = temperature_text (d, (celsius_to_display v p.use_fahrenheit).2)

/-- The text of the temperature label for the raw value `v`. -/
def temperature_label (p : Prefs) (v : ℚ) : CStr :=
  fmt_f0 ((display_temperature p v).getD 0) ++ degree
    ++ [if p.use_fahrenheit then 'F' else 'C']

theorem display_temperature_shows (p : Prefs) (v d : ℚ)
    (h : display_temperature p v = some d) : shows_temperature p.use_fahrenheit v d := by
  unfold display_temperature at h
  unfold shows_temperature
  cases hu : p.use_fahrenheit
  · rw [hu] at h
    simp only [Bool.false_eq_true, if_false] at h ⊢
    exact (Option.some.inj h).symm
  · rw [hu] at h
    simp only [if_true] at h ⊢
    intro k hk
    exact to_fahrenheit_sandwich v d k hk h

theorem temperature_label_shown (p : Prefs) (v : ℚ)
    (h : (display_temperature p v).isSome = true) :
    temperature_shown p v (temperature_label p v) := by
  obtain ⟨d, hd⟩ := Option.isSome_iff_exists.mp h
  refine ⟨d, hd, display_temperature_shows p v d hd, ?_⟩
  unfold temperature_label temperature_text celsius_to_display
  rw [hd]
  cases p.use_fahrenheit <;> rfl

theorem daily_slot_spec (T : Translations) (p : Prefs) (doc : WeatherDoc) (is_day : Int)
    (st st' : WeatherState) (i : Nat) (h : daily_slot T p doc is_day st i = some st') :
    (st'.lbl_daily_high = Function.update st.lbl_daily_high i
      (temperature_label p (doc.daily_temperature_2m_max.getD i 0)) ∧
    st'.lbl_daily_low = Function.update st.lbl_daily_low i
      (temperature_label p (doc.daily_temperature_2m_min.getD i 0)) ∧
    st'.lbl_today_temp = st.lbl_today_temp ∧
    st'.lbl_today_feels_like = st.lbl_today_feels_like ∧
    st'.lbl_hourly_temp = st.lbl_hourly_temp ∧
    st'.lbl_precipitation_probability = st.lbl_precipitation_probability) ∧
    (display_temperature p (doc.daily_temperature_2m_max.getD i 0)).isSome = true ∧
    (display_temperature p (doc.daily_temperature_2m_min.getD i 0)).isSome = true := by
  unfold daily_slot at h
  simp only [Option.bind_eq_bind, Option.bind_eq_some] at h
  obtain ⟨year, -, mon, -, dayd, -, dow, -, dayStr, -, mn, hmn, mx, hmx, h⟩ := h
  cases h
  unfold temperature_label
  rw [hmn, hmx]
  exact ⟨⟨rfl, rfl, rfl, rfl, rfl, rfl⟩, rfl, rfl⟩

theorem hourly_slot_spec (T : Translations) (p : Prefs) (doc : WeatherDoc)
    (st st' : WeatherState) (i : Nat) (h : hourly_slot T p doc st i = some st') :
    (st'.lbl_hourly_temp = Function.update st.lbl_hourly_temp i
      (temperature_label p (doc.hourly_temperature_2m.getD i 0)) ∧
    st'.lbl_precipitation_probability = Function.update st.lbl_precipitation_probability i
      ((precipitation_label p (doc.hourly_precipitation.getD i 0)
        (doc.hourly_precipitation_probability.getD i 0)).getD []) ∧
    st'.lbl_today_temp = st.lbl_today_temp ∧
    st'.lbl_today_feels_like = st.lbl_today_feels_like ∧
    st'.lbl_daily_high = st.lbl_daily_high ∧
    st'.lbl_daily_low = st.lbl_daily_low) ∧
    (display_temperature p (doc.hourly_temperature_2m.getD i 0)).isSome = true ∧
    (precipitation_label p (doc.hourly_precipitation.getD i 0)
      (doc.hourly_precipitation_probability.getD i 0)).isSome = true := by
  unfold hourly_slot at h
  simp only [Option.bind_eq_bind, Option.bind_eq_some] at h
  obtain ⟨hour, -, minute, -, temp, htemp, precipitation, hprec, h⟩ := h
  cases h
  unfold temperature_label
  rw [htemp, hprec]
  exact ⟨⟨rfl, rfl, rfl, rfl, rfl, rfl⟩, rfl, rfl⟩

theorem sun_labels_spec (p : Prefs) (strings : LocalizedStrings) (doc : WeatherDoc)
    (st st' : WeatherState) (h : sun_labels p strings doc st = some st') :
    st'.lbl_today_temp = st.lbl_today_temp ∧
    st'.lbl_today_feels_like = st.lbl_today_feels_like ∧
    st'.lbl_daily_high = st.lbl_daily_high ∧
    st'.lbl_daily_low = st.lbl_daily_low ∧
    st'.lbl_hourly_temp = st.lbl_hourly_temp ∧
    st'.lbl_precipitation_probability = st.lbl_precipitation_probability := by
  unfold sun_labels at h
  split at h
  · simp only [Option.bind_eq_bind, Option.bind_eq_some] at h
    obtain ⟨a, -, b, -, c, -, d, -, h⟩ := h
    split at h <;> cases h <;> exact ⟨rfl, rfl, rfl, rfl, rfl, rfl⟩
  · cases h
    exact ⟨rfl, rfl, rfl, rfl, rfl, rfl⟩

/-- The parts of a completed run of `apply_forecast`. -/
theorem apply_forecast_parts (T : Translations) (p : Prefs) (doc : WeatherDoc)
    (st st' : WeatherState) (h : apply_forecast T p doc st = some st') :
    ∃ (t_now t_ap : ℚ) (s1 s2 : WeatherState),
      display_temperature p doc.current_temperature_2m = some t_now ∧
      display_temperature p doc.current_apparent_temperature = some t_ap ∧
      sun_labels p (T.get_strings p.current_language) doc
        { st with
          config_utc_offset := doc.utc_offset_seconds
          lbl_today_temp := fmt_f0 t_now ++ degree ++ [if p.use_fahrenheit then 'F' else 'C']
          lbl_today_feels_like :=
            (T.get_strings p.current_language).feels_like_temp ++ lit " " ++ fmt_f0 t_ap
              ++ degree ++ [if p.use_fahrenheit then 'F' else 'C']
          img_today_icon := choose_image doc.current_weather_code doc.current_is_day }
        = some s1 ∧
      (List.range 7).foldlM (daily_slot T p doc doc.current_is_day) s1 = some s2 ∧
      (List.range 7).foldlM (hourly_slot T p doc) s2 = some st' := by
  unfold apply_forecast at h
  simp only [Option.bind_eq_bind, Option.bind_eq_some] at h
  obtain ⟨t_now, h1, t_ap, h2, s1, h3, s2, h4, h5⟩ := h
  exact ⟨t_now, t_ap, s1, s2, h1, h2, h3, h4, h5⟩

/-- The labels of a completed refresh. -/
theorem apply_forecast_labels (T : Translations) (p : Prefs) (doc : WeatherDoc)
    (st st' : WeatherState) (h : apply_forecast T p doc st = some st') :
    temperature_shown p doc.current_temperature_2m st'.lbl_today_temp ∧
    (∃ text, temperature_shown p doc.current_apparent_temperature text ∧
      st'.lbl_today_feels_like
        = (T.get_strings p.current_language).feels_like_temp ++ lit " " ++ text) ∧
    ∀ i, i < 7 →
      temperature_shown p (doc.daily_temperature_2m_max.getD i 0) (st'.lbl_daily_high i) ∧
      temperature_shown p (doc.daily_temperature_2m_min.getD i 0) (st'.lbl_daily_low i) ∧
      temperature_shown p (doc.hourly_temperature_2m.getD i 0) (st'.lbl_hourly_temp i) ∧
      precipitation_label p (doc.hourly_precipitation.getD i 0)
          (doc.hourly_precipitation_probability.getD i 0)
        = some (st'.lbl_precipitation_probability i) := by
  obtain ⟨t_now, t_ap, s1, s2, hn, ha, h1, h2, h3⟩ := apply_forecast_parts T p doc st st' h
  have hs := sun_labels_spec _ _ _ _ _ h1
  have hD := fun (proj : WeatherState → CStr) hstep =>
    foldlM_preserve (daily_slot T p doc doc.current_is_day) proj hstep _ _ _ h2
  have hH := fun (proj : WeatherState → CStr) hstep =>
    foldlM_preserve (hourly_slot T p doc) proj hstep _ _ _ h3
  have hlabel : ∀ v d, display_temperature p v = some d →
      fmt_f0 d ++ degree ++ [if p.use_fahrenheit then 'F' else 'C'] = temperature_label p v := by
    intro v d hd
    unfold temperature_label
    rw [hd]
    rfl
  refine ⟨?_, ?_, ?_⟩
  · rw [hH (·.lbl_today_temp) (fun s i s' e => (hourly_slot_spec _ _ _ _ _ _ e).1.2.2.1),
      hD (·.lbl_today_temp) (fun s i s' e => (daily_slot_spec _ _ _ _ _ _ _ e).1.2.2.1), hs.1]
    simp only []
    rw [hlabel _ _ hn]
    exact temperature_label_shown p _ (by rw [hn]; rfl)
  · refine ⟨temperature_label p doc.current_apparent_temperature,
      temperature_label_shown p _ (by rw [ha]; rfl), ?_⟩
    rw [hH (·.lbl_today_feels_like) (fun s i s' e => (hourly_slot_spec _ _ _ _ _ _ e).1.2.2.2.1),
      hD (·.lbl_today_feels_like) (fun s i s' e => (daily_slot_spec _ _ _ _ _ _ _ e).1.2.2.2.1),
      hs.2.1]
    simp only []
    rw [← hlabel _ _ ha]
    simp only [List.append_assoc]
  · intro i hi
    have hmem : i ∈ List.range 7 := List.mem_range.mpr hi
    obtain ⟨td, td', htd⟩ := foldlM_steps _ _ _ _ h2 i hmem
    obtain ⟨th, th', hth⟩ := foldlM_steps _ _ _ _ h3 i hmem
    have sd := (daily_slot_spec _ _ _ _ _ _ _ htd).2
    have sh := (hourly_slot_spec _ _ _ _ _ _ hth).2
    have e1 := foldlM_preserve (hourly_slot T p doc) (·.lbl_daily_high)
      (fun s i s' e => (hourly_slot_spec _ _ _ _ _ _ e).1.2.2.2.2.1) _ _ _ h3
    have e2 := foldlM_preserve (hourly_slot T p doc) (·.lbl_daily_low)
      (fun s i s' e => (hourly_slot_spec _ _ _ _ _ _ e).1.2.2.2.2.2) _ _ _ h3
    have d1 := foldlM_pointwise (daily_slot T p doc doc.current_is_day) (·.lbl_daily_high) _
      (fun s i s' e => (daily_slot_spec _ _ _ _ _ _ _ e).1.1) _ _ _ h2 i
    have d2 := foldlM_pointwise (daily_slot T p doc doc.current_is_day) (·.lbl_daily_low) _
      (fun s i s' e => (daily_slot_spec _ _ _ _ _ _ _ e).1.2.1) _ _ _ h2 i
    have t1 := foldlM_pointwise (hourly_slot T p doc) (·.lbl_hourly_temp) _
      (fun s i s' e => (hourly_slot_spec _ _ _ _ _ _ e).1.1) _ _ _ h3 i
    have t2 := foldlM_pointwise (hourly_slot T p doc) (·.lbl_precipitation_probability) _
      (fun s i s' e => (hourly_slot_spec _ _ _ _ _ _ e).1.2.1) _ _ _ h3 i
    simp only [hmem, if_true] at d1 d2 t1 t2
    simp only [] at e1 e2
    refine ⟨?_, ?_, ?_, ?_⟩
    · rw [e1, d1]; exact temperature_label_shown p _ sd.1
    · rw [e2, d2]; exact temperature_label_shown p _ sd.2
    · rw [t1]; exact temperature_label_shown p _ sh.1
    · rw [t2]
      obtain ⟨x, hx⟩ := Option.isSome_iff_exists.mp sh.2
      rw [hx]; rfl

theorem fetch_weather_parsed (T : Translations) (p : Prefs) (env : WeatherEnv)
    (st : WeatherState) (doc : WeatherDoc)
    (hc : env.wifi_connected = true ∨ env.wifi_reconnected = true)
    (hr : env.response = .ok doc) :
    fetch_and_update_weather T p env st = apply_forecast T p doc st := by
  unfold fetch_and_update_weather
  have : (!env.wifi_connected && !env.wifi_reconnected) = false := by
    rcases hc with e | e <;> simp [e]
  rw [this, hr]
  rfl

/-- Sample data: a forecast for 2024-01-01 with 20 degrees, clear sky, daytime; the
precipitation of the first hour is the `float` nearest to 0.05. -/
def sample_doc : WeatherDoc where
  current_temperature_2m := 20
  current_apparent_temperature := 18
  current_weather_code := 0
  current_is_day := 1
  utc_offset_seconds := 0
  daily_time := [some (lit "2024-01-01"), some (lit "2024-01-02"), some (lit "2024-01-03"),
    some (lit "2024-01-04"), some (lit "2024-01-05"), some (lit "2024-01-06"),
    some (lit "2024-01-07")]
  daily_temperature_2m_min := [0, 1, 2, 3, 4, 5, 6]
  daily_temperature_2m_max := [100, 11, 12, 13, 14, 15, 16]
  daily_weather_code := [0, 1, 2, 3, 45, 61, 99]
  daily_sunrise := [some (lit "2024-01-01T08:06")]
  daily_sunset := [some (lit "2024-01-01T16:02")]
  hourly_time := [some (lit "2024-01-01T10:00"), some (lit "2024-01-01T11:00"),
    some (lit "2024-01-01T12:00"), some (lit "2024-01-01T13:00"),
    some (lit "2024-01-01T14:00"), some (lit "2024-01-01T15:00"),
    some (lit "2024-01-01T16:00")]
  hourly_temperature_2m := [20, 21, 22, 23, 22, 21, 20]
  hourly_precipitation_probability := [40, 40, 0, 0, 0, 0, 0]
  hourly_precipitation := [13421773 / 268435456, 2, 0, 0, 0, 0, 0]
  hourly_weather_code := [0, 1, 2, 3, 45, 61, 99]
  hourly_is_day := [1, 1, 1, 1, 1, 1, 0]

/-- Sample data: the network is up and the forecast request returns `sample_doc`. -/
def sample_weather_env : WeatherEnv := ⟨true, true, .ok sample_doc⟩

/-- Sample data: the display after the sample refresh in Fahrenheit mode. -/
def sample_fahrenheit_display : WeatherState :=
  (fetch_and_update_weather sample_translations ⟨true, true, 0⟩ sample_weather_env
    blank_weather).getD blank_weather

/-- Sample data: the display after the sample refresh in Celsius mode. -/
def sample_celsius_display : WeatherState :=
  (fetch_and_update_weather sample_translations ⟨false, true, 0⟩ sample_weather_env
    blank_weather).getD blank_weather

theorem getD_of_isSome {α : Type} (o : Option α) (d : α) (h : o.isSome = true) :
    o = some (o.getD d) := by
  cases o with
  | none => cases h
  | some x => rfl

/-- Sample data: the `float` nearest to 0.8333333. -/
def float_0_8333333 : ℚ := 13981013 / 16777216

/-- Sample data: the sample forecast with an apparent temperature of 0.8333333 degrees. -/
def chilly_doc : WeatherDoc :=
  { sample_doc with current_apparent_temperature := float_0_8333333 }

/-- C8, the claim fails in Fahrenheit mode for the `float` value 0.8333333, taken exactly:
`v * 9 / 5 + 32` is below 33.5 and its text is "33°F", while the code stores the `double`
result into the `float` 33.5 and the feels-like label reads "34°F". -/
theorem fahrenheit_store_counterexample :
    to_float float_0_8333333 = some float_0_8333333 ∧
    celsius_to_display float_0_8333333 true = (float_0_8333333 * 9 / 5 + 32, 'F') ∧
    float_0_8333333 * 9 / 5 + 32 < 67 / 2 ∧
    temperature_text (celsius_to_display float_0_8333333 true)
      = lit "33" ++ degree ++ lit "F" ∧
    to_fahrenheit float_0_8333333 = some (67 / 2) ∧
    (fetch_and_update_weather sample_translations ⟨true, true, 0⟩
        ⟨true, true, .ok chilly_doc⟩ blank_weather).map (·.lbl_today_feels_like)
      = some (lit "Feels Like 34" ++ degree ++ lit "F") := by
  refine ⟨by decide!, by decide!, by decide!, by decide!, by decide!, by decide!⟩

/-- C8, amended: after a completed refresh of a parsed forecast, each displayed temperature
(current, feels-like, daily maximum and minimum, hourly) is the text, with no decimals and
the unit character, of a value computed once from the raw value `v` of the response: `v`
itself with unit `C` in Celsius mode; in Fahrenheit mode, with unit `F`, the `float` to
which `v * 9.0 / 5.0 + 32.0`, computed in `double`, is rounded. This `float` lies on the same
side as the exact `v * 9 / 5 + 32` of every multiple of one half, and equals it when that
is a multiple of one half. -/
theorem displayed_temperatures (T : Translations) (p : Prefs) (env : WeatherEnv)
    (st st' : WeatherState) (doc : WeatherDoc)
    (hc : env.wifi_connected = true ∨ env.wifi_reconnected = true)
    (hr : env.response = .ok doc)
    (h : fetch_and_update_weather T p env st = some st') :
    temperature_shown p doc.current_temperature_2m st'.lbl_today_temp ∧
    (∃ text, temperature_shown p doc.current_apparent_temperature text ∧
      st'.lbl_today_feels_like
        = (T.get_strings p.current_language).feels_like_temp ++ lit " " ++ text) ∧
    (∀ i, i < 7 →
      temperature_shown p (doc.daily_temperature_2m_max.getD i 0) (st'.lbl_daily_high i) ∧
      temperature_shown p (doc.daily_temperature_2m_min.getD i 0) (st'.lbl_daily_low i) ∧
      temperature_shown p (doc.hourly_temperature_2m.getD i 0) (st'.lbl_hourly_temp i)) ∧
    (∀ v d : ℚ, shows_temperature false v d ↔ d = v) ∧
    (∀ v d : ℚ, p.use_fahrenheit = true → display_temperature p v = some d →
      to_fahrenheit v = some d ∧
      ∀ k : Int, |k| < 2 ^ 24 →
        ((k : ℚ) / 2 ≤ v * 9 / 5 + 32 → (k : ℚ) / 2 ≤ d) ∧
        (v * 9 / 5 + 32 ≤ (k : ℚ) / 2 → d ≤ (k : ℚ) / 2) ∧
        (v * 9 / 5 + 32 = (k : ℚ) / 2 → d = v * 9 / 5 + 32)) ∧
    (∀ v : ℚ, (celsius_to_display v true).2 = 'F' ∧ (celsius_to_display v false).2 = 'C') := by
  rw [fetch_weather_parsed T p env st doc hc hr] at h
  obtain ⟨h1, h2, h3⟩ := apply_forecast_labels T p doc st st' h
  refine ⟨h1, h2, fun i hi => ⟨(h3 i hi).1, (h3 i hi).2.1, (h3 i hi).2.2.1⟩, ?_, ?_,
    fun v => ⟨rfl, rfl⟩⟩
  · intro v d
    simp [shows_temperature]
  · intro v d hu hd
    have hf : to_fahrenheit v = some d := by
      unfold display_temperature at hd
      rw [hu] at hd
      exact hd
    refine ⟨hf, fun k hk => ?_⟩
    obtain ⟨s1, s2⟩ := to_fahrenheit_sandwich v d k hk hf
    exact ⟨s1, s2, fun e => by
      rw [e]
      exact le_antisymm (s2 (le_of_eq e)) (s1 (le_of_eq e.symm))⟩

/-- C8, amended, on the sample data: 0 is shown as 32 with unit F, 100 as 212, 20 in
Celsius mode as 20 with unit C, and the sample forecast of 20 degrees is displayed as
"68°F" in Fahrenheit mode and "20°C" in Celsius mode. -/
theorem displayed_temperatures_witness :
    fetch_and_update_weather sample_translations ⟨true, true, 0⟩ sample_weather_env
      blank_weather = some sample_fahrenheit_display ∧
    to_fahrenheit 0 = some 32 ∧
    to_fahrenheit 100 = some 212 ∧
    to_fahrenheit 20 = some 68 ∧
    display_temperature ⟨false, true, 0⟩ 20 = some 20 ∧
    sample_fahrenheit_display.lbl_today_temp = lit "68" ++ degree ++ lit "F" ∧
    sample_fahrenheit_display.lbl_daily_high 0 = lit "212" ++ degree ++ lit "F" ∧
    sample_fahrenheit_display.lbl_daily_low 0 = lit "32" ++ degree ++ lit "F" ∧
    sample_celsius_display.lbl_today_temp = lit "20" ++ degree ++ lit "C" ∧
    temperature_shown ⟨true, true, 0⟩ sample_doc.current_temperature_2m
      sample_fahrenheit_display.lbl_today_temp ∧
    temperature_shown ⟨false, true, 0⟩ sample_doc.current_temperature_2m
      sample_celsius_display.lbl_today_temp := by
  have hF : fetch_and_update_weather sample_translations ⟨true, true, 0⟩ sample_weather_env
      blank_weather = some sample_fahrenheit_display :=
    getD_of_isSome _ _ (by decide!)
  have hC : fetch_and_update_weather sample_translations ⟨false, true, 0⟩ sample_weather_env
      blank_weather = some sample_celsius_display :=
    getD_of_isSome _ _ (by decide!)
  exact ⟨hF, by decide!, by decide!, by decide!, by decide!, by decide!, by decide!,
    by decide!, by decide!,
    (displayed_temperatures sample_translations ⟨true, true, 0⟩ sample_weather_env
      blank_weather sample_fahrenheit_display sample_doc (Or.inl rfl) rfl hF).1,
    (displayed_temperatures sample_translations ⟨false, true, 0⟩ sample_weather_env
      blank_weather sample_celsius_display sample_doc (Or.inl rfl) rfl hC).1⟩

/-- Sample data: the `float` nearest to 1.27. -/
def float_1_27 : ℚ := 10653532 / 8388608

/-- Sample data: the sample forecast with 1.27 mm of precipitation in the second hour. -/
def drizzle_doc : WeatherDoc :=
  { sample_doc with
    hourly_precipitation := [13421773 / 268435456, float_1_27, 0, 0, 0, 0, 0] }

/-- C9, the claim fails in imperial mode for the `float` amount 1.27, taken exactly:
`p / 25.4` is below 0.05 and its text with one decimal is "0.0in", while the `float`
quotient `p / 25.4f` is above 0.05 and the label reads "0.1in". -/
theorem inches_counterexample :
    to_float float_1_27 = some float_1_27 ∧
    (1 : ℚ) / 10 ≤ float_1_27 ∧
    float_1_27 / (254 / 10) < 5 / 100 ∧
    mm_to_display_precip float_1_27 40 true = lit "0.0in" ∧
    to_float (float_1_27 / float_25_4) = some (13421773 / 268435456) ∧
    (5 : ℚ) / 100 < 13421773 / 268435456 ∧
    precipitation_label ⟨true, true, 0⟩ float_1_27 40 = some (lit "0.1in") ∧
    (fetch_and_update_weather sample_translations ⟨true, true, 0⟩
        ⟨true, true, .ok drizzle_doc⟩ blank_weather).map
          (fun st => st.lbl_precipitation_probability 1)
      = some (lit "0.1in") := by
  refine ⟨by decide!, by decide!, by decide!, by decide!, by decide!, by decide!, by decide!,
    by decide!⟩

/-- C9, amended: after a completed refresh of a parsed forecast, the precipitation label of
every hourly slot with the `float` amount `a` (mm) and probability `q` is: if `a >= 0.1f`
(for a `float` amount the same as `a >= 0.1`), the amount with one decimal place, whatever
`q` is: `a` with "mm" in metric mode, and in imperial mode the `float` quotient `a / 25.4f`
with "in", which is `a / 25.4` up to a relative error of `2 ^ -23`; otherwise `q` rounded to
an integer with "%" when `q > 0`; otherwise the empty string. In metric mode, for a `float`
amount, this is the specification's `mm_to_display_precip`. -/
theorem precipitation_labels (T : Translations) (p : Prefs) (env : WeatherEnv)
    (st st' : WeatherState) (doc : WeatherDoc)
    (hc : env.wifi_connected = true ∨ env.wifi_reconnected = true)
    (hr : env.response = .ok doc)
    (h : fetch_and_update_weather T p env st = some st') :
    (∀ i, i < 7 →
      (float_0_1 ≤ doc.hourly_precipitation.getD i 0 → p.use_fahrenheit = false →
        st'.lbl_precipitation_probability i
          = fmt_f1 (doc.hourly_precipitation.getD i 0) ++ lit "mm") ∧
      (float_0_1 ≤ doc.hourly_precipitation.getD i 0 → p.use_fahrenheit = true →
        ∃ x, to_float (doc.hourly_precipitation.getD i 0 / float_25_4) = some x ∧
          st'.lbl_precipitation_probability i = fmt_f1 x ++ lit "in" ∧
          |x - doc.hourly_precipitation.getD i 0 / (254 / 10)|
            ≤ doc.hourly_precipitation.getD i 0 / (254 / 10) / 2 ^ 23) ∧
      (doc.hourly_precipitation.getD i 0 < float_0_1 →
        0 < doc.hourly_precipitation_probability.getD i 0 →
        st'.lbl_precipitation_probability i
          = fmt_f0 (doc.hourly_precipitation_probability.getD i 0) ++ lit "%") ∧
      (doc.hourly_precipitation.getD i 0 < float_0_1 →
        doc.hourly_precipitation_probability.getD i 0 ≤ 0 →
        st'.lbl_precipitation_probability i = []) ∧
      (in_format 24 (-126) (doc.hourly_precipitation.getD i 0) → p.use_fahrenheit = false →
        st'.lbl_precipitation_probability i
          = mm_to_display_precip (doc.hourly_precipitation.getD i 0)
              (doc.hourly_precipitation_probability.getD i 0) false)) ∧
    (∀ a : ℚ, in_format 24 (-126) a → (float_0_1 ≤ a ↔ (1 : ℚ) / 10 ≤ a)) ∧
    to_float (1 / 10) = some float_0_1 ∧ to_float (254 / 10) = some float_25_4 := by
  rw [fetch_weather_parsed T p env st doc hc hr] at h
  obtain ⟨-, -, h3⟩ := apply_forecast_labels T p doc st st' h
  refine ⟨fun i hi => ?_, float_ge_tenth, float_constants.1, float_constants.2⟩
  have hl := (h3 i hi).2.2.2
  generalize doc.hourly_precipitation.getD i 0 = a at hl ⊢
  generalize doc.hourly_precipitation_probability.getD i 0 = q at hl ⊢
  generalize st'.lbl_precipitation_probability i = text at hl ⊢
  unfold precipitation_label at hl
  have metric : float_0_1 ≤ a → p.use_fahrenheit = false → text = fmt_f1 a ++ lit "mm" := by
    intro ha hu
    have ha' : a ≥ float_0_1 := ha
    rw [if_pos ha', hu] at hl
    exact (Option.some.inj hl).symm
  have percent : a < float_0_1 → 0 < q → text = fmt_f0 q ++ lit "%" := by
    intro ha hq
    have ha' : ¬ a ≥ float_0_1 := not_le.mpr ha
    have hq' : q > 0 := hq
    rw [if_neg ha', if_pos hq'] at hl
    exact (Option.some.inj hl).symm
  have empty : a < float_0_1 → q ≤ 0 → text = [] := by
    intro ha hq
    have ha' : ¬ a ≥ float_0_1 := not_le.mpr ha
    have hq' : ¬ q > 0 := not_lt.mpr hq
    rw [if_neg ha', if_neg hq'] at hl
    exact (Option.some.inj hl).symm
  refine ⟨metric, ?_, percent, empty, ?_⟩
  · intro ha hu
    have ha' : a ≥ float_0_1 := ha
    rw [if_pos ha', hu, if_pos rfl] at hl
    obtain ⟨x, hx, hxt⟩ := Option.map_eq_some'.mp hl
    exact ⟨x, hx, hxt.symm, inches_error a x ha hx⟩
  · intro hfmt hu
    unfold mm_to_display_precip
    by_cases ha : float_0_1 ≤ a
    · have ha1 : a ≥ 1 / 10 := (float_ge_tenth a hfmt).mp ha
      rw [if_pos ha1, metric ha hu]
      rfl
    · have ha1 : ¬ a ≥ 1 / 10 := fun hc => ha ((float_ge_tenth a hfmt).mpr hc)
      rw [if_neg ha1]
      by_cases hq : 0 < q
      · have hq' : q > 0 := hq
        rw [if_pos hq', percent (not_le.mp ha) hq]
      · have hq' : ¬ q > 0 := hq
        rw [if_neg hq', empty (not_le.mp ha) (not_lt.mp hq)]

/-- C9, amended, on the sample data: (0.05 mm, 40 %) gives "40%", (2.0 mm, 40 %) gives
"2.0mm", (0, 0) gives "", in metric mode; the first two are the labels of hourly slots 0
and 1 of the sample refresh; 25.4 mm gives "1.0in" in imperial mode. -/
theorem precipitation_labels_witness :
    fetch_and_update_weather sample_translations ⟨false, true, 0⟩ sample_weather_env
      blank_weather = some sample_celsius_display ∧
    to_float (5 / 100) = some (13421773 / 268435456) ∧
    precipitation_label ⟨false, true, 0⟩ (13421773 / 268435456) 40 = some (lit "40%") ∧
    precipitation_label ⟨false, true, 0⟩ 2 40 = some (lit "2.0mm") ∧
    precipitation_label ⟨false, true, 0⟩ 0 0 = some (lit "") ∧
    precipitation_label ⟨true, true, 0⟩ float_25_4 40 = some (lit "1.0in") ∧
    sample_celsius_display.lbl_precipitation_probability 0 = lit "40%" ∧
    sample_celsius_display.lbl_precipitation_probability 1 = lit "2.0mm" ∧
    float_0_1 ≤ sample_doc.hourly_precipitation.getD 1 0 ∧
    sample_celsius_display.lbl_precipitation_probability 1
      = fmt_f1 (sample_doc.hourly_precipitation.getD 1 0) ++ lit "mm" := by
  have hC : fetch_and_update_weather sample_translations ⟨false, true, 0⟩ sample_weather_env
      blank_weather = some sample_celsius_display :=
    getD_of_isSome _ _ (by decide!)
  exact ⟨hC, by decide!, by decide!, by decide!, by decide!, by decide!, by decide!,
    by decide!, by decide!,
    ((precipitation_labels sample_translations ⟨false, true, 0⟩ sample_weather_env
      blank_weather sample_celsius_display sample_doc (Or.inl rfl) rfl hC).1 1
      (by decide)).1 (by decide!) rfl⟩

/-! ## `hour_of_day` in 12-hour mode -/

/-- C11: in 12-hour mode, for every hour from 0 to 23, `hour_of_day` returns "12" and the
AM marker for hour 0, the Noon text for hour 12, the decimal hour and the AM marker for
hours 1 to 11, and the decimal of `hour - 12` and the PM marker for hours 13 to 23; the
number shown is from 1 to 12. -/
theorem hour_of_day_12 (T : Translations) (p : Prefs) (hour : Int)
    (h12 : p.use_24_hour = false) :
    (hour = 0 → hour_of_day T p hour = lit "12" ++ (T.get_strings p.current_language).am) ∧
    (hour = 12 → hour_of_day T p hour = (T.get_strings p.current_language).noon) ∧
    (1 ≤ hour → hour ≤ 11 →
      hour_of_day T p hour = fmt_d hour ++ (T.get_strings p.current_language).am) ∧
    (13 ≤ hour → hour ≤ 23 →
      hour_of_day T p hour = fmt_d (hour - 12) ++ (T.get_strings p.current_language).pm ∧
      1 ≤ hour - 12 ∧ hour - 12 ≤ 11) := by
  refine ⟨?_, ?_, ?_, ?_⟩
  · intro h
    subst h
    simp [hour_of_day, h12]
  · intro h
    subst h
    simp [hour_of_day, h12]
  · intro h1 h11
    have hr : ¬ (hour < 0 ∨ hour > 23) := by omega
    have h0 : hour ≠ 0 := by omega
    have hn : hour ≠ 12 := by omega
    have hlt : hour < 12 := by omega
    have hm : hour.tmod 12 = hour := by
      rw [Int.tmod_eq_emod (by omega) (by omega)]; omega
    simp [hour_of_day, h12, hr, h0, hn, hlt, hm]
  · intro h13 h23
    have hr : ¬ (hour < 0 ∨ hour > 23) := by omega
    have h0 : hour ≠ 0 := by omega
    have hn : hour ≠ 12 := by omega
    have hlt : ¬ hour < 12 := by omega
    have hm : hour.tmod 12 = hour - 12 := by
      rw [Int.tmod_eq_emod (by omega) (by omega)]; omega
    refine ⟨?_, by omega, by omega⟩
    simp [hour_of_day, h12, hr, h0, hn, hlt, hm]

/-- C11, on sample hours: 13 gives "1pm", 23 gives "11pm", 0 gives "12am", 12 gives
"Noon". -/
theorem hour_of_day_12_witness :
    hour_of_day sample_translations ⟨false, false, 0⟩ 13 = lit "1pm" ∧
    hour_of_day sample_translations ⟨false, false, 0⟩ 23 = lit "11pm" ∧
    hour_of_day sample_translations ⟨false, false, 0⟩ 0 = lit "12am" ∧
    hour_of_day sample_translations ⟨false, false, 0⟩ 12 = lit "Noon" ∧
    hour_of_day sample_translations ⟨false, false, 0⟩ 13
      = fmt_d (13 - 12) ++ (sample_translations.get_strings 0).pm :=
  ⟨by decide, by decide, by decide, by decide,
    ((hour_of_day_12 sample_translations ⟨false, false, 0⟩ 13 rfl).2.2.2 (by decide)
      (by decide)).1⟩

/-! ## The classifier tables -/

/-- Both tables on an undocumented code. -/
theorem choose_fallback (code is_day : Int) (h : code ∉ documented_codes) :
    choose_icon code is_day
      = (if is_day ≠ 0 then .icon .mostly_cloudy_day else .icon .mostly_cloudy_night) ∧
    choose_image code is_day
      = (if is_day ≠ 0 then .image .mostly_cloudy_day else .image .mostly_cloudy_night) := by
  simp only [documented_codes, List.mem_cons, List.mem_singleton, List.not_mem_nil, or_false,
    not_or] at h
  constructor
  · unfold choose_icon
    split <;> first | rfl | (exfalso; omega)
  · unfold choose_image
    split <;> first | rfl | (exfalso; omega)

theorem choose_icon_day (code d : Int) (hd : d ≠ 0) :
    choose_icon code d = choose_icon code 1 := by
  unfold choose_icon
  split <;> simp [hd]

theorem choose_image_day (code d : Int) (hd : d ≠ 0) :
    choose_image code d = choose_image code 1 := by
  unfold choose_image
  split <;> simp [hd]

/-- One row of the two tables, for a flag value: the same asset in both, none of the two
mostly-cloudy variants nor blizzard, blowing snow or tornado, equal to the night row for a
lighting-invariant code and different from it by day for a lighting-variant code. -/
def table_row (c d : Int) : Prop :=
  choose_image c d = .image (choose_icon c d).category ∧
  choose_icon c d = .icon (choose_icon c d).category ∧
  (choose_icon c d).category ≠ .mostly_cloudy_day ∧
  (choose_icon c d).category ≠ .mostly_cloudy_night ∧
  (choose_icon c d).category ≠ .blizzard ∧
  (choose_icon c d).category ≠ .blowing_snow ∧
  (choose_icon c d).category ≠ .tornado ∧
  (c ∈ lighting_invariant_codes → choose_icon c 0 = choose_icon c d ∧
    choose_image c 0 = choose_image c d) ∧
  (c ∈ lighting_variant_codes → d ≠ 0 → choose_icon c 0 ≠ choose_icon c d ∧
    choose_image c 0 ≠ choose_image c d)

instance (c d : Int) : Decidable (table_row c d) := by
  unfold table_row; infer_instance

theorem table_rows : ∀ c ∈ documented_codes, table_row c 0 ∧ table_row c 1 := by
  decide

/-- Both tables on a documented code. -/
theorem choose_documented (code is_day : Int) (h : code ∈ documented_codes) :
    table_row code is_day := by
  by_cases hd : is_day = 0
  · subst hd
    exact (table_rows code h).1
  · have h1 := (table_rows code h).2
    unfold table_row at h1 ⊢
    rw [choose_icon_day code is_day hd, choose_image_day code is_day hd]
    obtain ⟨a1, a2, a3, a4, a5, a6, a7, a8, a9⟩ := h1
    exact ⟨a1, a2, a3, a4, a5, a6, a7, a8, fun hv _ => a9 hv (by decide)⟩

/-- C12: for every code outside the 28 documented ones, `choose_icon` and `choose_image`
return the mostly-cloudy fallback, the day variant for a non-zero `is_day` and the night
variant for `is_day` 0; and no documented code maps to either mostly-cloudy variant. -/
theorem classifier_fallback (code is_day : Int) (h : code ∉ documented_codes) :
    (is_day ≠ 0 → choose_icon code is_day = .icon .mostly_cloudy_day ∧
      choose_image code is_day = .image .mostly_cloudy_day) ∧
    (is_day = 0 → choose_icon code is_day = .icon .mostly_cloudy_night ∧
      choose_image code is_day = .image .mostly_cloudy_night) ∧
    ∀ c ∈ documented_codes, ∀ d : Int,
      (choose_icon c d).category ≠ .mostly_cloudy_day ∧
      (choose_icon c d).category ≠ .mostly_cloudy_night ∧
      (choose_image c d).category ≠ .mostly_cloudy_day ∧
      (choose_image c d).category ≠ .mostly_cloudy_night := by
  obtain ⟨h1, h2⟩ := choose_fallback code is_day h
  refine ⟨fun hd => ?_, fun hd => ?_, fun c hc d => ?_⟩
  · rw [h1, h2]; simp [hd]
  · rw [h1, h2]; simp [hd]
  · obtain ⟨e1, -, n1, n2, -⟩ := choose_documented c d hc
    rw [e1]
    exact ⟨n1, n2, n1, n2⟩

/-- C12, on the code of the specification: 9999 is not documented and is classified as
mostly cloudy, day variant, by day. -/
theorem classifier_fallback_witness :
    (9999 : Int) ∉ documented_codes ∧
    choose_icon 9999 1 = .icon .mostly_cloudy_day ∧
    choose_image 9999 1 = .image .mostly_cloudy_day ∧
    choose_icon 9999 0 = .icon .mostly_cloudy_night :=
  ⟨by decide, ((classifier_fallback 9999 1 (by decide)).1 (by decide)).1,
    ((classifier_fallback 9999 1 (by decide)).1 (by decide)).2,
    ((classifier_fallback 9999 0 (by decide)).2.1 rfl).1⟩

/-- C13: the documented codes are the lighting-variant codes 0, 1, 2, 61, 80, 81, 95
together with the lighting-invariant ones; for a lighting-variant code and for every
undocumented code the result by day differs from the result by night, and for a
lighting-invariant code the two are the same. -/
theorem classifier_day_night (code is_day : Int) (hd : is_day ≠ 0) :
    documented_codes.Perm (lighting_variant_codes ++ lighting_invariant_codes) ∧
    ((code ∈ lighting_variant_codes ∨ code ∉ documented_codes) →
      choose_icon code is_day ≠ choose_icon code 0 ∧
      choose_image code is_day ≠ choose_image code 0) ∧
    (code ∈ lighting_invariant_codes →
      choose_icon code is_day = choose_icon code 0 ∧
      choose_image code is_day = choose_image code 0) := by
  have hperm : documented_codes.Perm (lighting_variant_codes ++ lighting_invariant_codes) := by
    decide
  refine ⟨hperm, ?_, ?_⟩
  · rintro (hv | hn)
    · have hdoc : code ∈ documented_codes :=
        hperm.symm.subset (List.mem_append_left _ hv)
      obtain ⟨-, -, -, -, -, -, -, -, hvar⟩ := choose_documented code is_day hdoc
      exact ⟨fun e => (hvar hv hd).1 e.symm, fun e => (hvar hv hd).2 e.symm⟩
    · obtain ⟨h1, h2⟩ := choose_fallback code is_day hn
      obtain ⟨h3, h4⟩ := choose_fallback code 0 hn
      rw [h1, h2, h3, h4]
      simp [hd]
  · intro hi
    have hdoc : code ∈ documented_codes :=
      hperm.symm.subset (List.mem_append_right _ hi)
    obtain ⟨-, -, -, -, -, -, -, hinv, -⟩ := choose_documented code is_day hdoc
    exact ⟨(hinv hi).1.symm, (hinv hi).2.symm⟩

/-- C13, on the codes of the specification: code 0 is classified differently by day and
by night, code 3 the same. -/
theorem classifier_day_night_witness :
    (1 : Int) ≠ 0 ∧
    choose_icon 0 1 ≠ choose_icon 0 0 ∧
    choose_icon 3 1 = choose_icon 3 0 ∧
    choose_icon 0 1 = .icon .sunny ∧ choose_icon 0 0 = .icon .clear_night :=
  ⟨by decide,
    ((classifier_day_night 0 1 (by decide)).2.1 (Or.inl (by decide))).1,
    ((classifier_day_night 3 1 (by decide)).2.2 (by decide)).1,
    by decide, by decide⟩

/-- C29: for every code and every flag `choose_image` and `choose_icon` select the asset
of the same name, so they are the same function into the weather categories; and neither
ever returns blizzard, blowing snow or tornado. -/
theorem classifier_tables_agree (code is_day : Int) :
    (choose_image code is_day).category = (choose_icon code is_day).category ∧
    (∃ a : Asset, choose_image code is_day = .image a ∧ choose_icon code is_day = .icon a) ∧
    (choose_icon code is_day).category ≠ .blizzard ∧
    (choose_icon code is_day).category ≠ .blowing_snow ∧
    (choose_icon code is_day).category ≠ .tornado := by
  by_cases hdoc : code ∈ documented_codes
  · obtain ⟨e1, e2, -, -, n1, n2, n3, -⟩ := choose_documented code is_day hdoc
    refine ⟨?_, ⟨_, e1, e2⟩, n1, n2, n3⟩
    rw [e1]
    rfl
  · obtain ⟨h1, h2⟩ := choose_fallback code is_day hdoc
    rw [h1, h2]
    by_cases hd : is_day = 0 <;> simp [hd, ImgDsc.category]

/-! ## Night mode and temporary wake: theorems -/

/-- C14: for every local hour from 0 to 23, `night_mode_should_be_active()` is true exactly
when the local time is available, `use_night_mode` is set and the hour is in [22,24) or
[0,6); without local time or with `use_night_mode` off it is false. -/
theorem night_window (s : NightState) (h : Int) (h0 : 0 ≤ h) (h23 : h ≤ 23) :
    (∀ local_hour : Option Int,
      night_mode_should_be_active local_hour s = true ↔
        ∃ hour, local_hour = some hour ∧ s.use_night_mode = true ∧
          (hour ≥ NIGHT_MODE_START_HOUR ∨ hour < NIGHT_MODE_END_HOUR)) ∧
    (night_mode_should_be_active (some h) s = true ↔
      s.use_night_mode = true ∧ ((22 ≤ h ∧ h < 24) ∨ (0 ≤ h ∧ h < 6))) ∧
    night_mode_should_be_active none s = false ∧
    (s.use_night_mode = false → night_mode_should_be_active (some h) s = false) := by
  refine ⟨?_, ?_, rfl, ?_⟩
  · intro local_hour
    cases local_hour with
    | none => simp [night_mode_should_be_active]
    | some hour =>
      cases hu : s.use_night_mode <;> simp [night_mode_should_be_active, hu]
  · cases hu : s.use_night_mode
    · simp [night_mode_should_be_active, hu]
    · simp only [night_mode_should_be_active, hu, NIGHT_MODE_START_HOUR, NIGHT_MODE_END_HOUR]
      simp only [Bool.not_true, Bool.false_eq_true, if_false, decide_eq_true_eq, true_and]
      omega
  · intro hu
    simp [night_mode_should_be_active, hu]

/-- Sample data: night mode is switched on, the display is in its normal state. -/
def night_on : NightState := ⟨true, false, false, none, 128, none, 0, 0, 0⟩

/-- C14, on the hours of the specification: with night mode on, true at 23, 22 and 5, false
at 12 and at 6; with night mode off, false at 23. -/
theorem night_window_witness :
    night_mode_should_be_active (some 23) night_on = true ∧
    night_mode_should_be_active (some 12) night_on = false ∧
    night_mode_should_be_active (some 6) night_on = false ∧
    night_mode_should_be_active (some 22) night_on = true ∧
    night_mode_should_be_active (some 5) night_on = true ∧
    night_mode_should_be_active (some 23) { night_on with use_night_mode := false } = false ∧
    (night_mode_should_be_active (some 23) night_on = true ↔
      night_on.use_night_mode = true ∧
        (((22 : Int) ≤ 23 ∧ (23 : Int) < 24) ∨ ((0 : Int) ≤ 23 ∧ (23 : Int) < 6))) :=
  ⟨by decide, by decide, by decide, by decide, by decide, by decide,
    (night_window night_on 23 (by decide) (by decide)).2.1⟩

instance (s : NightState) : Decidable (Dimmed s) := by
  unfold Dimmed; infer_instance

instance (s : NightState) : Decidable (TemporarilyAwake s) := by
  unfold TemporarilyAwake; infer_instance

/-- Sample data: the state Dimmed. -/
def dimmed_state : NightState := ⟨true, true, false, none, 0, some 200, 0, 0, 0⟩

/-- Sample data: the state TemporarilyAwake that a touch makes of `dimmed_state`. -/
def awake_state : NightState :=
  ⟨true, true, true, some ⟨15000, 1, 0⟩, 200, some 200, 0, 0, 0⟩

/-- Sample data: the trace of a wake that outlives night mode. Boot with night mode on and
brightness 200 stored; the check at hour 23 dims the display; a touch wakes it and starts
the wake timer; the night mode switch is turned off and the next check clears
`night_mode_active`; 10 seconds after the wake touch the display is lit, the wake flag is
still set and the wake timer still runs. -/
def stale_wake_state : NightState :=
  night_step (night_step (night_step (night_step (night_step
    (boot_night_state none (some 200) true)
    (.tick (some 23))) (.read (some ⟨1950, 2020, 500⟩))) (.night_switch false))
    (.tick (some 23))) (.elapse 10000)

theorem stale_wake_reachable : NightReachable stale_wake_state :=
  .step _ _ (.step _ _ (.step _ _ (.step _ _ (.step _ _
    (.boot none (some 200) true (fun v h => by cases h; decide)) trivial) trivial) trivial)
    trivial) trivial

/-- C15, the claim fails for a touch in a temporary wake whose `night_mode_active` has
been cleared: in the reachable state `stale_wake_state` (wake flag set, wake timer running
for 10 seconds, display lit) a touch is delivered as PRESSED and the wake timer is not
restarted; with the night mode switch turned on again the timer fires 5 seconds after
that touch and the display is dimmed. -/
theorem stale_wake_counterexample :
    NightReachable stale_wake_state ∧
    stale_wake_state.temp_screen_wakeup_active = true ∧
    stale_wake_state.night_mode_active = false ∧
    stale_wake_state.backlight = 200 ∧
    stale_wake_state.temp_screen_wakeup_timer = some ⟨15000, 1, 10000⟩ ∧
    (touchscreen_read (some ⟨1950, 2020, 500⟩) stale_wake_state ⟨.RELEASED, (0, 0)⟩).2.state
      = .PRESSED ∧
    (touchscreen_read (some ⟨1950, 2020, 500⟩) stale_wake_state
      ⟨.RELEASED, (0, 0)⟩).1.temp_screen_wakeup_timer = some ⟨15000, 1, 10000⟩ ∧
    (touchscreen_read (some ⟨1950, 2020, 500⟩) stale_wake_state
      ⟨.RELEASED, (0, 0)⟩).1.temp_screen_wakeup_timer ≠ some ⟨15000, 1, 0⟩ ∧
    night_enabled
      (night_step (night_step (night_step stale_wake_state
        (.read (some ⟨1950, 2020, 500⟩))) (.night_switch true)) (.elapse 5000))
      (.timeout (some 23)) ∧
    (night_step (night_step (night_step (night_step stale_wake_state
      (.read (some ⟨1950, 2020, 500⟩))) (.night_switch true)) (.elapse 5000))
      (.timeout (some 23))).backlight = 0 :=
  ⟨stale_wake_reachable, by decide, by decide, by decide, by decide, by decide, by decide,
    by decide, Nat.le_refl 15000, by decide⟩

/-- C15, amended: a touch that arrives in the state Dimmed performs only the wake
transition: the backlight gets the stored brightness, the wake flag is set, a timer of
15000 ms with repeat count 1 replaces any earlier one, and the touch is reported as
RELEASED with the point left as it was. A touch during a temporary wake is reported as
PRESSED at the mapped coordinates; it restarts the timer in the same way while
`night_mode_active` is still set, and leaves the timer, the backlight and the flags as
they are once `night_mode_active` has been cleared. -/
theorem touch_wakes_or_passes (s : NightState) (data : IndevData) (p : TS_Point) :
    (Dimmed s →
      (touchscreen_read (some p) s data).1.backlight = s.prefs_brightness.getD 128 ∧
      (touchscreen_read (some p) s data).1.temp_screen_wakeup_active = true ∧
      (touchscreen_read (some p) s data).1.temp_screen_wakeup_timer = some ⟨15000, 1, 0⟩ ∧
      (touchscreen_read (some p) s data).1.night_mode_active = true ∧
      (touchscreen_read (some p) s data).2.state = .RELEASED ∧
      (touchscreen_read (some p) s data).2.point = data.point) ∧
    (s.temp_screen_wakeup_active = true → s.night_mode_active = true →
      (touchscreen_read (some p) s data).1.backlight = s.prefs_brightness.getD 128 ∧
      (touchscreen_read (some p) s data).1.temp_screen_wakeup_active = true ∧
      (touchscreen_read (some p) s data).1.temp_screen_wakeup_timer = some ⟨15000, 1, 0⟩ ∧
      (touchscreen_read (some p) s data).1.night_mode_active = true ∧
      (touchscreen_read (some p) s data).2.state = .PRESSED ∧
      (touchscreen_read (some p) s data).2.point
        = (map p.x 200 3700 1 SCREEN_WIDTH, map p.y 240 3800 1 SCREEN_HEIGHT)) ∧
    (s.temp_screen_wakeup_active = true → s.night_mode_active = false →
      (touchscreen_read (some p) s data).1
        = { s with
            x := map p.x 200 3700 1 SCREEN_WIDTH
            y := map p.y 240 3800 1 SCREEN_HEIGHT
            z := p.z } ∧
      (touchscreen_read (some p) s data).1.temp_screen_wakeup_timer
        = s.temp_screen_wakeup_timer ∧
      (touchscreen_read (some p) s data).1.backlight = s.backlight ∧
      (touchscreen_read (some p) s data).2.state = .PRESSED ∧
      (touchscreen_read (some p) s data).2.point
        = (map p.x 200 3700 1 SCREEN_WIDTH, map p.y 240 3800 1 SCREEN_HEIGHT)) := by
  refine ⟨?_, ?_, ?_⟩
  · rintro ⟨hn, ht⟩
    simp [touchscreen_read, hn, ht]
  · intro ht hn
    simp [touchscreen_read, hn, ht]
  · intro ht hn
    simp [touchscreen_read, hn]

/-- C15, amended, on the sample data: the touch in Dimmed lights the backlight at 200 and
is reported as RELEASED; the touch in TemporarilyAwake with night mode active is reported as
PRESSED and restarts a timer that has run for 10 seconds; the touch in `stale_wake_state`
is reported as PRESSED and leaves the timer at 10 seconds. -/
theorem touch_wakes_or_passes_witness :
    Dimmed dimmed_state ∧ TemporarilyAwake awake_state ∧
    (touchscreen_read (some ⟨1950, 2020, 500⟩) dimmed_state ⟨.PRESSED, (7, 9)⟩).1.backlight
      = 200 ∧
    (touchscreen_read (some ⟨1950, 2020, 500⟩) dimmed_state ⟨.PRESSED, (7, 9)⟩).2
      = ⟨.RELEASED, (7, 9)⟩ ∧
    (touchscreen_read (some ⟨1950, 2020, 500⟩)
      (night_step awake_state (.elapse 10000)) ⟨.RELEASED, (7, 9)⟩).2.state = .PRESSED ∧
    (night_step awake_state (.elapse 10000)).temp_screen_wakeup_timer
      = some ⟨15000, 1, 10000⟩ ∧
    (touchscreen_read (some ⟨1950, 2020, 500⟩)
      (night_step awake_state (.elapse 10000))
      ⟨.RELEASED, (7, 9)⟩).1.temp_screen_wakeup_timer = some ⟨15000, 1, 0⟩ ∧
    (touchscreen_read (some ⟨1950, 2020, 500⟩) stale_wake_state
      ⟨.RELEASED, (7, 9)⟩).1.temp_screen_wakeup_timer
      = stale_wake_state.temp_screen_wakeup_timer :=
  ⟨by decide, by decide,
    ((touch_wakes_or_passes dimmed_state ⟨.PRESSED, (7, 9)⟩ ⟨1950, 2020, 500⟩).1
      (by decide)).1,
    by decide,
    ((touch_wakes_or_passes (night_step awake_state (.elapse 10000)) ⟨.RELEASED, (7, 9)⟩
      ⟨1950, 2020, 500⟩).2.1 (by decide) (by decide)).2.2.2.2.1,
    by decide,
    ((touch_wakes_or_passes (night_step awake_state (.elapse 10000)) ⟨.RELEASED, (7, 9)⟩
      ⟨1950, 2020, 500⟩).2.1 (by decide) (by decide)).2.2.1,
    ((touch_wakes_or_passes stale_wake_state ⟨.RELEASED, (7, 9)⟩
      ⟨1950, 2020, 500⟩).2.2 (by decide) (by decide)).2.1⟩

/-- C22, the code at the failing input: nothing is stored under `brightness` and
`config.h` defines `CONFIG_BRIGHTNESS` as 200; `setup` writes 200 to the backlight, while
`deactivate_night_mode` and the wake branch of `touchscreen_read` write 128. -/
theorem brightness_default_differs :
    setup_brightness (some 200) none = 200 ∧
    (boot_night_state (some 200) none true).backlight = 200 ∧
    (deactivate_night_mode
      (activate_night_mode (boot_night_state (some 200) none true))).backlight = 128 ∧
    (touchscreen_read (some ⟨1950, 2020, 500⟩)
      (activate_night_mode (boot_night_state (some 200) none true))
      ⟨.RELEASED, (0, 0)⟩).1.backlight = 128 := by
  decide

/-- The level `setup` writes: the persisted value if present, otherwise `CONFIG_BRIGHTNESS`
of `config.h` if defined, otherwise 128. -/
theorem setup_brightness_resolution (config_brightness stored : Option Nat) :
    (∀ v, stored = some v → setup_brightness config_brightness stored = v) ∧
    (∀ c, stored = none → config_brightness = some c →
      setup_brightness config_brightness stored = c) ∧
    (stored = none → config_brightness = none →
      setup_brightness config_brightness stored = 128) := by
  refine ⟨?_, ?_, ?_⟩
  · rintro v rfl; rfl
  · rintro c rfl rfl; rfl
  · rintro rfl rfl; rfl

/-- C25, as stated, fails: in the state TemporarilyAwake at local hour 6, outside the night
window, the timeout handler leaves `night_mode_active` set, and the touch that follows is
treated as a wake-up tap and reported as RELEASED. -/
theorem timeout_outside_window_counterexample :
    TemporarilyAwake awake_state ∧
    night_mode_should_be_active (some 6) awake_state = false ∧
    (handle_temp_screen_wakeup_timeout (some 6) awake_state).night_mode_active = true ∧
    (touchscreen_read (some ⟨1950, 2020, 500⟩)
      (handle_temp_screen_wakeup_timeout (some 6) awake_state)
      ⟨.RELEASED, (0, 0)⟩).2.state = .RELEASED := by
  decide

/-- C25, amended: when the wake timer fires in the state TemporarilyAwake, the handler
clears the wake flag and removes the timer; if the night window still applies the result
is Dimmed (backlight 0, `night_mode_active` set); otherwise the handler leaves the
backlight and `night_mode_active` as they are, and the next `check_for_night_mode` outside
the window makes the state Normal (backlight at the stored brightness, `night_mode_active`
clear), after which a touch is reported to the UI as PRESSED and starts no wake. -/
theorem timeout_then_check (s : NightState) (local_hour : Option Int)
    (h : TemporarilyAwake s) :
    (handle_temp_screen_wakeup_timeout local_hour s).temp_screen_wakeup_active = false ∧
    (handle_temp_screen_wakeup_timeout local_hour s).temp_screen_wakeup_timer = none ∧
    (night_mode_should_be_active local_hour s = true →
      (handle_temp_screen_wakeup_timeout local_hour s).backlight = 0 ∧
      (handle_temp_screen_wakeup_timeout local_hour s).night_mode_active = true) ∧
    (night_mode_should_be_active local_hour s = false →
      (handle_temp_screen_wakeup_timeout local_hour s).backlight = s.backlight ∧
      (handle_temp_screen_wakeup_timeout local_hour s).night_mode_active
        = s.night_mode_active ∧
      ∀ later : Option Int,
        night_mode_should_be_active later s = false →
        (check_for_night_mode later
          (handle_temp_screen_wakeup_timeout local_hour s)).backlight
            = s.prefs_brightness.getD 128 ∧
        (check_for_night_mode later
          (handle_temp_screen_wakeup_timeout local_hour s)).night_mode_active = false ∧
        (check_for_night_mode later
          (handle_temp_screen_wakeup_timeout local_hour s)).temp_screen_wakeup_active
            = false ∧
        ∀ (p : TS_Point) (data : IndevData),
          (touchscreen_read (some p)
            (check_for_night_mode later (handle_temp_screen_wakeup_timeout local_hour s))
            data).2.state = .PRESSED ∧
          (touchscreen_read (some p)
            (check_for_night_mode later (handle_temp_screen_wakeup_timeout local_hour s))
            data).1.temp_screen_wakeup_active = false) := by
  obtain ⟨hn, ht⟩ := h
  have hns : ∀ (lh : Option Int) (t : NightState), t.use_night_mode = s.use_night_mode →
      night_mode_should_be_active lh t = night_mode_should_be_active lh s := by
    intro lh t e
    unfold night_mode_should_be_active
    rw [e]
  cases hw : night_mode_should_be_active local_hour s with
  | true =>
    have hw' : night_mode_should_be_active local_hour
        { s with temp_screen_wakeup_active := false } = true := (hns _ _ rfl).trans hw
    refine ⟨?_, ?_, fun _ => ?_, ?_⟩
    rotate_left 3
    · intro hc; cases hc
    · unfold handle_temp_screen_wakeup_timeout
      simp only [ht, if_true, hw']
      split <;> rfl
    · unfold handle_temp_screen_wakeup_timeout
      simp only [ht, if_true, hw']
      split
      · rfl
      · rename_i hx
        simpa [activate_night_mode] using hx
    · unfold handle_temp_screen_wakeup_timeout
      simp only [ht, if_true, hw']
      split <;> exact ⟨rfl, rfl⟩
  | false =>
    have hw' : night_mode_should_be_active local_hour
        { s with temp_screen_wakeup_active := false } = false := (hns _ _ rfl).trans hw
    have hres : handle_temp_screen_wakeup_timeout local_hour s
        = { s with temp_screen_wakeup_active := false, temp_screen_wakeup_timer := none } := by
      unfold handle_temp_screen_wakeup_timeout
      simp only [ht, if_true, hw', Bool.false_eq_true, if_false]
      split
      · rfl
      · rename_i hx
        have : s.temp_screen_wakeup_timer = none := by simpa using hx
        simp [this]
    rw [hres]
    refine ⟨rfl, rfl, ?_, ?_⟩
    · intro hc; cases hc
    intro _
    refine ⟨rfl, rfl, ?_⟩
    intro later hl
    have hl' : night_mode_should_be_active later
        { s with temp_screen_wakeup_active := false, temp_screen_wakeup_timer := none }
          = false := (hns _ _ rfl).trans hl
    have hck : check_for_night_mode later
        { s with temp_screen_wakeup_active := false, temp_screen_wakeup_timer := none }
        = deactivate_night_mode
          { s with temp_screen_wakeup_active := false, temp_screen_wakeup_timer := none } := by
      unfold check_for_night_mode
      simp only [hl', Bool.false_and, Bool.false_eq_true, if_false, Bool.not_false,
        Bool.true_and]
      rw [if_pos hn]
    rw [hck]
    refine ⟨rfl, rfl, rfl, fun p data => ?_⟩
    simp [touchscreen_read, deactivate_night_mode]

/-- C25, amended, on the sample data: at hour 23 the timeout gives Dimmed; at hour 6 the
timeout followed by the check gives a lit display with night mode inactive. -/
theorem timeout_then_check_witness :
    TemporarilyAwake awake_state ∧
    night_mode_should_be_active (some 23) awake_state = true ∧
    (handle_temp_screen_wakeup_timeout (some 23) awake_state).backlight = 0 ∧
    Dimmed (handle_temp_screen_wakeup_timeout (some 23) awake_state) ∧
    (check_for_night_mode (some 6)
      (handle_temp_screen_wakeup_timeout (some 6) awake_state)).night_mode_active = false ∧
    (check_for_night_mode (some 6)
      (handle_temp_screen_wakeup_timeout (some 6) awake_state)).backlight = 200 :=
  ⟨by decide, by decide,
    ((timeout_then_check awake_state (some 23) (by decide)).2.2.1 (by decide)).1,
    by decide, by decide, by decide⟩

/-- With a temporary wake active the dimming check does not activate night mode. -/
theorem check_while_awake (s : NightState) (local_hour : Option Int)
    (ht : s.temp_screen_wakeup_active = true) :
    check_for_night_mode local_hour s = s ∨
      check_for_night_mode local_hour s = deactivate_night_mode s := by
  unfold check_for_night_mode
  simp only [ht, Bool.not_true, Bool.and_false, Bool.false_eq_true, if_false]
  split
  · exact Or.inr rfl
  · exact Or.inl rfl

theorem stored_getD_pos (stored : Option Nat) (h : ∀ v, stored = some v → 1 ≤ v ∧ v ≤ 255) :
    stored.getD 128 ≠ 0 := by
  cases stored with
  | none => decide
  | some v =>
    have := (h v rfl).1
    simp only [Option.getD_some]
    omega

/-- In every reachable state the wake flag is set exactly when a wake timer exists, and
the stored brightness, if any, is a value of the slider. -/
theorem night_invariant (s : NightState) (hr : NightReachable s) :
    (s.temp_screen_wakeup_active = true ↔ s.temp_screen_wakeup_timer.isSome = true) ∧
    ∀ v, s.prefs_brightness = some v → 1 ≤ v ∧ v ≤ 255 := by
  induction hr with
  | boot c stored u h => exact ⟨by simp [boot_night_state], h⟩
  | step s e _ he ih =>
    obtain ⟨ih1, ih2⟩ := ih
    cases e with
    | tick lh =>
      simp only [night_step, check_for_night_mode]
      split
      · exact ⟨ih1, ih2⟩
      · split
        · exact ⟨ih1, ih2⟩
        · exact ⟨ih1, ih2⟩
    | read touch =>
      cases touch with
      | none => exact ⟨ih1, ih2⟩
      | some p =>
        simp only [night_step, touchscreen_read]
        split
        · split <;> exact ⟨by simp, ih2⟩
        · exact ⟨ih1, ih2⟩
    | timeout lh =>
      have key : (handle_temp_screen_wakeup_timeout lh s).temp_screen_wakeup_active = false ∧
          (handle_temp_screen_wakeup_timeout lh s).temp_screen_wakeup_timer = none ∧
          (handle_temp_screen_wakeup_timeout lh s).prefs_brightness = s.prefs_brightness := by
        unfold handle_temp_screen_wakeup_timeout
        cases ht : s.temp_screen_wakeup_active
        · have hn : s.temp_screen_wakeup_timer = none := by
            cases hx : s.temp_screen_wakeup_timer with
            | none => rfl
            | some t =>
              have := ih1.mpr (by rw [hx]; rfl)
              rw [this] at ht; cases ht
          simp [ht, hn]
        · have hsome := ih1.mp ht
          cases hw : night_mode_should_be_active lh
              { s with temp_screen_wakeup_active := false } <;>
            simp [hw, hsome, activate_night_mode]
      refine ⟨?_, ?_⟩
      · simp only [night_step, key.1, key.2.1]
        simp
      · simp only [night_step, key.2.2]
        exact ih2
    | slider v =>
      refine ⟨ih1, ?_⟩
      intro w hw
      simp only [night_step, brightness_slider, Option.some.injEq] at hw
      subst hw
      exact he
    | night_switch b => exact ⟨ih1, ih2⟩
    | elapse ms =>
      refine ⟨?_, ih2⟩
      simp only [night_step, Option.isSome_map']
      exact ih1

/-- C30: with a temporary wake active `check_for_night_mode` never calls
`activate_night_mode`, whatever the local hour; in every reachable state the wake flag is
set exactly when a wake timer exists, and an event leaves the backlight at 0 only if it
was at 0 before, or the event is the per-second check with no wake active, or it is the
expiry of the wake timer. -/
theorem wake_blocks_dimming (s : NightState) (hr : NightReachable s) :
    (∀ (t : NightState) (local_hour : Option Int), t.temp_screen_wakeup_active = true →
      check_for_night_mode local_hour t = t ∨
        check_for_night_mode local_hour t = deactivate_night_mode t) ∧
    (∀ local_hour, s.temp_screen_wakeup_active = true →
      (check_for_night_mode local_hour s).backlight = 0 → s.backlight = 0) ∧
    (s.temp_screen_wakeup_active = true ↔ s.temp_screen_wakeup_timer.isSome = true) ∧
    ∀ e : NightEvent, night_enabled s e → (night_step s e).backlight = 0 →
      s.backlight = 0 ∨
      (∃ local_hour, e = .tick local_hour ∧ s.temp_screen_wakeup_active = false) ∨
      ∃ local_hour, e = .timeout local_hour := by
  obtain ⟨inv1, inv2⟩ := night_invariant s hr
  have hpos := stored_getD_pos s.prefs_brightness inv2
  have hcheck : ∀ local_hour, s.temp_screen_wakeup_active = true →
      (check_for_night_mode local_hour s).backlight = 0 → s.backlight = 0 := by
    intro lh ht h0
    rcases check_while_awake s lh ht with e | e
    · rw [e] at h0; exact h0
    · rw [e] at h0; exact absurd h0 hpos
  refine ⟨check_while_awake, hcheck, inv1, ?_⟩
  intro e he h0
  cases e with
  | tick lh =>
    cases ht : s.temp_screen_wakeup_active
    · exact Or.inr (Or.inl ⟨lh, rfl, rfl⟩)
    · exact Or.inl (hcheck lh ht h0)
  | read touch =>
    left
    cases touch with
    | none => exact h0
    | some p =>
      simp only [night_step, touchscreen_read] at h0
      split at h0
      · split at h0 <;> exact absurd h0 hpos
      · exact h0
  | timeout lh => exact Or.inr (Or.inr ⟨lh, rfl⟩)
  | slider v =>
    simp only [night_step, brightness_slider] at h0
    have := he.1
    omega
  | night_switch b => exact Or.inl h0
  | elapse ms => exact Or.inl h0

/-- C30, on the sample data: after boot with night mode on, a check at hour 23 dims the
display, a touch wakes it, and the check at hour 23 that follows leaves the backlight on. -/
theorem wake_blocks_dimming_witness :
    NightReachable (night_step (night_step (boot_night_state none none true)
      (.tick (some 23))) (.read (some ⟨1950, 2020, 500⟩))) ∧
    (night_step (boot_night_state none none true) (.tick (some 23))).backlight = 0 ∧
    (night_step (night_step (night_step (boot_night_state none none true)
      (.tick (some 23))) (.read (some ⟨1950, 2020, 500⟩))) (.tick (some 23))).backlight
      = 128 ∧
    ((night_step (night_step (boot_night_state none none true)
        (.tick (some 23))) (.read (some ⟨1950, 2020, 500⟩))).temp_screen_wakeup_active = true ↔
      (night_step (night_step (boot_night_state none none true)
        (.tick (some 23))) (.read (some ⟨1950, 2020, 500⟩))).temp_screen_wakeup_timer.isSome
        = true) :=
  have hr : NightReachable (night_step (night_step (boot_night_state none none true)
      (.tick (some 23))) (.read (some ⟨1950, 2020, 500⟩))) :=
    .step _ _ (.step _ _ (.boot none none true (fun _ h => by cases h)) trivial) trivial
  ⟨hr, by decide, by decide, (wake_blocks_dimming _ hr).2.2.1⟩

/-! ## Panels: theorems -/

theorem only_shows_iff (s : PanelState) (p : Panel) :
    s.only_shows p ↔
      (s.box_daily_hidden = decide (p ≠ .Daily) ∧ s.box_hourly_hidden = decide (p ≠ .Hourly) ∧
        s.box_transit_hidden = decide (p ≠ .Transit)) := by
  unfold PanelState.only_shows
  constructor
  · intro h
    have h1 := h .Daily
    have h2 := h .Hourly
    have h3 := h .Transit
    simp only [PanelState.shows] at h1 h2 h3
    cases p <;> cases hd : s.box_daily_hidden <;> cases hh : s.box_hourly_hidden <;>
      cases ht : s.box_transit_hidden <;> simp_all
  · rintro ⟨h1, h2, h3⟩ q
    cases p <;> cases q <;> simp_all [PanelState.shows]

/-- C16: from a state in which exactly one panel is visible, a tap runs the callback of
that panel and leaves exactly the next panel of the cycle visible: `daily_cb` shows
Hourly, `hourly_cb` shows Transit when `transit_enabled` and Daily otherwise, `transit_cb`
shows Daily. -/
theorem tap_advances (strings : LocalizedStrings) (env : TransitEnv) (s : PanelState)
    (p : Panel) (h : s.only_shows p) :
    (tap strings env s).only_shows (next_panel s.transit_enabled p) ∧
    (p = .Daily → tap strings env s = daily_cb strings s ∧
      (daily_cb strings s).only_shows .Hourly) ∧
    (p = .Hourly → tap strings env s = hourly_cb strings env s ∧
      (hourly_cb strings env s).only_shows
        (if s.transit_enabled then .Transit else .Daily)) ∧
    (p = .Transit → tap strings env s = transit_cb strings s ∧
      (transit_cb strings s).only_shows .Daily) ∧
    (tap strings env s).transit_enabled = s.transit_enabled := by
  rw [only_shows_iff] at h
  obtain ⟨h1, h2, h3⟩ := h
  cases p
  · have e : tap strings env s = daily_cb strings s := by
      simp [tap, h1, h2, h3]
    have o : (daily_cb strings s).only_shows .Hourly := by
      rw [only_shows_iff]; simp [daily_cb, h3]
    refine ⟨by rw [e]; exact o, fun _ => ⟨e, o⟩, fun c => Panel.noConfusion c,
      fun c => Panel.noConfusion c, ?_⟩
    rw [e]; rfl
  · have e : tap strings env s = hourly_cb strings env s := by
      simp [tap, h1, h2, h3]
    have o : (hourly_cb strings env s).only_shows
        (if s.transit_enabled then .Transit else .Daily) := by
      rw [only_shows_iff]
      cases ht : s.transit_enabled <;> simp [hourly_cb, ht, h1, h3]
    have t : (hourly_cb strings env s).transit_enabled = s.transit_enabled := by
      cases ht : s.transit_enabled <;> simp [hourly_cb, ht]
    refine ⟨?_, fun c => Panel.noConfusion c, fun _ => ⟨e, o⟩, fun c => Panel.noConfusion c, by rw [e]; exact t⟩
    rw [e]
    cases ht : s.transit_enabled <;> simpa [next_panel, ht] using o
  · have e : tap strings env s = transit_cb strings s := by
      simp [tap, h3]
    have o : (transit_cb strings s).only_shows .Daily := by
      rw [only_shows_iff]; simp [transit_cb, h2]
    refine ⟨by rw [e]; exact o, fun c => Panel.noConfusion c, fun c => Panel.noConfusion c, fun _ => ⟨e, o⟩, ?_⟩
    rw [e]; rfl

/-- Sample data: a panel state before `setup()`. -/
def blank_panels : PanelState := ⟨true, true, true, [], 0, false, empty_state⟩

/-- Sample data: the panel state after boot with no transit ID configured. -/
def boot_without_transit : PanelState :=
  boot_panel_state sample_strings (fun _ => []) [] (fun _ => none) none blank_panels

/-- Sample data: the panel state after boot with a tube station configured. -/
def boot_with_transit : PanelState :=
  boot_panel_state sample_strings (fun _ => []) (lit "940GZZLUKSX") (fun _ => none) none
    blank_panels

instance (s : PanelState) (p : Panel) : Decidable (s.only_shows p) :=
  decidable_of_iff _ (only_shows_iff s p).symm

/-- C16, on the sample data: after boot only Daily is visible; one tap shows Hourly, a
second one Transit with transit enabled and Daily without, a third one Daily. -/
theorem tap_advances_witness :
    boot_with_transit.only_shows .Daily ∧
    (tap sample_strings failing_env boot_with_transit).only_shows .Hourly ∧
    (tap sample_strings failing_env
      (tap sample_strings failing_env boot_with_transit)).only_shows .Transit ∧
    (tap sample_strings failing_env (tap sample_strings failing_env
      (tap sample_strings failing_env boot_with_transit))).only_shows .Daily ∧
    (tap sample_strings failing_env
      (tap sample_strings failing_env boot_without_transit)).only_shows .Daily :=
  ⟨by decide,
    (tap_advances sample_strings failing_env boot_with_transit .Daily (by decide)).1,
    by decide, by decide, by decide⟩

/-- C17, the code at the failing input: after boot without transit (Daily visible,
`current_panel` 0) a tap shows Hourly and leaves `current_panel` at 0; the rotation tick
that follows sets `current_panel` to 1 and shows Hourly again, not Daily. With transit
enabled, two taps show Transit and the tick then shows Hourly, not Daily. -/
theorem rotation_ignores_taps :
    PanelReachable sample_strings (tap sample_strings failing_env boot_without_transit) ∧
    (tap sample_strings failing_env boot_without_transit).only_shows .Hourly ∧
    (tap sample_strings failing_env boot_without_transit).current_panel = 0 ∧
    (rotate_to_next_panel sample_strings failing_env
      (tap sample_strings failing_env boot_without_transit)).only_shows .Hourly ∧
    next_panel false .Hourly = .Daily ∧
    (tap sample_strings failing_env
      (tap sample_strings failing_env boot_with_transit)).only_shows .Transit ∧
    (rotate_to_next_panel sample_strings failing_env
      (tap sample_strings failing_env
        (tap sample_strings failing_env boot_with_transit))).only_shows .Hourly ∧
    next_panel true .Transit = .Daily :=
  ⟨.step _ (.tap failing_env) (.boot _ _ _ _ _), by decide, by decide, by decide, by decide,
    by decide, by decide, by decide⟩

theorem fetch_tfl_ids (strings : LocalizedStrings) (env : TransitEnv) (t : TransitState) :
    (fetch_tfl_arrivals strings env t).bus_stop_ids = t.bus_stop_ids ∧
    (fetch_tfl_arrivals strings env t).tube_station_id = t.tube_station_id := by
  rw [fetch_tfl_eq]
  exact ⟨(utd_frame strings _).2.2.2.2.1.trans (fetched_ids env t).1,
    (utd_frame strings _).2.2.2.2.2.trans (fetched_ids env t).2⟩

/-- The flag `transit_enabled` agrees with the configured IDs. -/
def flag_agrees (s : PanelState) : Prop :=
  s.transit_enabled
    = (any_bus_stop_configured s.transit || decide (0 < s.transit.tube_station_id.length))

theorem flag_agrees_of_ids (s t : PanelState) (h : flag_agrees s)
    (he : t.transit_enabled = s.transit_enabled)
    (hb : t.transit.bus_stop_ids = s.transit.bus_stop_ids)
    (hu : t.transit.tube_station_id = s.transit.tube_station_id) : flag_agrees t := by
  unfold flag_agrees at h ⊢
  rw [he, h, any_bus_stop_configured_congr s.transit t.transit hb, hu]

theorem flag_agrees_tap (strings : LocalizedStrings) (env : TransitEnv) (s : PanelState)
    (h : flag_agrees s) : flag_agrees (tap strings env s) := by
  unfold tap
  split
  · exact flag_agrees_of_ids s _ h rfl rfl rfl
  · split
    · unfold hourly_cb
      simp only []
      split
      · exact flag_agrees_of_ids s _ h rfl (fetch_tfl_ids strings env _).1
          (fetch_tfl_ids strings env _).2
      · exact flag_agrees_of_ids s _ h rfl rfl rfl
    · split
      · exact flag_agrees_of_ids s _ h rfl rfl rfl
      · exact h

theorem flag_agrees_rotate (strings : LocalizedStrings) (env : TransitEnv) (s : PanelState)
    (h : flag_agrees s) : flag_agrees (rotate_to_next_panel strings env s) := by
  unfold rotate_to_next_panel
  simp only []
  split
  · exact flag_agrees_of_ids s _ h rfl rfl rfl
  · exact flag_agrees_of_ids s _ h rfl rfl rfl
  · exact flag_agrees_of_ids s _ h rfl (fetch_tfl_ids strings env _).1
      (fetch_tfl_ids strings env _).2
  · exact flag_agrees_of_ids s _ h rfl rfl rfl

theorem flag_agrees_save (strings : LocalizedStrings) (env : TransitEnv)
    (bus_text : Nat → CStr) (tube_id : CStr) (s : PanelState) :
    flag_agrees (transit_save_event_cb strings env bus_text tube_id s) := by
  unfold transit_save_event_cb
  simp only []
  generalize List.foldl _ s (List.range MAX_BUS_STOPS) = s1
  split
  · unfold flag_agrees
    simp only []
    rw [any_bus_stop_configured_congr _ _ (fetch_tfl_ids strings env _).1,
      (fetch_tfl_ids strings env _).2]
  · rfl

theorem flag_agrees_boot (strings : LocalizedStrings) (config_bus : Nat → CStr)
    (config_tube : CStr) (stored_bus : Nat → Option CStr) (stored_tube : Option CStr)
    (s : PanelState) :
    flag_agrees (boot_panel_state strings config_bus config_tube stored_bus stored_tube s) :=
  rfl

theorem flag_agrees_reachable (strings : LocalizedStrings) (s : PanelState)
    (hr : PanelReachable strings s) : flag_agrees s := by
  induction hr with
  | boot cb ct sb st s0 => exact flag_agrees_boot strings cb ct sb st s0
  | step s e _ ih =>
    cases e with
    | tap env => exact flag_agrees_tap strings env s ih
    | rotate env => exact flag_agrees_rotate strings env s ih
    | save env bus_text tube_id => exact flag_agrees_save strings env bus_text tube_id s

/-- C21: in every state reachable from boot (preference loading in `setup`) by
transit-settings saves, taps and rotation ticks, `transit_enabled` is true if and only if
one of the three bus stop IDs or the tube station ID is a non-empty string. -/
theorem transit_enabled_iff (strings : LocalizedStrings) (s : PanelState)
    (hr : PanelReachable strings s) :
    s.transit_enabled = true ↔
      (∃ i, i < 3 ∧ s.transit.bus_stop_ids i ≠ []) ∨ s.transit.tube_station_id ≠ [] := by
  rw [flag_agrees_reachable strings s hr]
  simp only [Bool.or_eq_true, decide_eq_true_eq, any_bus_stop_configured, List.any_eq_true,
    List.mem_range, MAX_BUS_STOPS, List.length_pos]

/-- C21, on the sample data: after boot with only a tube station configured the flag is
set; after a save that clears every ID it is clear. -/
theorem transit_enabled_iff_witness :
    PanelReachable sample_strings boot_with_transit ∧
    boot_with_transit.transit_enabled = true ∧
    (transit_save_event_cb sample_strings failing_env (fun _ => []) []
      boot_with_transit).transit_enabled = false ∧
    (boot_with_transit.transit_enabled = true ↔
      (∃ i, i < 3 ∧ boot_with_transit.transit.bus_stop_ids i ≠ []) ∨
        boot_with_transit.transit.tube_station_id ≠ []) :=
  ⟨.boot _ _ _ _ _, by decide, by decide,
    transit_enabled_iff sample_strings boot_with_transit (.boot _ _ _ _ _)⟩

/-! ## Transit rows and the bus pool: theorems -/

/-- The specification's formatted row of an arrival, before any truncation: line, arrow,
destination, colon, and the Due text for less than a minute or the minutes otherwise. -/
def row_format (strings : LocalizedStrings) (a : ArrivalInfo) : CStr :=
  a.line ++ lit " " ++ arrow ++ lit " " ++ a.destination ++ lit ": " ++
    (if a.timeToStation < 60 then strings.due
      else fmt_d (a.timeToStation.tdiv 60) ++ lit " " ++ strings.mins)

/-- The specification's truncation of a row to the display width: a text of at most 35
bytes is kept, a longer one is cut to its first 32 bytes followed by "...". -/
def display_cut (text : CStr) : CStr :=
  if text.length ≤ 35 then text else text.take 32 ++ lit "..."

theorem tdiv_60_le_zero (s : Int) : s.tdiv 60 ≤ 0 ↔ s < 60 := by
  rcases Int.le_total 0 s with h | h
  · rw [Int.tdiv_eq_ediv h (by decide)]; omega
  · have : s.tdiv 60 = -((-s) / 60) := by
      rw [← Int.tdiv_eq_ediv (by omega) (by decide), Int.neg_tdiv, Int.neg_neg]
    rw [this]; omega

theorem arrival_row_eq (strings : LocalizedStrings) (a : ArrivalInfo) :
    arrival_row strings a
      = (if (snprintf 64 (row_format strings a)).length > 35
          then (snprintf 64 (row_format strings a)).take 32 ++ lit "..."
          else snprintf 64 (row_format strings a)) := by
  unfold arrival_row row_format
  simp only []
  by_cases h : a.timeToStation < 60
  · have h' : a.timeToStation.tdiv 60 ≤ 0 := (tdiv_60_le_zero _).mpr h
    simp only [h, h', if_true]
  · have h' : ¬ a.timeToStation.tdiv 60 ≤ 0 := fun c => h ((tdiv_60_le_zero _).mp c)
    simp only [h, h', if_false, List.append_assoc]

/-- C18: for every arrival with `timeToStation` s, the minutes are `s / 60` (truncating);
they are at most 0 exactly when `s < 60`, negative values included, and the row is built
from the Due text in that case and from the decimal of `s / 60` followed by the minutes
text otherwise. -/
theorem row_time_part (strings : LocalizedStrings) (a : ArrivalInfo) :
    (a.timeToStation.tdiv 60 ≤ 0 ↔ a.timeToStation < 60) ∧
    (a.timeToStation < 60 →
      row_format strings a
        = a.line ++ lit " " ++ arrow ++ lit " " ++ a.destination ++ lit ": "
          ++ strings.due) ∧
    (60 ≤ a.timeToStation →
      row_format strings a
        = a.line ++ lit " " ++ arrow ++ lit " " ++ a.destination ++ lit ": "
          ++ (fmt_d (a.timeToStation / 60) ++ lit " " ++ strings.mins)) ∧
    arrival_row strings a
      = (if (snprintf 64 (row_format strings a)).length > 35
          then (snprintf 64 (row_format strings a)).take 32 ++ lit "..."
          else snprintf 64 (row_format strings a)) := by
  refine ⟨tdiv_60_le_zero _, ?_, ?_, arrival_row_eq strings a⟩
  · intro h
    simp only [row_format, h, if_true]
  · intro h
    have h' : ¬ a.timeToStation < 60 := by omega
    simp only [row_format, h', if_false]
    rw [Int.tdiv_eq_ediv (by omega) (by decide)]

/-- C18, on the arrivals of the specification: 30 s is shown as Due, 120 s as "2 mins", and
-5 s as Due. -/
theorem row_time_part_witness :
    arrival_row sample_strings ⟨lit "73", lit "Oxford Circus", 30⟩
      = lit "73 " ++ arrow ++ lit " Oxford Circus: Due" ∧
    arrival_row sample_strings ⟨lit "73", lit "Oxford Circus", 120⟩
      = lit "73 " ++ arrow ++ lit " Oxford Circus: 2 mins" ∧
    arrival_row sample_strings ⟨lit "73", lit "Oxford Circus", -5⟩
      = lit "73 " ++ arrow ++ lit " Oxford Circus: Due" ∧
    row_format sample_strings ⟨lit "73", lit "Oxford Circus", 120⟩
      = lit "73" ++ lit " " ++ arrow ++ lit " " ++ lit "Oxford Circus" ++ lit ": "
        ++ (fmt_d (120 / 60) ++ lit " " ++ sample_strings.mins) :=
  ⟨by decide, by decide, by decide,
    (row_time_part sample_strings ⟨lit "73", lit "Oxford Circus", 120⟩).2.2.1 (by decide)⟩

/-- C19: the text shown for an arrival has at most 35 bytes: a formatted row of at most 35
bytes is shown unchanged, a longer one is shown as its first 32 bytes followed by "...",
35 bytes in all. -/
theorem row_width (strings : LocalizedStrings) (a : ArrivalInfo) :
    (arrival_row strings a).length ≤ 35 ∧
    arrival_row strings a = display_cut (row_format strings a) ∧
    ((row_format strings a).length ≤ 35 → arrival_row strings a = row_format strings a) ∧
    (35 < (row_format strings a).length →
      arrival_row strings a = (row_format strings a).take 32 ++ lit "..." ∧
      (arrival_row strings a).length = 35) := by
  have hrow := arrival_row_eq strings a
  generalize row_format strings a = text at hrow ⊢
  have hcut : arrival_row strings a = display_cut text := by
    rw [hrow]
    unfold display_cut snprintf
    by_cases h : text.length ≤ 35
    · have h1 : text.take (64 - 1) = text := List.take_of_length_le (by omega)
      rw [h1]
      simp only [h, if_true]
      rw [if_neg (by omega)]
    · have h1 : (text.take (64 - 1)).length > 35 := by
        rw [List.length_take]; omega
      simp only [h, if_false, h1, if_true, List.take_take]
      rfl
  refine ⟨?_, hcut, ?_, ?_⟩
  · rw [hcut]
    unfold display_cut
    split
    · assumption
    · simp only [List.length_append, List.length_take, lit]
      have : "...".toList.length = 3 := rfl
      omega
  · intro h
    rw [hcut]
    simp only [display_cut, h, if_true]
  · intro h
    have h' : ¬ text.length ≤ 35 := by omega
    rw [hcut]
    simp only [display_cut, h', if_false, true_and]
    simp only [List.length_append, List.length_take, lit]
    have : "...".toList.length = 3 := rfl
    omega

/-- C19, on sample arrivals: a short row is shown as it is, a long one is cut to 35
bytes. -/
theorem row_width_witness :
    (row_format sample_strings ⟨lit "73", lit "Oxford Circus", 120⟩).length ≤ 35 ∧
    arrival_row sample_strings ⟨lit "73", lit "Oxford Circus", 120⟩
      = row_format sample_strings ⟨lit "73", lit "Oxford Circus", 120⟩ ∧
    35 < (row_format sample_strings
      ⟨lit "N207", lit "Holborn, Red Lion Square / Procter", 600⟩).length ∧
    arrival_row sample_strings ⟨lit "N207", lit "Holborn, Red Lion Square / Procter", 600⟩
      = lit "N207 " ++ arrow ++ lit " Holborn, Red Lion Squar..." ∧
    (arrival_row sample_strings
      ⟨lit "N207", lit "Holborn, Red Lion Square / Procter", 600⟩).length = 35 :=
  ⟨by decide,
    (row_width sample_strings ⟨lit "73", lit "Oxford Circus", 120⟩).2.2.1 (by decide),
    by decide, by decide,
    ((row_width sample_strings
      ⟨lit "N207", lit "Holborn, Red Lion Square / Procter", 600⟩).2.2.2 (by decide)).2⟩

/-- The specification's arrivals of one bus stop: nothing for a stop that is not configured
or whose request or parse fails, else the first at most 10 elements of its response. -/
def stop_arrivals (env : TransitEnv) (s : TransitState) (stop : Nat) : List JsonArrival :=
  if (s.bus_stop_ids stop).length = 0 then []
  else
    match env.bus_response stop with
    | .ok arrivals => arrivals.take 10
    | .badJson => []
    | .failed => []

/-- The specification's reading of a pool slot: slot `e` holds the arrival `a` when its
time is that of `a` (0 for an absent member), and its line and destination are those of
`a` ("?" for an absent member) within the 15 and 31 bytes that the fields take: equal on
these bytes, and equal altogether for a name that is shorter. -/
def holds_arrival (e : ArrivalInfo) (a : JsonArrival) : Prop :=
  e.timeToStation = a.timeToStation.getD 0 ∧
  e.line.take 15 = (a.lineName.getD (lit "?")).take 15 ∧
  ((a.lineName.getD (lit "?")).length < 15 → e.line = a.lineName.getD (lit "?")) ∧
  e.destination.take 31 = (a.destinationName.getD (lit "?")).take 31 ∧
  ((a.destinationName.getD (lit "?")).length < 31 →
    e.destination = a.destinationName.getD (lit "?"))

theorem strncpy_uninit_take (rest src : CStr) (n : Nat) :
    (strncpy_uninit rest src n).take n = src.take n ∧
    (src.length < n → strncpy_uninit rest src n = src) := by
  unfold strncpy_uninit
  split
  · exact ⟨rfl, fun _ => rfl⟩
  · rename_i h
    refine ⟨?_, fun h' => absurd h' h⟩
    rw [List.take_append_of_le_length (by rw [List.length_take]; omega), List.take_take,
      Nat.min_self]

theorem bus_info_holds (rest : CStr × CStr) (a : JsonArrival) :
    holds_arrival (bus_info rest a) a :=
  ⟨rfl, (strncpy_uninit_take _ _ _).1, (strncpy_uninit_take _ _ _).2,
    (strncpy_uninit_take _ _ _).1, (strncpy_uninit_take _ _ _).2⟩

theorem pool_entries (env : TransitEnv) (arrivals : List JsonArrival)
    (all : List ArrivalInfo) (k : Nat) (h : all.length + k ≤ 30) :
    (List.range k).foldl (pool_entry env arrivals) all
      = all ++ (List.range k).map (fun i =>
          bus_info (env.all_arrivals_rest (all.length + i))
            (arrivals[i]?.getD JsonArrival.null)) := by
  induction k with
  | zero => simp
  | succ k ih =>
    rw [List.range_succ, List.foldl_append, ih (by omega), List.map_append, ← List.append_assoc]
    simp only [List.foldl_cons, List.foldl_nil, List.map_cons, List.map_nil]
    unfold pool_entry
    rw [if_pos (by simp only [List.length_append, List.length_map, List.length_range]; omega)]
    simp only [List.length_append, List.length_map, List.length_range]

theorem pool_slots_hold (rest : Nat → CStr × CStr) (arrivals : List JsonArrival) (n : Nat) :
    List.Forall₂ holds_arrival
      ((List.range (min arrivals.length 10)).map (fun i =>
        bus_info (rest (n + i)) (arrivals[i]?.getD JsonArrival.null)))
      (arrivals.take 10) := by
  rw [List.forall₂_iff_get]
  refine ⟨by simp [Nat.min_comm], ?_⟩
  intro i h1 h2
  have hi : i < arrivals.length := by
    rw [List.length_take] at h2
    exact lt_of_lt_of_le h2 (Nat.min_le_right _ _)
  simp only [List.get_eq_getElem, List.getElem_map, List.getElem_range, List.getElem_take,
    List.getElem?_eq_getElem hi, Option.getD_some]
  exact bus_info_holds _ _

theorem pool_stop_holds (env : TransitEnv) (s : TransitState) (all : List ArrivalInfo)
    (before : List JsonArrival) (stop : Nat) (h : all.length ≤ 20)
    (hall : List.Forall₂ holds_arrival all before) :
    List.Forall₂ holds_arrival (pool_stop env s all stop)
      (before ++ stop_arrivals env s stop) := by
  unfold pool_stop stop_arrivals
  split
  · simpa using hall
  · cases hr : env.bus_response stop with
    | ok arrivals =>
      simp only []
      rw [pool_entries env arrivals all _ (by omega)]
      exact List.rel_append hall (pool_slots_hold _ arrivals _)
    | badJson => simpa using hall
    | failed => simpa using hall

theorem stop_arrivals_length (env : TransitEnv) (s : TransitState) (stop : Nat) :
    (stop_arrivals env s stop).length ≤ 10 := by
  unfold stop_arrivals
  split
  · simp
  · split <;> simp

theorem bus_pool_holds (env : TransitEnv) (s : TransitState) :
    List.Forall₂ holds_arrival (bus_pool env s)
      (stop_arrivals env s 0 ++ stop_arrivals env s 1 ++ stop_arrivals env s 2) := by
  have l0 := stop_arrivals_length env s 0
  have l1 := stop_arrivals_length env s 1
  simp only [bus_pool, show List.range MAX_BUS_STOPS = [0, 1, 2] from rfl, List.foldl_cons,
    List.foldl_nil]
  have h0 := pool_stop_holds env s [] [] 0 (by simp) List.Forall₂.nil
  rw [List.nil_append] at h0
  have h1 := pool_stop_holds env s _ _ 1 (by rw [h0.length_eq]; omega) h0
  exact pool_stop_holds env s _ _ 2
    (by rw [h1.length_eq, List.length_append]; omega) h1

theorem pool_stop_unconfigured (env : TransitEnv) (s : TransitState) (stop : Nat)
    (hfail : env.bus_response stop = .failed ∨ env.bus_response stop = .badJson)
    (all : List ArrivalInfo) (i : Nat) :
    pool_stop env { s with bus_stop_ids := Function.update s.bus_stop_ids stop [] } all i
      = pool_stop env s all i := by
  by_cases hi : i = stop
  · subst hi
    rw [pool_stop_failed env s all i (fun _ => hfail)]
    simp [pool_stop]
  · simp [pool_stop, Function.update_noteq hi]

/-- C23: for every configuration and every outcome of the three requests, the pooled bus
list holds, slot by slot and in stop order, the first at most 10 arrivals of each
configured stop that succeeded, at most 30 in all; a stop that is not configured or that
fails contributes nothing, and with a failing stop the pool is the one obtained with that
stop left unconfigured. -/
theorem pool_per_stop (env : TransitEnv) (s : TransitState) :
    List.Forall₂ holds_arrival (bus_pool env s)
      (stop_arrivals env s 0 ++ stop_arrivals env s 1 ++ stop_arrivals env s 2) ∧
    (bus_pool env s).length
      = (stop_arrivals env s 0).length + (stop_arrivals env s 1).length
        + (stop_arrivals env s 2).length ∧
    (bus_pool env s).length ≤ 30 ∧
    (∀ stop arrivals, (s.bus_stop_ids stop).length ≠ 0 →
      env.bus_response stop = .ok arrivals →
      stop_arrivals env s stop = arrivals.take 10 ∧ (stop_arrivals env s stop).length ≤ 10) ∧
    (∀ stop, (s.bus_stop_ids stop).length = 0 → stop_arrivals env s stop = []) ∧
    ∀ stop, env.bus_response stop = .failed ∨ env.bus_response stop = .badJson →
      stop_arrivals env s stop = [] ∧
      (∀ i, i ≠ stop →
        stop_arrivals env
            { s with bus_stop_ids := Function.update s.bus_stop_ids stop [] } i
          = stop_arrivals env s i) ∧
      bus_pool env s
        = bus_pool env { s with bus_stop_ids := Function.update s.bus_stop_ids stop [] } := by
  refine ⟨bus_pool_holds env s, ?_, bus_pool_length env s, ?_, ?_, ?_⟩
  · rw [(bus_pool_holds env s).length_eq, List.length_append, List.length_append]
  · intro stop arrivals hne hok
    refine ⟨?_, stop_arrivals_length env s stop⟩
    simp [stop_arrivals, hne, hok]
  · intro stop h0
    simp [stop_arrivals, h0]
  · intro stop hfail
    refine ⟨?_, ?_, ?_⟩
    · unfold stop_arrivals
      split
      · rfl
      · rcases hfail with e | e <;> rw [e]
    · intro i hi
      simp [stop_arrivals, Function.update_noteq hi]
    · simp only [bus_pool, show List.range MAX_BUS_STOPS = [0, 1, 2] from rfl, List.foldl_cons,
        List.foldl_nil]
      rw [pool_stop_unconfigured env s stop hfail, pool_stop_unconfigured env s stop hfail,
        pool_stop_unconfigured env s stop hfail]

/-- Sample data: stop 0 answers with two arrivals, the second with a line name of 16
bytes; stop 1 fails; stop 2 answers with one arrival. The last byte of the `line` field
of each uninitialised slot holds `#`, so that the string read from a full `line` field
runs on through this byte into the `destination` field that follows it. -/
def mixed_env : TransitEnv where
  wifi_connected := true
  bus_response := fun stop =>
    if stop = 0 then
      .ok [sample_arrival 120,
        ⟨some (lit "Rail-Replacement"), some (lit "Oxford Circus"), none, some 30⟩]
    else if stop = 1 then .failed
    else .ok [sample_arrival 60]
  tube_response := .failed
  all_arrivals_rest := fun _ => (lit "#Oxford Circus", [])

/-- Sample data: three bus stops are configured. -/
def three_stops : TransitState :=
  { empty_state with bus_stop_ids := fun _ => lit "490008660N" }

/-- C23, on the sample data: with stop 1 failing the pool holds the two arrivals of stop 0
and then that of stop 2; the line name of 16 bytes is held by its first 15 bytes, and the
string read from the field goes on with the bytes that follow them; the pool is that of
the state with stop 1 left unconfigured. -/
theorem pool_per_stop_witness :
    mixed_env.bus_response 1 = .failed ∧
    bus_pool mixed_env three_stops
      = [⟨lit "73", lit "Oxford Circus", 120⟩,
         ⟨lit "Rail-Replacemen#Oxford Circus", lit "Oxford Circus", 30⟩,
         ⟨lit "73", lit "Oxford Circus", 60⟩] ∧
    stop_arrivals mixed_env three_stops 0 ++ stop_arrivals mixed_env three_stops 1
        ++ stop_arrivals mixed_env three_stops 2
      = [sample_arrival 120,
         ⟨some (lit "Rail-Replacement"), some (lit "Oxford Circus"), none, some 30⟩,
         sample_arrival 60] ∧
    stop_arrivals mixed_env three_stops 1 = [] ∧
    bus_pool mixed_env three_stops
      = bus_pool mixed_env
          { three_stops with bus_stop_ids := Function.update three_stops.bus_stop_ids 1 [] } :=
  ⟨rfl, by decide, by decide,
    ((pool_per_stop mixed_env three_stops).2.2.2.2.2 1 (Or.inl rfl)).1,
    ((pool_per_stop mixed_env three_stops).2.2.2.2.2 1 (Or.inl rfl)).2.2⟩

/-! ## `urlencode`: theorems -/

theorem fmt_02X_eq : ∀ n, n < 256 → fmt_02X n = [hex_digit (n / 16), hex_digit (n % 16)] := by
  decide

theorem hex_value_digit : ∀ a, a < 16 → hex_value (hex_digit a) = a ∧
    is_unreserved (hex_digit a) = true := by
  decide

theorem unsigned_char_lt (c : Char) : unsigned_char c < 256 :=
  Nat.mod_lt _ (by decide)

theorem urlencode_step (c : Char) (encoded : CStr) :
    (if is_unreserved c = true then encoded ++ [c]
      else encoded ++ ('%' :: fmt_02X (unsigned_char c)))
      = encoded ++ percent_piece c := by
  unfold percent_piece
  split
  · rfl
  · rw [fmt_02X_eq _ (unsigned_char_lt c)]

theorem urlencode_foldl (s : CStr) (encoded : CStr) :
    s.foldl
      (fun encoded c =>
        if is_unreserved c then encoded ++ [c]
        else encoded ++ ('%' :: fmt_02X (unsigned_char c))) encoded
      = encoded ++ s.flatMap percent_piece := by
  induction s generalizing encoded with
  | nil => simp
  | cons c s ih =>
    rw [List.foldl_cons, urlencode_step, ih, List.flatMap_cons, List.append_assoc]

/-- The output of `urlencode` is the concatenation of the pieces of the input bytes. -/
theorem urlencode_eq (s : CStr) : urlencode s = s.flatMap percent_piece := by
  unfold urlencode
  rw [urlencode_foldl, List.nil_append]

theorem urlencode_cons (c : Char) (s : CStr) :
    urlencode (c :: s) = percent_piece c ++ urlencode s := by
  rw [urlencode_eq, urlencode_eq, List.flatMap_cons]

theorem percent_piece_length (c : Char) :
    (percent_piece c).length = 1 + 2 * (if is_unreserved c then 0 else 1) := by
  unfold percent_piece
  split <;> rfl

theorem urlencode_length (s : CStr) :
    (urlencode s).length = s.length + 2 * (s.filter (fun c => !is_unreserved c)).length := by
  induction s with
  | nil => rfl
  | cons c s ih =>
    rw [urlencode_cons, List.length_append, ih, percent_piece_length, List.filter_cons]
    cases h : is_unreserved c <;> simp <;> omega

/-- C20: `urlencode` returns the concatenation, in order, of one piece per input byte: the
byte itself if it is unreserved, otherwise `%` and the two uppercase hexadecimal digits of
its unsigned value (high digit, low digit); the output holds only unreserved characters
and `%`, and its length is the input length plus twice the number of bytes that are not
unreserved. -/
theorem urlencode_pieces (s : CStr) :
    urlencode s = s.flatMap percent_piece ∧
    (∀ c, is_unreserved c = true → percent_piece c = [c]) ∧
    (∀ c, is_unreserved c = false →
      ∃ a b, a < 16 ∧ b < 16 ∧ 16 * a + b = unsigned_char c ∧ unsigned_char c < 256 ∧
        percent_piece c = ['%', hex_digit a, hex_digit b] ∧
        hex_value (hex_digit a) = a ∧ hex_value (hex_digit b) = b) ∧
    (urlencode s).length = s.length + 2 * (s.filter (fun c => !is_unreserved c)).length ∧
    ∀ c ∈ urlencode s, is_unreserved c = true ∨ c = '%' := by
  refine ⟨urlencode_eq s, ?_, ?_, urlencode_length s, ?_⟩
  · intro c h
    simp [percent_piece, h]
  · intro c h
    have hlt := unsigned_char_lt c
    refine ⟨unsigned_char c / 16, unsigned_char c % 16, by omega, by omega, by omega, hlt, ?_,
      (hex_value_digit _ (by omega)).1, (hex_value_digit _ (by omega)).1⟩
    simp [percent_piece, h]
  · intro c hc
    rw [urlencode_eq, List.mem_flatMap] at hc
    obtain ⟨x, -, hx⟩ := hc
    unfold percent_piece at hx
    split at hx
    · rename_i hu
      simp only [List.mem_singleton] at hx
      subst hx
      exact Or.inl hu
    · have hlt := unsigned_char_lt x
      simp only [List.mem_cons, List.mem_singleton, List.not_mem_nil, or_false] at hx
      rcases hx with rfl | rfl | rfl
      · exact Or.inr rfl
      · exact Or.inl (hex_value_digit _ (by omega)).2
      · exact Or.inl (hex_value_digit _ (by omega)).2

/-- C20, on a sample text: "a b/é" (the last character as the two bytes C3 A9) is encoded
as "a%20b%2F%C3%A9". -/
theorem urlencode_pieces_witness :
    urlencode (lit "a b/" ++ ['\xC3', '\xA9']) = lit "a%20b%2F%C3%A9" ∧
    urlencode (lit "Az09-_.~") = lit "Az09-_.~" ∧
    (urlencode (lit "a b/" ++ ['\xC3', '\xA9'])).length
      = (lit "a b/" ++ ['\xC3', '\xA9']).length
        + 2 * ((lit "a b/" ++ ['\xC3', '\xA9']).filter (fun c => !is_unreserved c)).length :=
  ⟨by decide, by decide, (urlencode_pieces (lit "a b/" ++ ['\xC3', '\xA9'])).2.2.2.1⟩

theorem percent_decode_cons (c : Char) (r : CStr) (h : c ≠ '%') :
    percent_decode (c :: r) = c :: percent_decode r := by
  match r with
  | [] => simp [percent_decode, h]
  | [a] => simp [percent_decode, h]
  | a :: b :: r => simp [percent_decode, h]

theorem unreserved_ne_percent (c : Char) (h : is_unreserved c = true) : c ≠ '%' := by
  rintro rfl
  revert h
  decide

theorem percent_decode_piece (c : Char) (r : CStr) (hc : c.toNat < 256) :
    percent_decode (percent_piece c ++ r) = c :: percent_decode r := by
  unfold percent_piece
  split
  · rename_i hu
    exact percent_decode_cons c r (unreserved_ne_percent c hu)
  · have hlt := unsigned_char_lt c
    have h1 := (hex_value_digit (unsigned_char c / 16) (by omega)).1
    have h2 := (hex_value_digit (unsigned_char c % 16) (by omega)).1
    simp only [List.cons_append, List.nil_append, percent_decode, h1, h2]
    have : unsigned_char c / 16 * 16 + unsigned_char c % 16 = c.toNat := by
      unfold unsigned_char at *
      omega
    rw [this, Char.ofNat_toNat]
    rfl

theorem percent_decode_urlencode (s : CStr) (h : is_byte_string s) :
    percent_decode (urlencode s) = s := by
  induction s with
  | nil => rfl
  | cons c s ih =>
    rw [urlencode_cons, percent_decode_piece c _ (h c (List.mem_cons_self _ _)),
      ih (fun x hx => h x (List.mem_cons_of_mem _ hx))]

/-- C28: percent-encoding is lossless on strings of bytes: decoding `urlencode s` gives
`s` back, so `urlencode` is injective; and `urlencode s` is `s` itself exactly when every
byte of `s` is unreserved. -/
theorem urlencode_lossless (s : CStr) (h : is_byte_string s) :
    percent_decode (urlencode s) = s ∧
    (∀ t : CStr, is_byte_string t → urlencode s = urlencode t → s = t) ∧
    (urlencode s = s ↔ ∀ c ∈ s, is_unreserved c = true) := by
  refine ⟨percent_decode_urlencode s h, ?_, ?_⟩
  · intro t ht e
    rw [← percent_decode_urlencode s h, e, percent_decode_urlencode t ht]
  · constructor
    · intro e c hc
      have hl := urlencode_length s
      rw [e] at hl
      have h0 : (s.filter (fun c => !is_unreserved c)).length = 0 := by omega
      have hnil := List.length_eq_zero.mp h0
      cases hu : is_unreserved c with
      | true => rfl
      | false =>
        have : c ∈ s.filter (fun c => !is_unreserved c) :=
          List.mem_filter.mpr ⟨hc, by simp [hu]⟩
        rw [hnil] at this
        cases this
    · intro hall
      clear h
      induction s with
      | nil => rfl
      | cons c s ih =>
        rw [urlencode_cons, ih (fun x hx => hall x (List.mem_cons_of_mem _ hx))]
        simp [percent_piece, hall c (List.mem_cons_self _ _)]

/-- C28, on a sample text: "a b/é" is a string of bytes and decoding its encoding gives
it back. -/
theorem urlencode_lossless_witness :
    is_byte_string (lit "a b/" ++ ['\xC3', '\xA9']) ∧
    percent_decode (lit "a%20b%2F%C3%A9") = lit "a b/" ++ ['\xC3', '\xA9'] ∧
    percent_decode (urlencode (lit "a b/" ++ ['\xC3', '\xA9']))
      = lit "a b/" ++ ['\xC3', '\xA9'] :=
  have hb : is_byte_string (lit "a b/" ++ ['\xC3', '\xA9']) := by
    unfold is_byte_string; decide
  ⟨hb, by decide, (urlencode_lossless _ hb).1⟩

/-! ## The weekday of the daily slots and the effect of a parsed forecast: theorems -/

/-- The text of the day label of daily slot `i` of a forecast, `none` when the slot's date
cannot be read. -/
def daily_label_of (T : Translations) (p : Prefs) (doc : WeatherDoc) (i : Nat) :
    Option CStr :=
  (atoi_at (doc.daily_time.getD i none) 0).bind fun year =>
  (atoi_at (doc.daily_time.getD i none) 5).bind fun mon =>
  (atoi_at (doc.daily_time.getD i none) 8).bind fun dayd =>
  (day_of_week year mon dayd).bind fun dow => day_label T p i dow

theorem daily_slot_day (T : Translations) (p : Prefs) (doc : WeatherDoc) (is_day : Int)
    (st st' : WeatherState) (i : Nat) (h : daily_slot T p doc is_day st i = some st') :
    (daily_label_of T p doc i).isSome = true ∧
    st'.lbl_daily_day
      = Function.update st.lbl_daily_day i ((daily_label_of T p doc i).getD []) ∧
    st'.img_daily = Function.update st.img_daily i
      (choose_icon (doc.daily_weather_code.getD i 0) (if i = 0 then is_day else 1)) ∧
    st'.img_today_icon = st.img_today_icon ∧
    st'.config_utc_offset = st.config_utc_offset ∧
    st'.img_hourly = st.img_hourly := by
  unfold daily_slot at h
  simp only [Option.bind_eq_bind, Option.bind_eq_some] at h
  obtain ⟨year, hy, mon, hm, dayd, hd, dow, hw, dayStr, hs, mn, -, mx, -, h⟩ := h
  cases h
  have hl : daily_label_of T p doc i = some dayStr := by
    unfold daily_label_of
    rw [hy, hm, hd]
    simp only [Option.some_bind, hw, hs]
  rw [hl]
  exact ⟨rfl, rfl, rfl, rfl, rfl, rfl⟩

theorem hourly_slot_frame (T : Translations) (p : Prefs) (doc : WeatherDoc)
    (st st' : WeatherState) (i : Nat) (h : hourly_slot T p doc st i = some st') :
    st'.lbl_daily_day = st.lbl_daily_day ∧
    st'.img_daily = st.img_daily ∧
    st'.img_today_icon = st.img_today_icon ∧
    st'.config_utc_offset = st.config_utc_offset ∧
    st'.img_hourly = Function.update st.img_hourly i
      (choose_icon (doc.hourly_weather_code.getD i 0) (doc.hourly_is_day.getD i 0)) := by
  unfold hourly_slot at h
  simp only [Option.bind_eq_bind, Option.bind_eq_some] at h
  obtain ⟨hour, -, minute, -, temp, -, precipitation, -, h⟩ := h
  cases h
  exact ⟨rfl, rfl, rfl, rfl, rfl⟩

theorem sun_labels_frame (p : Prefs) (strings : LocalizedStrings) (doc : WeatherDoc)
    (st st' : WeatherState) (h : sun_labels p strings doc st = some st') :
    st'.img_today_icon = st.img_today_icon ∧
    st'.config_utc_offset = st.config_utc_offset := by
  unfold sun_labels at h
  split at h
  · simp only [Option.bind_eq_bind, Option.bind_eq_some] at h
    obtain ⟨a, -, b, -, c, -, d, -, h⟩ := h
    split at h <;> cases h <;> exact ⟨rfl, rfl⟩
  · cases h
    exact ⟨rfl, rfl⟩

/-- The day labels, the images and the clock offset of a completed refresh. -/
theorem apply_forecast_images (T : Translations) (p : Prefs) (doc : WeatherDoc)
    (st st' : WeatherState) (h : apply_forecast T p doc st = some st') :
    st'.img_today_icon = choose_image doc.current_weather_code doc.current_is_day ∧
    st'.config_utc_offset = doc.utc_offset_seconds ∧
    ∀ i, i < 7 →
      (daily_label_of T p doc i).isSome = true ∧
      st'.lbl_daily_day i = (daily_label_of T p doc i).getD [] ∧
      st'.img_daily i = choose_icon (doc.daily_weather_code.getD i 0)
        (if i = 0 then doc.current_is_day else 1) ∧
      st'.img_hourly i
        = choose_icon (doc.hourly_weather_code.getD i 0) (doc.hourly_is_day.getD i 0) := by
  obtain ⟨t_now, t_ap, s1, s2, -, -, h1, h2, h3⟩ := apply_forecast_parts T p doc st st' h
  have hs := sun_labels_frame _ _ _ _ _ h1
  refine ⟨?_, ?_, ?_⟩
  · rw [foldlM_preserve (hourly_slot T p doc) (·.img_today_icon)
        (fun s i s' e => (hourly_slot_frame _ _ _ _ _ _ e).2.2.1) _ _ _ h3,
      foldlM_preserve (daily_slot T p doc doc.current_is_day) (·.img_today_icon)
        (fun s i s' e => (daily_slot_day _ _ _ _ _ _ _ e).2.2.2.1) _ _ _ h2, hs.1]
  · rw [foldlM_preserve (hourly_slot T p doc) (·.config_utc_offset)
        (fun s i s' e => (hourly_slot_frame _ _ _ _ _ _ e).2.2.2.1) _ _ _ h3,
      foldlM_preserve (daily_slot T p doc doc.current_is_day) (·.config_utc_offset)
        (fun s i s' e => (daily_slot_day _ _ _ _ _ _ _ e).2.2.2.2.1) _ _ _ h2, hs.2]
  · intro i hi
    have hmem : i ∈ List.range 7 := List.mem_range.mpr hi
    obtain ⟨t, t', ht⟩ := foldlM_steps _ _ _ _ h2 i hmem
    have e1 := foldlM_preserve (hourly_slot T p doc) (·.lbl_daily_day)
      (fun s i s' e => (hourly_slot_frame _ _ _ _ _ _ e).1) _ _ _ h3
    have e2 := foldlM_preserve (hourly_slot T p doc) (·.img_daily)
      (fun s i s' e => (hourly_slot_frame _ _ _ _ _ _ e).2.1) _ _ _ h3
    have d1 := foldlM_pointwise (daily_slot T p doc doc.current_is_day) (·.lbl_daily_day) _
      (fun s i s' e => (daily_slot_day _ _ _ _ _ _ _ e).2.1) _ _ _ h2 i
    have d2 := foldlM_pointwise (daily_slot T p doc doc.current_is_day) (·.img_daily) _
      (fun s i s' e => (daily_slot_day _ _ _ _ _ _ _ e).2.2.1) _ _ _ h2 i
    have d3 := foldlM_pointwise (hourly_slot T p doc) (·.img_hourly) _
      (fun s i s' e => (hourly_slot_frame _ _ _ _ _ _ e).2.2.2.2) _ _ _ h3 i
    simp only [hmem, if_true] at d1 d2 d3
    simp only [] at e1 e2
    exact ⟨(daily_slot_day _ _ _ _ _ _ _ ht).1, by rw [e1]; exact d1, by rw [e2]; exact d2, d3⟩

/-- C27: in a completed refresh, daily slot `i` has a date string from which `atoi` reads a
year, a month and a day at offsets 0, 5 and 8; the label of slot 0 is the Today text
unless the language is French; the label of slot 0 in French and of every slot from 1 on
is the name of weekday `day_of_week(year, month, day)`; the icon of slot 0 is chosen with
the current `is_day` flag and that of slots 1 to 6 with `is_day` = 1. -/
theorem daily_slot_labels (T : Translations) (p : Prefs) (env : WeatherEnv)
    (st st' : WeatherState) (doc : WeatherDoc)
    (hc : env.wifi_connected = true ∨ env.wifi_reconnected = true)
    (hr : env.response = .ok doc)
    (h : fetch_and_update_weather T p env st = some st') :
    ∀ i, i < 7 →
      ∃ (date : CStr) (year mon dayd dow : Int),
        doc.daily_time.getD i none = some date ∧
        atoi_at (some date) 0 = some year ∧ atoi_at (some date) 5 = some mon ∧
        atoi_at (some date) 8 = some dayd ∧
        day_of_week year mon dayd = some dow ∧
        (i = 0 → p.current_language ≠ T.LANG_FR →
          st'.lbl_daily_day i = (T.get_strings p.current_language).today) ∧
        (i ≠ 0 ∨ p.current_language = T.LANG_FR →
          0 ≤ dow ∧ dow < 7 ∧
          st'.lbl_daily_day i = (T.get_strings p.current_language).weekdays dow.toNat) ∧
        st'.img_daily i = choose_icon (doc.daily_weather_code.getD i 0)
          (if i = 0 then doc.current_is_day else 1) := by
  rw [fetch_weather_parsed T p env st doc hc hr] at h
  obtain ⟨-, -, h3⟩ := apply_forecast_images T p doc st st' h
  intro i hi
  obtain ⟨hsome, hlbl, himg, -⟩ := h3 i hi
  obtain ⟨v, hv⟩ := Option.isSome_iff_exists.mp hsome
  rw [hv] at hlbl
  unfold daily_label_of at hv
  simp only [Option.bind_eq_some] at hv
  obtain ⟨year, hy, mon, hm, dayd, hd, dow, hw, hs⟩ := hv
  cases hdate : doc.daily_time.getD i none with
  | none => rw [hdate] at hy; cases hy
  | some date =>
    rw [hdate] at hy hm hd
    refine ⟨date, year, mon, dayd, dow, rfl, hy, hm, hd, hw, ?_, ?_, himg⟩
    · intro h0 hfr
      unfold day_label at hs
      rw [if_pos ⟨h0, hfr⟩] at hs
      rw [hlbl]
      exact (Option.some.inj hs).symm
    · intro hcase
      unfold day_label at hs
      have hneg : ¬ (i = 0 ∧ p.current_language ≠ T.LANG_FR) := by
        rintro ⟨h0, hfr⟩
        rcases hcase with c | c
        · exact c h0
        · exact hfr c
      rw [if_neg hneg] at hs
      unfold weekday_name at hs
      split at hs
      · rename_i hrange
        rw [hlbl]
        exact ⟨hrange.1, hrange.2, (Option.some.inj hs).symm⟩
      · cases hs

/-- C27, on the sample data (2024-01-01 and the six days after it): in English slot 0 is
labelled "Today" and slot 1 "Tue"; in French (language 2) slot 0 carries the weekday
name. -/
theorem daily_slot_labels_witness :
    fetch_and_update_weather sample_translations ⟨false, true, 0⟩ sample_weather_env
      blank_weather = some sample_celsius_display ∧
    sample_celsius_display.lbl_daily_day 0 = lit "Today" ∧
    sample_celsius_display.lbl_daily_day 1 = lit "Tue" ∧
    sample_celsius_display.lbl_daily_day 6 = lit "Sun" ∧
    ((fetch_and_update_weather sample_translations ⟨false, true, 2⟩ sample_weather_env
      blank_weather).map (fun st => st.lbl_daily_day 0)) = some (lit "Mon") ∧
    sample_celsius_display.img_daily 0 = .icon .sunny ∧
    ∃ (date : CStr) (year mon dayd dow : Int),
      sample_doc.daily_time.getD 1 none = some date ∧
      atoi_at (some date) 0 = some year ∧ atoi_at (some date) 5 = some mon ∧
      atoi_at (some date) 8 = some dayd ∧
      day_of_week year mon dayd = some dow ∧
      (1 = 0 → (0 : Language) ≠ sample_translations.LANG_FR →
        sample_celsius_display.lbl_daily_day 1 = (sample_translations.get_strings 0).today) ∧
      (1 ≠ 0 ∨ (0 : Language) = sample_translations.LANG_FR →
        0 ≤ dow ∧ dow < 7 ∧
        sample_celsius_display.lbl_daily_day 1
          = (sample_translations.get_strings 0).weekdays dow.toNat) ∧
      sample_celsius_display.img_daily 1 = choose_icon (sample_doc.daily_weather_code.getD 1 0)
        (if 1 = 0 then sample_doc.current_is_day else 1) := by
  have hC : fetch_and_update_weather sample_translations ⟨false, true, 0⟩ sample_weather_env
      blank_weather = some sample_celsius_display :=
    getD_of_isSome _ _ (by decide!)
  exact ⟨hC, by decide!, by decide!, by decide!, by decide!, by decide!,
    daily_slot_labels sample_translations ⟨false, true, 0⟩ sample_weather_env blank_weather
      sample_celsius_display sample_doc (Or.inl rfl) rfl hC 1 (by decide)⟩

/-! ## The year passed to `day_of_week`: theorems -/

/-- The decimal digit `k` as a character. -/
def digit_char (k : Nat) : Char := Char.ofNat (48 + k)

/-- The specification's ISO date text `YYYY-MM-DD` of year `y`, month `m`, day `d`. -/
def iso_date (y m d : Nat) : CStr :=
  [digit_char (y / 1000 % 10), digit_char (y / 100 % 10), digit_char (y / 10 % 10),
    digit_char (y % 10), '-', digit_char (m / 10 % 10), digit_char (m % 10), '-',
    digit_char (d / 10 % 10), digit_char (d % 10)]

theorem digit_char_spec : ∀ k, k < 10 →
    (digit_char k).isDigit = true ∧ (digit_char k).toNat - 48 = k ∧
    isspace (digit_char k) = false ∧ digit_char k ≠ '-' ∧ digit_char k ≠ '+' := by
  decide

theorem atoi_digit_head (c : Char) (r : CStr) (hs : isspace c = false) (hm : c ≠ '-')
    (hp : c ≠ '+') : atoi (c :: r) = (atoi_digits (c :: r) 0 : Int) := by
  unfold atoi
  rw [List.dropWhile_cons_of_neg (by simp [hs])]
  split
  · rename_i h; cases h; exact absurd rfl hm
  · rename_i h; cases h; exact absurd rfl hp
  · rfl

theorem atoi_digits_digit (k : Nat) (hk : k < 10) (r : CStr) (acc : Nat) :
    atoi_digits (digit_char k :: r) acc = atoi_digits r (acc * 10 + k) := by
  rw [atoi_digits, if_pos (digit_char_spec k hk).1, (digit_char_spec k hk).2.1]

theorem atoi_digits_stop (r : CStr) (acc : Nat) : atoi_digits ('-' :: r) acc = acc := by
  rw [atoi_digits, if_neg (by decide)]

/-- The three numbers that `atoi` reads at offsets 0, 5 and 8 of an ISO date text are its
year, month and day. -/
theorem atoi_iso_date (y m d : Nat) (hy : y ≤ 9999) (hm : m ≤ 99) (hd : d ≤ 99) :
    atoi_at (some (iso_date y m d)) 0 = some (y : Int) ∧
    atoi_at (some (iso_date y m d)) 5 = some (m : Int) ∧
    atoi_at (some (iso_date y m d)) 8 = some (d : Int) := by
  have h10 : ∀ n, n % 10 < 10 := fun n => Nat.mod_lt _ (by decide)
  refine ⟨?_, ?_, ?_⟩
  · show some (atoi (iso_date y m d)) = _
    unfold iso_date
    obtain ⟨-, -, s1, s2, s3⟩ := digit_char_spec _ (h10 (y / 1000))
    rw [atoi_digit_head _ _ s1 s2 s3, atoi_digits_digit _ (h10 _), atoi_digits_digit _ (h10 _),
      atoi_digits_digit _ (h10 _), atoi_digits_digit _ (h10 _), atoi_digits_stop]
    congr 2
    omega
  · show some (atoi [digit_char (m / 10 % 10), digit_char (m % 10), '-',
      digit_char (d / 10 % 10), digit_char (d % 10)]) = _
    obtain ⟨-, -, s1, s2, s3⟩ := digit_char_spec _ (h10 (m / 10))
    rw [atoi_digit_head _ _ s1 s2 s3, atoi_digits_digit _ (h10 _), atoi_digits_digit _ (h10 _),
      atoi_digits_stop]
    congr 2
    omega
  · show some (atoi [digit_char (d / 10 % 10), digit_char (d % 10)]) = _
    obtain ⟨-, -, s1, s2, s3⟩ := digit_char_spec _ (h10 (d / 10))
    rw [atoi_digit_head _ _ s1 s2 s3, atoi_digits_digit _ (h10 _), atoi_digits_digit _ (h10 _)]
    rw [atoi_digits]
    congr 2
    omega

/-- C24, the claim fails at 2024-01-01, a Monday (weekday 1): called with the pre-adjusted
year 2023, `day_of_week` returns 0, Sunday; called with the year 2024 it returns 1, which
is the reference weekday; and the year read from the date text is 2024. -/
theorem pre_adjusted_year_counterexample :
    valid_date 2024 1 1 ∧
    day_of_week ((2024 : Int) - 1) 1 1 = some 0 ∧
    day_of_week 2024 1 1 = some 1 ∧
    day_of_week (2024 : Nat) (1 : Nat) (1 : Nat) = some (reference_weekday 2024 1 1 : Int) ∧
    iso_date 2024 1 1 = lit "2024-01-01" ∧
    atoi_at (some (lit "2024-01-01")) 0 = some 2024 :=
  ⟨by decide, by decide, by decide,
    day_of_week_eq_reference 2024 1 1 (by decide) (by decide) (by decide) (by decide)
      (by decide),
    by decide, by decide⟩

/-- C24, amended: `day_of_week` subtracts 1 from the year of a date in January or February
itself, and `fetch_and_update_weather` passes it the year as read from the date text. For
every valid date in January or February of a year `Y` from 1 to 1717986918: `day_of_week`
called with `Y` returns the reference weekday of the date; called with the pre-adjusted
year `Y - 1` (for `Y` from 2 on) it returns another weekday; and a completed refresh in
which `atoi` reads `Y`, the month and the day at offsets 0, 5 and 8 of the date text of a
daily slot (as it does in the ISO text of the date, for a year up to 9999) labels the slot
with the name of the reference weekday, the Today label of slot 0 apart. -/
theorem day_of_week_adjusts_year (Y m d : Nat) (h : valid_date Y m d) (hm : m < 3)
    (hY : Y ≤ 1717986918) :
    day_of_week Y m d = some (reference_weekday Y m d : Int) ∧
    (2 ≤ Y → day_of_week ((Y : Int) - 1) m d ≠ some (reference_weekday Y m d : Int)) ∧
    (∀ (T : Translations) (p : Prefs) (env : WeatherEnv) (st st' : WeatherState)
        (doc : WeatherDoc) (i : Nat),
      (env.wifi_connected = true ∨ env.wifi_reconnected = true) →
      env.response = .ok doc →
      fetch_and_update_weather T p env st = some st' →
      i < 7 →
      atoi_at (doc.daily_time.getD i none) 0 = some (Y : Int) →
      atoi_at (doc.daily_time.getD i none) 5 = some (m : Int) →
      atoi_at (doc.daily_time.getD i none) 8 = some (d : Int) →
      (i ≠ 0 ∨ p.current_language = T.LANG_FR) →
      st'.lbl_daily_day i
        = (T.get_strings p.current_language).weekdays (reference_weekday Y m d)) ∧
    (Y ≤ 9999 →
      atoi_at (some (iso_date Y m d)) 0 = some (Y : Int) ∧
      atoi_at (some (iso_date Y m d)) 5 = some (m : Int) ∧
      atoi_at (some (iso_date Y m d)) 8 = some (d : Int)) := by
  obtain ⟨hy, hm1, hm12, -, hd⟩ := h
  have hd31 : d ≤ 31 := le_trans hd (days_in_month_le Y m)
  have href := day_of_week_eq_reference Y m d hy hY hm1 hm12 hd31
  refine ⟨href, ?_, ?_, fun h9 => atoi_iso_date Y m d h9 (by omega) (by omega)⟩
  · intro hY2
    obtain ⟨n, rfl⟩ : ∃ n, Y = n + 2 := ⟨Y - 2, by omega⟩
    have hc : ((n + 2 : Nat) : Int) - 1 = ((n + 1 : Nat) : Int) := by push_cast; ring
    rw [hc, day_of_week_eq_reference (n + 1) m d (by omega) (by omega) hm1 hm12 hd31]
    intro he
    have he' : reference_weekday (n + 1) m d = reference_weekday (n + 2) m d := by
      exact_mod_cast Option.some.inj he
    unfold reference_weekday at he'
    rw [day_number_next_year n m d hm1 hm, days_in_year_eq] at he'
    split at he' <;> omega
  · intro T p env st st' doc i hc hr hfetch hi hy0 hm0 hd0 hcase
    rw [fetch_weather_parsed T p env st doc hc hr] at hfetch
    obtain ⟨-, -, h3⟩ := apply_forecast_images T p doc st st' hfetch
    obtain ⟨-, hlbl, -, -⟩ := h3 i hi
    have hneg : ¬ (i = 0 ∧ p.current_language ≠ T.LANG_FR) := by
      rintro ⟨h0, hfr⟩
      rcases hcase with c | c
      · exact c h0
      · exact hfr c
    have hlt : reference_weekday Y m d < 7 := Nat.mod_lt _ (by decide)
    rw [hlbl]
    unfold daily_label_of
    rw [hy0, hm0, hd0]
    simp only [Option.some_bind, href]
    unfold day_label
    rw [if_neg hneg]
    unfold weekday_name
    rw [if_pos (by omega), Int.toNat_natCast]
    rfl

/-- C24, amended, on the date of the specification: 2024-01-01; in French the refresh of
the sample forecast, whose first date text is "2024-01-01", labels slot 0 "Mon". -/
theorem day_of_week_adjusts_year_witness :
    valid_date 2024 1 1 ∧ (1 : Nat) < 3 ∧
    day_of_week (2024 : Nat) (1 : Nat) (1 : Nat) = some (reference_weekday 2024 1 1 : Int) ∧
    day_of_week (((2024 : Nat) : Int) - 1) (1 : Nat) (1 : Nat)
      ≠ some (reference_weekday 2024 1 1 : Int) ∧
    sample_doc.daily_time.getD 0 none = some (iso_date 2024 1 1) ∧
    ((fetch_and_update_weather sample_translations ⟨false, true, 2⟩ sample_weather_env
      blank_weather).getD blank_weather).lbl_daily_day 0
      = sample_strings.weekdays (reference_weekday 2024 1 1) ∧
    sample_strings.weekdays 1 = lit "Mon" :=
  ⟨by decide, by decide,
    (day_of_week_adjusts_year 2024 1 1 (by decide) (by decide) (by decide)).1,
    (day_of_week_adjusts_year 2024 1 1 (by decide) (by decide) (by decide)).2.1 (by decide),
    by decide,
    (day_of_week_adjusts_year 2024 1 1 (by decide) (by decide) (by decide)).2.2.1
      sample_translations ⟨false, true, 2⟩ sample_weather_env blank_weather _ sample_doc 0
      (Or.inl rfl) rfl (getD_of_isSome _ _ (by decide!)) (by decide) (by decide) (by decide)
      (by decide) (Or.inr rfl),
    by decide⟩

/-! ## A parsed forecast of an unexpected shape: theorems -/

end Aura
